import Mathlib

/-!
# csi2ncdf: the decode-and-accumulate engine of `csi2ncdf.c`

A shallow embedding of `do_conv_csi` and of the input-file loop of `main`.

* `double` values are an abstract carrier `V`; the operations the code applies to
  them (`-`, `*`, `+=`, the casts from and to `int`, the comparison with `NO_VALUE`)
  are fields of `Extern`, next to the helpers of `csibin.h` and the constants of
  `ncdef.h`, none of which is part of `csi2ncdf.c`.
* `int` counters are `Int`; C arrays are total functions on `Int` (`poke` is an
  array store), so a store outside the allocated range is visible in the model
  instead of being undefined.
* `error(...)` leaves the program: a unit step returns `Except Fatal`.
* Listing to standard output (`printline`) is left out; `list_line` is kept because
  it guards loops and updates.
-/

namespace Csi2ncdf

/-! ## Data model -/

/-- The unit kinds of `csibin.h` that the `switch` in `do_conv_csi` distinguishes;
`UNKNOWN` stands for every other return value of `bytetype`. -/
inductive ByteType
  | TXT_VALUE
  | TWO_BYTE
  | FOUR_BYTE_1
  | FOUR_BYTE_2
  | START_OUTPUT
  | DUMMY_WORD
  | UNKNOWN
  deriving DecidableEq, Repr

/-- The ways in which `do_conv_csi` and `main` leave the program through `error`,
and `out_of_fuel` for a loop of the model that was not given enough iterations. -/
inductive Fatal
  | unexpected_byte_pair
  | unknown_byte_type
  | not_in_sync
  | last_file_corrupt
  | out_of_fuel
  deriving DecidableEq, Repr

/-- An array store: `a[k] = v`. -/
def poke {β : Type} (a : Int → β) (k : Int) (v : β) : Int → β :=
  fun j => if j = k then v else a j

/-- The C loop `for (i = 0; i < n; i++) body(i)` over a state. -/
def for_loop {S : Type} : Nat → (Nat → S → S) → S → S
  | 0, _, s => s
  | n + 1, body, s => body n (for_loop n body s)

/-- The store `coldef[i] = f(coldef[i])`; nothing happens outside the table. -/
def modify_at {C : Type} (f : C → C) : Nat → List C → List C
  | _, [] => []
  | 0, c :: cs => f c :: cs
  | n + 1, c :: cs => c :: modify_at f n cs

/-- The fields of `column_def` (declared in `ncdef.h`) that `csi2ncdf.c` reads or writes.
`index` is the lifetime index, `curr_index` the buffer fill, `first_index` the
flush origin. -/
structure column_def (V : Type) where
  array_id : Int
  follow_id : Int
  col_num : Int
  ncol : Int
  nc_var : Int
  FillValue : V
  values : Int → V
  follow_val : Int → V
  index : Int
  curr_index : Int
  first_index : Int
  got_val : Bool
  got_follow_val : Bool
  follow_missed : Int
  i_am_time : Bool
  time_comp : Bool
  time_csi_hm : Bool
  time_colnum : Int
  time_offset : V
  time_mult : V
  time_got_comp : Int
  time_num_comp : Int

/-- One call of `nc_put_vara_double(ncid, nc_var, start, count, values)`. -/
structure nc_write (V : Type) where
  nc_var : Int
  start0 : Int
  start1 : Int
  count0 : Int
  count1 : Int
  values : Int → V

/-- The rows a sink write carries: the first `count0 * count1` cells of the buffer. -/
def nc_write.cells {V : Type} (w : nc_write V) : List V :=
  (List.range (w.count0 * w.count1).toNat).map (fun k => w.values (k : Int))

/-- What `csi2ncdf.c` takes from its headers: constants, the byte decoders of
`csibin.h`, the global table `col2vardef`, and the arithmetic of `double`; `to_float`
is the round trip of a `double` through a `float` variable. -/
structure Extern (V : Type) where
  MAX_SAMPLES : Int
  MAX_BYTES : Nat
  size_t_modulus : Int
  bytetype : Nat → Nat → ByteType
  conv_two_byte : Nat → Nat → V
  conv_four_byte : Nat → Nat → Nat → Nat → V
  conv_arrayid : Nat → Nat → Int
  conv_hour_min : V → V
  to_float : V → V
  is_no_value : V → Bool
  of_int : Int → V
  to_int : V → Int
  zero : V
  add : V → V → V
  sub : V → V → V
  mul : V → V → V
  col2vardef : Int → Nat

/-- Modelled from the spec: the condition objects of `csicond.h` (not part of
`csi2ncdf.c`). A condition is an opaque predicate evaluated incrementally as values
stream in, with a boolean matched state that is queried at record boundaries and a
reset for a new record kind. -/
structure CondOps (κ V : Type) where
  matched : κ → Bool
  evaluate : κ → Int → Int → V → κ
  reset : κ → Int → κ

/-- Modelled from the spec: `all_cond` of `csicond.h`; the conditions of a set are
combined by logical AND. -/
def all_cond {κ V : Type} (O : CondOps κ V) (cs : List κ) : Bool :=
  cs.all O.matched

/-- Modelled from the spec: `check_cond` of `csicond.h`; every condition of the set is
fed the triple (record kind, column, value). -/
def check_cond {κ V : Type} (O : CondOps κ V) (cs : List κ) (array_id colnum : Int)
    (value : V) : List κ :=
  cs.map (fun k => O.evaluate k array_id colnum value)

/-- Modelled from the spec: `reset_cond` of `csicond.h`; every condition of the set is
reset for the new record kind. -/
def reset_cond {κ V : Type} (O : CondOps κ V) (cs : List κ) (array_id : Int) : List κ :=
  cs.map (fun k => O.reset k array_id)

/-- The arguments of `do_conv_csi` that it only reads. `start_cond`/`stop_cond` are
`none` when `cond_text == NULL`. -/
structure Args (κ : Type) where
  list_line : Int
  start_cond : Option κ
  stop_cond : Option κ
  sloppy : Bool
  txtfile : Bool
  fake : Bool
  skip_lines : Nat
  filenum : Nat

/-- The local `have_start` of `do_conv_csi`. -/
def Args.have_start {κ : Type} (a : Args κ) : Bool := a.start_cond.isSome

/-- The local `have_stop` of `do_conv_csi`. -/
def Args.have_stop {κ : Type} (a : Args κ) : Bool := a.stop_cond.isSome

/-- Everything `do_conv_csi` mutates: the objects it reaches through pointers
(`coldef`, `*numcoldef`, `*start_data`, `*stop_data`, `*fake_did_start_output`,
`loc_cond`, the sink) and its locals. -/
structure State (κ V : Type) where
  coldef : List (column_def V)
  numcoldef : Nat
  start_data : Bool
  stop_data : Bool
  fake_did_start_output : Bool
  loc_cond : List κ
  sink : List (nc_write V)
  start_cond : Option κ
  stop_cond : Option κ
  array_id : Int
  colnum : Int
  linenum : Int
  start_of_line : Bool
  valid_sample : Bool
  value : V
  wanted_data : Bool
  l_index : Int
  l_curr_index : Int
  ndummy : Int
  def_array_id : Int
  curr_byte : Int
  num_bytes : Int
  data : Int → Nat
  txtdata : Int → V
  ncol : Int
  end_txtline : Bool

/-! ## Record-boundary finalization (the `START_OUTPUT` case, lines 351-500) -/

variable {κ V : Type}

/-- Lines 353-364: the filter result, the start latch and the stop flag for the
record that has just been completed. -/
def update_flags (O : CondOps κ V) (a : Args κ) (s : State κ V) : State κ V :=
  let s1 := { s with wanted_data := all_cond O s.loc_cond }
  let s2 :=
    if s1.array_id > 0 then
      if a.have_start then
        { s1 with start_data := s1.start_data || all_cond O s1.start_cond.toList }
      else
        { s1 with start_data := true }
    else s1
  if s2.array_id > 0 then
    if a.have_stop then
      { s2 with stop_data := all_cond O s2.stop_cond.toList }
    else s2
  else
    { s2 with stop_data := false }

/-- Lines 379-388: a column without a value for this record gets `FillValue` in all
`ncol` slots of its current sample and advances by one. (Line 379 also stores the fill
value in the local `value`, which lines 474-477 overwrite before it is read.) -/
def fill_missing (c : column_def V) : column_def V :=
  { c with
    values := for_loop c.ncol.toNat
      (fun j vals => poke vals (c.ncol * c.curr_index + (j : Int)) c.FillValue) c.values
    index := c.index + 1
    curr_index := c.curr_index + 1
    got_val := true }

/-- Lines 375-391: the back-fill loop, entered in sloppy mode only. -/
def backfill (a : Args κ) (array_id : Int) (n : Nat) (cd : List (column_def V)) :
    List (column_def V) :=
  if a.sloppy then
    for_loop n (fun i cd =>
      modify_at (fun c =>
        if c.array_id = array_id then
          if !c.got_val then fill_missing c else c
        else c) i cd) cd
  else cd

/-- Lines 392-397: `l_index` and `l_curr_index` are taken from the last column of the
record kind; they keep their old values when there is none. -/
def sync_last (array_id : Int) (n : Nat) (cd : List (column_def V)) (l : Int × Int) :
    Int × Int :=
  for_loop n (fun i l =>
    match cd[i]? with
    | some c => if c.array_id = array_id then (c.index, c.curr_index) else l
    | none => l) l

/-- Lines 398-406: does some column of the record kind differ from `l_index` or
`l_curr_index`? If so `error` is called. -/
def sync_bad (array_id : Int) (n : Nat) (cd : List (column_def V)) (l : Int × Int) : Bool :=
  for_loop n (fun i bad =>
    match cd[i]? with
    | some c =>
      if c.array_id = array_id then
        if l.1 ≠ c.index ∨ l.2 ≠ c.curr_index then true else bad
      else bad
    | none => bad) false

/-- Lines 410-413: the guard of the rollback loop. -/
def rollback_guard (a : Args κ) (s : State κ V) : Bool :=
  ((a.have_start && !s.start_data) || !s.wanted_data || (a.have_stop && s.stop_data))
    && (a.list_line == 0)

/-- Lines 419-424: one column of the rollback loop. -/
def roll_back (array_id : Int) (c : column_def V) : column_def V :=
  if c.got_val ∧ ((c.follow_id = -1 ∧ c.array_id = array_id) ∨ c.follow_id = array_id) then
    { c with index := c.index - 1, curr_index := c.curr_index - 1 }
  else c

/-- Lines 414-425: the rollback loop. -/
def rollback (array_id : Int) (n : Nat) (cd : List (column_def V)) : List (column_def V) :=
  for_loop n (fun i cd => modify_at (roll_back array_id) i cd) cd

/-- Lines 427-428. -/
def reset_got_val (n : Nat) (cd : List (column_def V)) : List (column_def V) :=
  for_loop n (fun i cd => modify_at (fun c => { c with got_val := false }) i cd) cd

/-- Lines 433-440 and 647-654: a derived-time column that has all its components is
finalized. -/
def finish_time (c : column_def V) : column_def V :=
  if c.i_am_time ∧ c.time_got_comp = c.time_num_comp then
    { c with
      curr_index := c.curr_index + 1
      index := c.index + 1
      got_val := true
      time_got_comp := 0 }
  else c

/-- Lines 432-441 and 646-655. -/
def time_coordinate (n : Nat) (cd : List (column_def V)) : List (column_def V) :=
  for_loop n (fun i cd => modify_at finish_time i cd) cd

/-- A conversion to `size_t`. -/
def to_size_t (E : Extern V) (x : Int) : Int := x % E.size_t_modulus

/-- Lines 447-462: one column of the flush loop. -/
def flush_col (E : Extern V) (i : Nat) (st : List (column_def V) × List (nc_write V)) :
    List (column_def V) × List (nc_write V) :=
  match st.1[i]? with
  | none => st
  | some c =>
    if c.curr_index = E.MAX_SAMPLES then
      (modify_at (fun c =>
          { c with
            first_index := c.index
            curr_index := 0
            time_got_comp := if c.i_am_time then 0 else c.time_got_comp }) i st.1,
       st.2 ++ [{ nc_var := c.nc_var
                  start0 := to_size_t E c.first_index
                  start1 := 0
                  count0 := to_size_t E (c.index - c.first_index)
                  count1 := to_size_t E c.ncol
                  values := c.values }])
    else st

/-- Lines 446-462. -/
def flush (E : Extern V) (n : Nat) (st : List (column_def V) × List (nc_write V)) :
    List (column_def V) × List (nc_write V) :=
  for_loop n (flush_col E) st

/-- Lines 373-462: the column table after the synchronization check, up to and
including the flush; `not_in_sync` is the `error` of line 403. -/
def finalize_record (E : Extern V) (a : Args κ) (s : State κ V) :
    Except Fatal (State κ V) :=
  let cd1 := backfill a s.array_id s.numcoldef s.coldef
  let l := sync_last s.array_id s.numcoldef cd1 (s.l_index, s.l_curr_index)
  if sync_bad s.array_id s.numcoldef cd1 l then
    Except.error Fatal.not_in_sync
  else
    let cd2 := if rollback_guard a s then rollback s.array_id s.numcoldef cd1 else cd1
    let cd3 := reset_got_val s.numcoldef cd2
    let cd4 := if s.start_of_line then time_coordinate s.numcoldef cd3 else cd3
    let fl := flush E s.numcoldef (cd4, s.sink)
    Except.ok { s with coldef := fl.1, sink := fl.2, l_index := l.1, l_curr_index := l.2 }

/-- Lines 464-499: the new record is bound: record kind, value for the conditions,
reset of the filter conditions, line counter, byte cursor and column cursor. -/
def begin_record (E : Extern V) (O : CondOps κ V) (a : Args κ) (s : State κ V) :
    State κ V :=
  let array_id :=
    if a.fake then s.def_array_id
    else if a.txtfile then E.to_int (s.txtdata 0)
    else E.conv_arrayid (s.data s.curr_byte) (s.data (s.curr_byte + 1))
  { s with
    array_id := array_id
    value := if !a.fake then E.of_int array_id else s.txtdata 0
    loc_cond := reset_cond O s.loc_cond array_id
    linenum := s.linenum + 1
    curr_byte := if !a.txtfile then s.curr_byte + 2 else s.curr_byte
    colnum := if a.txtfile && a.fake then 0 else 1 }

/-- The `START_OUTPUT` case of the switch (lines 351-500). -/
def start_output (E : Extern V) (O : CondOps κ V) (a : Args κ) (s : State κ V) :
    Except Fatal (State κ V) :=
  (finalize_record E a (update_flags O a s)).map (begin_record E O a)

/-! ## Value routing (lines 533-629) -/

/-- Lines 560-563: the decoded value is stored in the slot of the current sample. -/
def store_direct (colnum : Int) (value : V) (c : column_def V) : column_def V :=
  { c with values := poke c.values (c.ncol * c.curr_index + colnum - c.col_num) value }

/-- Lines 565-567 (and 597-600): the sample is complete. -/
def advance (c : column_def V) : column_def V :=
  { c with index := c.index + 1, curr_index := c.curr_index + 1, got_val := true }

/-- Lines 572-576 and 620-624: a time component is combined into the current slot of
the derived-time column. -/
def add_time_component (E : Extern V) (x : V) (t : column_def V) : column_def V :=
  let v0 := if t.time_got_comp = 0 then poke t.values t.curr_index E.zero else t.values
  { t with
    values := poke v0 t.curr_index (E.add (v0 t.curr_index) x)
    time_got_comp := t.time_got_comp + 1 }

/-- The store into `coldef[timcol]`. -/
def at_timcol (f : column_def V → column_def V) (timcol : Int) (cd : List (column_def V)) :
    List (column_def V) :=
  if timcol < 0 then cd else modify_at f timcol.toNat cd

/-- Lines 584-587: a following variable captures the value of its own record kind. -/
def capture (colnum : Int) (value : V) (c : column_def V) : column_def V :=
  { c with
    follow_val := poke c.follow_val (colnum - c.col_num) value
    got_val := true
    got_follow_val := true }

/-- Lines 592-605: the held values are copied into the current sample. -/
def emit_held (c : column_def V) : column_def V :=
  { c with
    values := for_loop c.ncol.toNat
      (fun j vals => poke vals (c.ncol * c.curr_index + (j : Int)) (c.follow_val (j : Int)))
      c.values
    index := c.index + 1
    curr_index := c.curr_index + 1
    got_val := true
    follow_missed := if c.follow_missed ≠ 0 then 0 else c.follow_missed }

/-- Line 607. -/
def missed (c : column_def V) : column_def V :=
  { c with follow_missed := c.follow_missed + 1 }

/-- Lines 544-552: is column `c` addressed by the unit? -/
def eligible (array_id colnum : Int) (start_of_line : Bool) (c : column_def V) : Bool :=
  (decide (c.array_id = array_id) &&
      (decide (c.col_num = colnum) ||
        (decide (c.col_num ≤ colnum) && decide (c.col_num + c.ncol - 1 ≥ colnum)))) ||
    (decide (c.follow_id = array_id) && start_of_line) ||
    (c.i_am_time && start_of_line)

/-- Lines 536-627: the body of the routing loop for column `i`. The loop state is the
column table and the local `value`, which line 570 overwrites. The local `timvalue` is
a `float` (line 163): the assignments of lines 616 and 618 narrow the held value, which
`to_float` stands for. -/
def route_col (E : Extern V) (array_id colnum : Int) (start_of_line : Bool) (i : Nat)
    (st : List (column_def V) × V) : List (column_def V) × V :=
  match st.1[i]? with
  | none => st
  | some c =>
    if eligible array_id colnum start_of_line c then
      if c.follow_id = -1 ∧ c.i_am_time = false then
        let cd1 := modify_at (store_direct colnum st.2) i st.1
        if c.col_num + c.ncol - 1 = colnum then
          let cd2 := modify_at advance i cd1
          if c.time_comp then
            let value := if c.time_csi_hm then E.conv_hour_min st.2 else st.2
            (at_timcol (add_time_component E (E.mul (E.sub value c.time_offset) c.time_mult))
              c.time_colnum cd2, value)
          else (cd2, st.2)
        else (cd1, st.2)
      else if c.i_am_time = false then
        let cd1 :=
          if c.array_id = array_id then modify_at (capture colnum st.2) i st.1
          else if c.got_follow_val then modify_at emit_held i st.1
          else modify_at missed i st.1
        if ¬ (c.follow_id ≠ -1 ∧ c.array_id = array_id) ∧ c.time_comp = true then
          let timvalue := E.to_float (if c.time_csi_hm then E.conv_hour_min (c.follow_val 0)
            else c.follow_val 0)
          (at_timcol (add_time_component E (E.mul (E.sub timvalue c.time_offset) c.time_mult))
            c.time_colnum cd1, st.2)
        else (cd1, st.2)
      else st
    else st

/-- Lines 534-629. -/
def route (E : Extern V) (a : Args κ) (s : State κ V) : State κ V :=
  if a.list_line = 0 ∧ s.valid_sample = true then
    let r := for_loop s.numcoldef (route_col E s.array_id s.colnum s.start_of_line)
      (s.coldef, s.value)
    { s with coldef := r.1, value := r.2 }
  else s

/-! ## One unit (one pass through the inner `while`, lines 256-629) -/

/-- Lines 257-277: the unit kind at the cursor and the start-of-line flag. -/
def classify (E : Extern V) (a : Args κ) (s : State κ V) : ByteType × State κ V :=
  if a.txtfile then
    if s.colnum = 0 then
      if a.fake && s.fake_did_start_output then
        (ByteType.TXT_VALUE, { s with start_of_line := true })
      else
        (ByteType.START_OUTPUT, { s with start_of_line := true, fake_did_start_output := true })
    else
      (ByteType.TXT_VALUE, { s with start_of_line := false, fake_did_start_output := false })
  else
    (E.bytetype (s.data s.curr_byte) (s.data (s.curr_byte + 1)),
     { s with start_of_line := decide (s.colnum = 1) })

/-- Lines 284-305: a text token. -/
def txt_value (E : Extern V) (s : State κ V) : State κ V :=
  let s1 := if s.colnum ≥ 0 then { s with colnum := s.colnum + 1, valid_sample := true } else s
  let s2 := if s1.colnum = s1.ncol then { s1 with end_txtline := true } else s1
  if E.is_no_value (s2.txtdata (s2.colnum - 1)) then
    match s2.coldef[E.col2vardef (s2.colnum - 1)]? with
    | some c => { s2 with value := c.FillValue }
    | none => s2
  else
    { s2 with value := s2.txtdata (s2.colnum - 1) }

/-- Lines 306-320: a two-byte value. -/
def two_byte (E : Extern V) (s : State κ V) : State κ V :=
  let s1 := { s with value := E.conv_two_byte (s.data s.curr_byte) (s.data (s.curr_byte + 1)) }
  let s2 := if s1.colnum > 0 then { s1 with colnum := s1.colnum + 1, valid_sample := true }
    else s1
  { s2 with curr_byte := s2.curr_byte + 2 }

/-- Lines 321-349: the first half of a four-byte value. -/
def four_byte (E : Extern V) (a : Args κ) (s : State κ V) : Except Fatal (State κ V) :=
  if E.bytetype (s.data (s.curr_byte + 2)) (s.data (s.curr_byte + 3)) = ByteType.FOUR_BYTE_2 then
    let s1 := { s with value := E.conv_four_byte (s.data s.curr_byte) (s.data (s.curr_byte + 1))
                                  (s.data (s.curr_byte + 2)) (s.data (s.curr_byte + 3)) }
    let s2 := if s1.colnum > 0 then { s1 with colnum := s1.colnum + 1, valid_sample := true }
      else s1
    Except.ok { s2 with curr_byte := s2.curr_byte + 4 }
  else if a.sloppy then
    Except.ok { s with curr_byte := s.curr_byte + 1 }
  else
    Except.error Fatal.unexpected_byte_pair

/-- Lines 502-510: a dummy word. -/
def dummy_word (s : State κ V) : State κ V :=
  { s with ndummy := s.ndummy + 1, curr_byte := s.curr_byte + 2, colnum := -1 }

/-- Lines 511-523: any other unit. -/
def unknown_unit (a : Args κ) (s : State κ V) : Except Fatal (State κ V) :=
  if a.sloppy then
    Except.ok { s with curr_byte := s.curr_byte + 1, colnum := -1 }
  else
    Except.error Fatal.unknown_byte_type

/-- Lines 283-524: the switch. -/
def dispatch (E : Extern V) (O : CondOps κ V) (a : Args κ) (myswitch : ByteType)
    (s : State κ V) : Except Fatal (State κ V) :=
  match myswitch with
  | ByteType.TXT_VALUE => Except.ok (txt_value E s)
  | ByteType.TWO_BYTE => Except.ok (two_byte E s)
  | ByteType.FOUR_BYTE_1 => four_byte E a s
  | ByteType.START_OUTPUT => start_output E O a s
  | ByteType.DUMMY_WORD => Except.ok (dummy_word s)
  | ByteType.FOUR_BYTE_2 => unknown_unit a s
  | ByteType.UNKNOWN => unknown_unit a s

/-- Lines 526-531: the conditions are fed the unit. -/
def feed_conditions (O : CondOps κ V) (a : Args κ) (s : State κ V) : State κ V :=
  let s1 := { s with loc_cond := check_cond O s.loc_cond s.array_id s.colnum s.value }
  let s2 :=
    if a.have_start then
      { s1 with start_cond :=
          (check_cond O s1.start_cond.toList s1.array_id s1.colnum s1.value).head? }
    else s1
  if a.have_stop then
    { s2 with stop_cond :=
        (check_cond O s2.stop_cond.toList s2.array_id s2.colnum s2.value).head? }
  else s2

/-- Lines 256-282: the state with which the switch is entered: the start-of-line flag
is set by `classify`, `valid_sample` is cleared and a pending count of dummy words is
reported. -/
def before_switch (E : Extern V) (a : Args κ) (s : State κ V) : State κ V :=
  let s1 : State κ V := { (classify E a s).2 with valid_sample := false }
  if s1.ndummy > 0 ∧ (classify E a s).1 ≠ ByteType.DUMMY_WORD then { s1 with ndummy := 0 } else s1

/-- Lines 256-629: one pass through the body of the inner loop. -/
def unit_step (E : Extern V) (O : CondOps κ V) (a : Args κ) (s : State κ V) :
    Except Fatal (State κ V) :=
  (dispatch E O a (classify E a s).1 (before_switch E a s)).map
    (fun s3 => route E a (feed_conditions O a s3))

/-! ## The loops of `do_conv_csi` (lines 215-632) -/

/-- The guard of the inner loop (lines 254-255). -/
def inner_guard (a : Args κ) (s : State κ V) : Bool :=
  (!a.txtfile && (!s.stop_data && decide (s.curr_byte < s.num_bytes - 2))) ||
    (a.txtfile && (!s.stop_data && !s.end_txtline))

/-- The inner loop (lines 254-630), with a bound on the number of passes. -/
def inner_loop (E : Extern V) (O : CondOps κ V) (a : Args κ) :
    Nat → State κ V → Except Fatal (State κ V)
  | 0, s => if inner_guard a s then Except.error Fatal.out_of_fuel else Except.ok s
  | n + 1, s =>
    if inner_guard a s then (unit_step E O a s).bind (inner_loop E O a n) else Except.ok s

/-- What one read of the input delivers: the bytes `fread` returned, the tokens of the
line `fgets` returned, or nothing because `fgets` returned `NULL`. -/
inductive Read (V : Type)
  | chunk (bytes : List Nat)
  | line (toks : List V)
  | no_line

/-- An input file: its bytes, and (for a text file) its lines as `txtdecode` splits
them into numeric tokens. -/
structure InFile (V : Type) where
  bytes : List Nat
  lines : List (List V)

/-- The successive results of `fread(buffer, 1, MAX_BYTES, infile)` up to and including
the short read that sets the end-of-file indicator. -/
def chunks (max_bytes : Nat) : Nat → List Nat → List (List Nat)
  | 0, bs => [bs]
  | fuel + 1, bs =>
    if bs.length < max_bytes then [bs]
    else bs.take max_bytes :: chunks max_bytes fuel (bs.drop max_bytes)

/-- The successive reads of the outer loop until `feof(infile)` holds; lines 211-213
skip the first `skip_lines` lines of a text file. -/
def reads (E : Extern V) (a : Args κ) (f : InFile V) : List (Read V) :=
  if a.txtfile then
    (f.lines.map Read.line ++ [Read.no_line]).drop a.skip_lines
  else
    (chunks E.MAX_BYTES f.bytes.length f.bytes).map Read.chunk

/-- Modelled from the spec: `txtdecode` (not part of `csi2ncdf.c`) splits the line into
its numeric tokens; `txtdata` keeps what lies behind the last token. -/
def txtdecode (toks : List V) (txtdata : Int → V) : (Int → V) × Int :=
  (fun k => if 0 ≤ k then toks.getD k.toNat (txtdata k) else txtdata k, (toks.length : Int))

/-- Lines 226-237: the read at the head of the outer loop. The local `rest_byte` is
returned with the state. -/
def read_input (r : Read V) (s : State κ V) : Int × State κ V :=
  let rest_byte := s.num_bytes - s.curr_byte
  match r with
  | Read.line toks =>
    (rest_byte, { s with num_bytes := 1, end_txtline := false,
                         txtdata := (txtdecode toks s.txtdata).1,
                         ncol := (txtdecode toks s.txtdata).2, colnum := 0 })
  | Read.no_line =>
    (rest_byte, { s with num_bytes := 0, end_txtline := false, colnum := 0 })
  | Read.chunk bytes =>
    (rest_byte, { s with num_bytes := bytes.length, ncol := bytes.length })

/-- Lines 244-249: the unconsumed bytes move to the front of `data` and the new bytes
are appended. -/
def carry_over (bytes : List Nat) (rest_byte : Int) (s : State κ V) : State κ V :=
  let d1 := for_loop rest_byte.toNat
    (fun i d => poke d (i : Int) (d (s.curr_byte + (i : Int)))) s.data
  let d2 := for_loop s.num_bytes.toNat
    (fun i d => poke d ((i : Int) + rest_byte) (bytes.getD i 0)) d1
  { s with data := d2, num_bytes := s.num_bytes + rest_byte, curr_byte := 0 }

/-- Lines 242-252: in binary mode the bytes read are appended to the carry-over. -/
def prepare_data (a : Args κ) (r : Read V) (rest_byte : Int) (s : State κ V) : State κ V :=
  match r with
  | Read.chunk bytes => if !a.txtfile then carry_over bytes rest_byte s else s
  | _ => s

/-- Lines 226-631: one pass through the body of the outer loop. -/
def read_and_process (E : Extern V) (O : CondOps κ V) (a : Args κ) (r : Read V)
    (s : State κ V) : Except Fatal (State κ V) :=
  let ri := read_input r s
  if ri.2.num_bytes ≠ 0 ∧ ri.2.ncol > 0 then
    let s1 := prepare_data a r ri.1 ri.2
    inner_loop E O a ((s1.num_bytes + s1.ncol).toNat + 2) s1
  else Except.ok ri.2

/-- The guard of the outer loop (lines 221-224) apart from `feof`. -/
def outer_guard (a : Args κ) (s : State κ V) : Bool :=
  !s.stop_data &&
    (decide (a.list_line = 0) || decide (s.linenum ≤ a.list_line) || decide (a.list_line = -1))

/-- The outer loop (lines 221-632) over the reads that remain before end of file. -/
def outer_loop (E : Extern V) (O : CondOps κ V) (a : Args κ) :
    List (Read V) → State κ V → Except Fatal (State κ V)
  | [], s => Except.ok s
  | r :: rs, s =>
    if outer_guard a s then (read_and_process E O a r s).bind (outer_loop E O a rs)
    else Except.ok s

/-! ## Entry, end of stream and final drain -/

/-- Modelled from the spec: `def_nc_file` (not part of `csi2ncdf.c`) reads the format
file; the column definitions are consumed as an already-populated table. -/
def def_nc_file (formfile : List (column_def V)) (s : State κ V) : State κ V :=
  { s with coldef := formfile, numcoldef := formfile.length }

/-- Lines 177-220: the column table is read for the first file only, the session flags
are cleared for the first file only, and the locals are initialized. -/
def initialize_call (E : Extern V) (a : Args κ) (formfile : List (column_def V))
    (s : State κ V) : State κ V :=
  let s0 := { s with numcoldef := 0 }
  let s1 := if a.list_line = 0 ∧ a.filenum = 0 then def_nc_file formfile s0 else s0
  let s2 :=
    if a.filenum = 0 then
      { s1 with fake_did_start_output := false, start_data := false, stop_data := false }
    else s1
  let def_array_id : Int :=
    if a.fake then
      if a.list_line ≠ 0 then 0
      else match s2.coldef[0]? with
        | some c => c.array_id
        | none => 0
    else 0
  { s2 with
    coldef := reset_got_val s2.numcoldef s2.coldef
    start_cond := a.start_cond
    stop_cond := a.stop_cond
    linenum := 0
    colnum := 0
    start_of_line := false
    array_id := -1
    value := E.of_int 0
    l_index := 0
    l_curr_index := 0
    def_array_id := def_array_id
    end_txtline := false
    curr_byte := 0
    num_bytes := 0
    ndummy := 0 }

/-- Lines 665-668: one column of the rollback at the end of the input. -/
def roll_back_last (c : column_def V) : column_def V :=
  if c.got_val then { c with index := c.index - 1, curr_index := c.curr_index - 1 } else c

/-- Lines 660-663: the guard of the rollback at the end of the input. -/
def last_rollback_guard (a : Args κ) (s : State κ V) : Bool :=
  (!s.wanted_data && decide (a.list_line = 0)) ||
    ((a.have_start && !s.start_data) && decide (a.list_line = 0)) ||
    ((a.have_stop && s.stop_data) && decide (a.list_line = 0))

/-- Lines 674-680: one column of the final drain. -/
def drain_col (E : Extern V) (cd : List (column_def V)) (i : Nat) (sink : List (nc_write V)) :
    List (nc_write V) :=
  match cd[i]? with
  | none => sink
  | some c =>
    sink ++ [{ nc_var := c.nc_var
               start0 := to_size_t E c.first_index
               start1 := 0
               count0 := if to_size_t E (c.index - c.first_index) > 0
                 then to_size_t E (c.index - c.first_index) else 0
               count1 := to_size_t E c.ncol
               values := c.values }]

/-- Lines 634-684: the last record is finalized and what remains in the buffers is
written to the sink. -/
def end_of_stream (E : Extern V) (O : CondOps κ V) (a : Args κ) (s : State κ V) :
    State κ V :=
  let s1 := { s with wanted_data := all_cond O s.loc_cond }
  let cd1 := time_coordinate s1.numcoldef s1.coldef
  let cd2 :=
    if last_rollback_guard a s1 then
      for_loop s1.numcoldef (fun i cd => modify_at roll_back_last i cd) cd1
    else cd1
  let sink :=
    if a.list_line = 0 then for_loop s1.numcoldef (drain_col E cd2) s1.sink else s1.sink
  { s1 with coldef := cd2, sink := sink }

/-- The function `do_conv_csi` (lines 145-685). -/
def do_conv_csi (E : Extern V) (O : CondOps κ V) (a : Args κ)
    (formfile : List (column_def V)) (infile : InFile V) (s : State κ V) :
    Except Fatal (State κ V) :=
  (outer_loop E O a (reads E a infile) (initialize_call E a formfile s)).map
    (end_of_stream E O a)

/-! ## The input-file loop of `main` (lines 983-1042) -/

/-- Lines 1002-1007: the largest `index` and `curr_index` of the table, at least 0. -/
def max_counters (n : Nat) (cd : List (column_def V)) : Int × Int :=
  for_loop n (fun i m =>
    match cd[i]? with
    | some c => (if c.index > m.1 then c.index else m.1,
                 if c.curr_index > m.2 then c.curr_index else m.2)
    | none => m) (0, 0)

/-- Lines 1009-1026: one column of the check between two input files. -/
def cross_sync_col (a : Args κ) (m : Int × Int) (i : Nat)
    (r : Except Fatal (List (column_def V))) : Except Fatal (List (column_def V)) :=
  r.bind (fun cd =>
    match cd[i]? with
    | none => Except.ok cd
    | some c =>
      if c.index ≠ m.1 ∧ a.sloppy = false then Except.error Fatal.last_file_corrupt
      else if c.curr_index ≠ m.2 ∧ a.sloppy = false then Except.error Fatal.last_file_corrupt
      else Except.ok (modify_at (fun c =>
        { c with index := if c.index ≠ m.1 then m.1 else c.index
                 curr_index := if c.curr_index ≠ m.2 then m.2 else c.curr_index }) i cd))

/-- Lines 1001-1028: the check before input file `i > 0`. -/
def cross_sync (a : Args κ) (i : Nat) (s : State κ V) : Except Fatal (State κ V) :=
  if a.list_line = 0 ∧ i > 0 then
    (for_loop s.numcoldef (cross_sync_col a (max_counters s.numcoldef s.coldef))
      (Except.ok s.coldef)).map (fun cd => { s with coldef := cd })
  else Except.ok s

/-- Lines 984-1042: the input files are converted one after the other on the same
column table, flags and sink. -/
def convert_files (E : Extern V) (O : CondOps κ V) (a : Args κ)
    (formfile : List (column_def V)) :
    Nat → List (InFile V) → State κ V → Except Fatal (State κ V)
  | _, [], s => Except.ok s
  | i, f :: fs, s =>
    (cross_sync a i s).bind (fun s1 =>
      (do_conv_csi E O { a with filenum := i } formfile f s1).bind
        (convert_files E O a formfile (i + 1) fs))

/-- The function `main` from the first input file on (lines 983-1042). -/
def main (E : Extern V) (O : CondOps κ V) (a : Args κ) (formfile : List (column_def V))
    (files : List (InFile V)) (s : State κ V) : Except Fatal (State κ V) :=
  convert_files E O a formfile 0 files s

/-! ## The loop bodies in closed form -/

/-- Lines 448-456: the sink write of the flush of column `c`. -/
def flush_write (E : Extern V) (c : column_def V) : nc_write V :=
  { nc_var := c.nc_var
    start0 := to_size_t E c.first_index
    start1 := 0
    count0 := to_size_t E (c.index - c.first_index)
    count1 := to_size_t E c.ncol
    values := c.values }

/-- Lines 457-461: the counters of column `c` after its flush. -/
def flush_reset (c : column_def V) : column_def V :=
  { c with
    first_index := c.index
    curr_index := 0
    time_got_comp := if c.i_am_time then 0 else c.time_got_comp }

/-- The writes the flush loop issues for the first `n` columns of the table, in order. -/
def flush_writes (E : Extern V) (n : Nat) (cd : List (column_def V)) : List (nc_write V) :=
  (List.range n).filterMap (fun i =>
    match cd[i]? with
    | some c => if c.curr_index = E.MAX_SAMPLES then some (flush_write E c) else none
    | none => none)

/-- The fields of a column definition that the routing loop only reads. -/
def static_of (c : column_def V) :
    Int × Int × Int × Int × Bool × Bool × Bool × Int × V × V :=
  (c.array_id, c.follow_id, c.col_num, c.ncol, c.i_am_time, c.time_comp, c.time_csi_hm,
    c.time_colnum, c.time_offset, c.time_mult)

/-- Does the routing body of column `d` add a time component to `coldef[time_colnum]`
(lines 568 and 611-614)? -/
def adds_time (array_id colnum : Int) (start_of_line : Bool) (d : column_def V) : Bool :=
  eligible array_id colnum start_of_line d && !d.i_am_time && d.time_comp &&
    (if d.follow_id = -1 then decide (d.col_num + d.ncol - 1 = colnum)
      else decide (d.array_id ≠ array_id))

/-- Does the routing body of column `d` overwrite the local `value` (lines 569-570)? -/
def converts (array_id colnum : Int) (start_of_line : Bool) (d : column_def V) : Bool :=
  adds_time array_id colnum start_of_line d && decide (d.follow_id = -1) && d.time_csi_hm

/-- What the routing body of column `c` does to column `c` itself (lines 558-608). -/
def own_update (array_id colnum : Int) (v : V) (c : column_def V) : column_def V :=
  if c.follow_id = -1 ∧ c.i_am_time = false then
    if c.col_num + c.ncol - 1 = colnum then advance (store_direct colnum v c)
    else store_direct colnum v c
  else if c.i_am_time = false then
    if c.array_id = array_id then capture colnum v c
    else if c.got_follow_val then emit_held c
    else missed c
  else c

/-- The time component that the routing body of column `c` adds (lines 569-575 and
615-623). -/
def time_term (E : Extern V) (v : V) (c : column_def V) : V :=
  if c.follow_id = -1 then
    E.mul (E.sub (if c.time_csi_hm then E.conv_hour_min v else v) c.time_offset) c.time_mult
  else
    E.mul (E.sub (E.to_float (if c.time_csi_hm then E.conv_hour_min (c.follow_val 0)
      else c.follow_val 0)) c.time_offset) c.time_mult

/-! ## Relations between column tables -/

/-- The counter relation of a column: `index - first_index = curr_index`. -/
def counters_agree (c : column_def V) : Bool :=
  decide (c.index - c.first_index = c.curr_index)

/-- Every column of the table satisfies the counter relation. -/
def table_agrees (cd : List (column_def V)) : Bool :=
  cd.all counters_agree

/-- The table `cd'` has as many columns as `cd`, and every column of `cd'` is related by
`R` to the column of `cd` at the same place. -/
def table_rel (R : column_def V → column_def V → Prop) (cd cd' : List (column_def V)) :
    Prop :=
  cd'.length = cd.length ∧
    ∀ (k : Nat) (c c' : column_def V), cd[k]? = some c → cd'[k]? = some c' → R c c'

/-- A relation between the old and the new content of a column that every update of a
column in `do_conv_csi` respects: the routing body on the column itself, a time
component, the back-fill, the two rollbacks, the reset of `got_val`, the finalization
of the time coordinate and the flush. -/
structure Respected (E : Extern V) (R : column_def V → column_def V → Prop) : Prop where
  refl : ∀ c, R c c
  trans : ∀ c1 c2 c3, R c1 c2 → R c2 c3 → R c1 c3
  own : ∀ (array_id colnum : Int) (v : V) (c : column_def V),
    R c (own_update array_id colnum v c)
  time : ∀ (x : V) (c : column_def V), R c (add_time_component E x c)
  fill : ∀ c, R c (fill_missing c)
  back : ∀ (array_id : Int) (c : column_def V), R c (roll_back array_id c)
  reset : ∀ c : column_def V, R c { c with got_val := false }
  finish : ∀ c, R c (finish_time c)
  flushed : ∀ c, R c (flush_reset c)
  back_last : ∀ c, R c (roll_back_last c)

/-- The counter relation is kept from `c` to `c'`. -/
def keeps_agreement (c c' : column_def V) : Prop :=
  counters_agree c = true → counters_agree c' = true

/-- A unit classifier that agrees with the final-storage format on the bytes used
below: `0xFC..0xFF` starts an output array, `0x7F 0xFF` is a dummy word. -/
def sample_bytetype (b0 b1 : Nat) : ByteType :=
  if b0 ≥ 252 then ByteType.START_OUTPUT
  else if b0 = 127 ∧ b1 = 255 then ByteType.DUMMY_WORD
  else if b0 = 28 then ByteType.FOUR_BYTE_1
  else if b0 = 60 then ByteType.FOUR_BYTE_2
  else if b0 < 28 then ByteType.TWO_BYTE
  else ByteType.UNKNOWN

/-- The number of low bits that a magnitude loses in a 24-bit significand. -/
def float_shift : Nat → Nat → Nat
  | 0, _ => 0
  | fuel + 1, n => if n < 2 ^ 24 then 0 else float_shift fuel (n / 2) + 1

/-- An integer rounded to the nearest integer with a 24-bit significand, ties to the
even significand: what a `float` variable keeps of an integral `double` (magnitudes
below `2 ^ 128`). -/
def float_round (v : Int) : Int :=
  let n := v.natAbs
  let e := float_shift 128 n
  let q := n / 2 ^ e
  let r := n % 2 ^ e
  let q1 := if 2 * r > 2 ^ e ∨ (2 * r = 2 ^ e ∧ q % 2 = 1) then q + 1 else q
  if v < 0 then -((q1 * 2 ^ e : Nat) : Int) else ((q1 * 2 ^ e : Nat) : Int)

/-- Integer values, three samples per buffer, reads of eight bytes. -/
def sample_extern : Extern Int :=
  { MAX_SAMPLES := 3
    MAX_BYTES := 8
    size_t_modulus := 2 ^ 64
    bytetype := sample_bytetype
    conv_two_byte := fun b0 b1 => ((b0 * 256 + b1 : Nat) : Int)
    conv_four_byte := fun _ b1 _ b3 => ((b1 * 256 + b3 : Nat) : Int)
    conv_arrayid := fun b0 b1 => (((b0 % 4) * 256 + b1 : Nat) : Int)
    conv_hour_min := fun v => (v / 100) * 3600 + (v % 100) * 60
    to_float := float_round
    is_no_value := fun v => decide (v = -9999)
    of_int := fun i => i
    to_int := fun v => v
    zero := 0
    add := fun x y => x + y
    sub := fun x y => x - y
    mul := fun x y => x * y
    col2vardef := fun _ => 0 }

/-- A condition "the value in column `colnum` of record kind `array_id` equals
`target`"; `status` is the result of the last evaluation. -/
structure SampleCond where
  array_id : Int
  colnum : Int
  target : Int
  status : Bool

/-- The operations on `SampleCond`. -/
def sample_cond : CondOps SampleCond Int :=
  { matched := fun k => k.status
    evaluate := fun k a c v =>
      if a = k.array_id ∧ c = k.colnum then { k with status := decide (v = k.target) } else k
    reset := fun k _ => { k with status := false } }

/-- A scalar column bound directly to column `col_num` of record kind `array_id`. -/
def direct_col (array_id col_num : Int) : column_def Int :=
  { array_id := array_id, follow_id := -1, col_num := col_num, ncol := 1, nc_var := col_num
    FillValue := -1, values := fun _ => 0, follow_val := fun _ => 0
    index := 0, curr_index := 0, first_index := 0, got_val := false, got_follow_val := false
    follow_missed := 0, i_am_time := false, time_comp := false, time_csi_hm := false
    time_colnum := 0, time_offset := 0, time_mult := 0, time_got_comp := 0, time_num_comp := 0 }

/-- A derived-time column that expects `ncomp` components. -/
def time_col (array_id ncomp : Int) : column_def Int :=
  { direct_col array_id 0 with i_am_time := true, time_num_comp := ncomp, nc_var := 99 }

/-- A direct column that is also a component of the time column `coldef[timcol]`. -/
def comp_col (array_id col_num timcol mult : Int) : column_def Int :=
  { direct_col array_id col_num with time_comp := true, time_colnum := timcol, time_mult := mult }

/-- A following variable: captured under `array_id`, written when `follow_id` arrives. -/
def follow_col (array_id col_num follow_id : Int) : column_def Int :=
  { direct_col array_id col_num with follow_id := follow_id }

/-- The objects of `main` before the first call of `do_conv_csi`. -/
def blank : State SampleCond Int :=
  { coldef := [], numcoldef := 0, start_data := false, stop_data := false
    fake_did_start_output := false, loc_cond := [], sink := [], start_cond := none
    stop_cond := none, array_id := 0, colnum := 0, linenum := 0, start_of_line := false
    valid_sample := false, value := 0, wanted_data := false, l_index := 0, l_curr_index := 0
    ndummy := 0, def_array_id := 0, curr_byte := 0, num_bytes := 0, data := fun _ => 0
    txtdata := fun _ => 0, ncol := 0, end_txtline := false }

/-- Conversion of a binary file: no listing, no conditions, strict. -/
def binary_args : Args SampleCond :=
  { list_line := 0, start_cond := none, stop_cond := none, sloppy := false
    txtfile := false, fake := false, skip_lines := 0, filenum := 0 }

/-- Conversion of a text file: no listing, no conditions, strict. -/
def text_args : Args SampleCond :=
  { binary_args with txtfile := true }

/-- The fatal error of a run, if any. -/
def fatal_of {σ : Type} (r : Except Fatal σ) : Option Fatal :=
  match r with
  | Except.error e => some e
  | Except.ok _ => none

/-- The counters `(index, curr_index, first_index)` of every column after a run. -/
def counters_of (r : Except Fatal (State κ V)) : Option (List (Int × Int × Int)) :=
  match r with
  | Except.error _ => none
  | Except.ok s => some (s.coldef.map (fun c => (c.index, c.curr_index, c.first_index)))

/-- The sink after a run: variable, start row, row count and cells of every write. -/
def sink_of (r : Except Fatal (State κ V)) : Option (List (Int × Int × Int × List V)) :=
  match r with
  | Except.error _ => none
  | Except.ok s => some (s.sink.map (fun w => (w.nc_var, w.start0, w.count0, w.cells)))

/-- The start latch after a run. -/
def start_data_of (r : Except Fatal (State κ V)) : Option Bool :=
  match r with
  | Except.error _ => none
  | Except.ok s => some s.start_data

/-- The stop flag after a run. -/
def stop_data_of (r : Except Fatal (State κ V)) : Option Bool :=
  match r with
  | Except.error _ => none
  | Except.ok s => some s.stop_data

/-- The counters `(index, curr_index, first_index)` of every column of a state. -/
def counters (s : State κ V) : List (Int × Int × Int) :=
  s.coldef.map (fun c => (c.index, c.curr_index, c.first_index))

/-- The state with which the inner loop is entered for the second line of a text file:
the first line `l1` has been processed completely and `l2` has been read, so the next
unit is the record start that completes the record of `l1`. -/
def second_line_state (a : Args SampleCond) (formfile : List (column_def Int))
    (l1 l2 : List Int) (s : State SampleCond Int) : State SampleCond Int :=
  match read_and_process sample_extern sample_cond a (Read.line l1)
      (initialize_call sample_extern a formfile s) with
  | Except.ok u => (read_input (Read.line l2) u).2
  | Except.error _ => s

/-- The state with which the inner loop is entered for the first line `l1`. -/
def first_line_state (a : Args SampleCond) (formfile : List (column_def Int))
    (l1 : List Int) (s : State SampleCond Int) : State SampleCond Int :=
  (read_input (Read.line l1) (initialize_call sample_extern a formfile s)).2

/-- A condition on column 2 of record kind `k`: the value equals `target`. -/
def cond_on (k target : Int) : SampleCond :=
  { array_id := k, colnum := 2, target := target, status := false }

/-- Conversion of a text file with the start condition "column 2 of kind `k` is 5". -/
def start_args (k : Int) : Args SampleCond :=
  { text_args with start_cond := some (cond_on k 5) }

/-- Conversion of a text file with the stop condition "column 2 of kind `k` is 5". -/
def stop_args (k : Int) : Args SampleCond :=
  { text_args with stop_cond := some (cond_on k 5) }

/-- The pass count `n` of the inner loop body without its guard: `n` units in a row. -/
def run_units (E : Extern V) (O : CondOps κ V) (a : Args κ) :
    Nat → State κ V → Except Fatal (State κ V)
  | 0, s => Except.ok s
  | n + 1, s => (unit_step E O a s).bind (run_units E O a n)

/-- The state with which the inner loop is entered for the first read of a binary
file. -/
def first_chunk_state (a : Args SampleCond) (formfile : List (column_def Int))
    (bytes : List Nat) (s : State SampleCond Int) : State SampleCond Int :=
  prepare_data a (Read.chunk bytes)
    (read_input (Read.chunk bytes) (initialize_call sample_extern a formfile s)).1
    (read_input (Read.chunk bytes) (initialize_call sample_extern a formfile s)).2

/-- The state after `n` units from `s`, or `s` when one of them aborts. -/
def state_after (a : Args SampleCond) (n : Nat) (s : State SampleCond Int) :
    State SampleCond Int :=
  match run_units sample_extern sample_cond a n s with
  | Except.ok t => t
  | Except.error _ => s

/-- Conversion of a binary file in sloppy mode. -/
def sloppy_args : Args SampleCond :=
  { binary_args with sloppy := true }

/-- The byte cursor after a run. -/
def cursor_of (r : Except Fatal (State κ V)) : Option (Int × Int) :=
  match r with
  | Except.error _ => none
  | Except.ok s => some (s.curr_byte, s.colnum)

/-- A binary record of kind 1 whose first value starts a four-byte pair and is followed
by a two-byte value. -/
def desync_bytes : List Nat := [252, 1, 28, 0, 5, 5, 0, 7]

/-- A binary record of kind 1 followed by a byte pair of no known kind. -/
def unknown_bytes : List Nat := [252, 1, 100, 0, 5, 5, 0, 7]

/-- The state in which the unit after the record start of `bytes` is decoded. -/
def second_unit_state (a : Args SampleCond) (bytes : List Nat) : State SampleCond Int :=
  state_after a 1 (first_chunk_state a [direct_col 1 2] bytes blank)

/-- A column table of `n = 2` columns that are one sample apart. -/
def uneven_state : State SampleCond Int :=
  { blank with
    coldef := [direct_col 1 2, { direct_col 1 3 with index := 1, curr_index := 1 }]
    numcoldef := 2 }

/-- A column whose buffer is full for `sample_extern`. -/
def full_col : column_def Int :=
  { direct_col 1 2 with index := 3, curr_index := 3 }

/-- The `follow_missed` count of every column after a run. -/
def missed_of (r : Except Fatal (State κ V)) : Option (List Int) :=
  match r with
  | Except.error _ => none
  | Except.ok s => some (s.coldef.map (fun c => c.follow_missed))

/-- A time component read from input column 2 in hour-minute notation, followed by a
plain direct column on the same input column, and their time column. -/
def hm_table : List (column_def Int) :=
  [{ comp_col 1 2 2 1 with time_csi_hm := true }, { direct_col 1 2 with nc_var := 5 },
    time_col 7 1]

/-- A column table with an hour column (input column 2), a minute column (input column 3)
and the time column they are combined into. -/
def time_table : List (column_def Int) :=
  [comp_col 1 2 2 3600, comp_col 1 3 2 60, time_col 7 2]

/-- The sink after a run without the cells: variable, start row and row count of every
write. -/
def writes_of (r : Except Fatal (State κ V)) : Option (List (Int × Int × Int)) :=
  match r with
  | Except.error _ => none
  | Except.ok s => some (s.sink.map (fun w => (w.nc_var, w.start0, w.count0)))

/-- The bytes left unconsumed after a run: `num_bytes - curr_byte`. -/
def remainder_of (r : Except Fatal (State κ V)) : Option Int :=
  match r with
  | Except.error _ => none
  | Except.ok s => some (s.num_bytes - s.curr_byte)

/-- The objects of `main` with the filter "column 2 of kind 1 is 5". -/
def filtered : State SampleCond Int :=
  { blank with loc_cond := [cond_on 1 5] }

/-- Conversion of a text file whose lines carry no record kind (`fake`). -/
def fake_args : Args SampleCond :=
  { text_args with fake := true }

/-- The first read of a binary file and the inner loop over it. -/
def first_chunk_run (bytes : List Nat) : Except Fatal (State SampleCond Int) :=
  read_and_process sample_extern sample_cond binary_args (Read.chunk bytes)
    (initialize_call sample_extern binary_args [direct_col 1 2] blank)

/-- The table `hm_table` with the plain direct column in front. -/
def hm_table_swapped : List (column_def Int) :=
  [{ direct_col 1 2 with nc_var := 5 }, { comp_col 1 2 2 1 with time_csi_hm := true },
    time_col 7 1]

/-- The column cursor and the decoded value with which a case of the switch returns. -/
def decoded_of (r : Except Fatal (State κ V)) : Option (Int × V) :=
  match r with
  | Except.error _ => none
  | Except.ok s => some (s.colnum, s.value)

/-- Does every column satisfy the counter relation after a run? -/
def agrees_of (r : Except Fatal (State κ V)) : Option Bool :=
  match r with
  | Except.error _ => none
  | Except.ok s => some (table_agrees s.coldef)

/-- Four records of kind 1 and one record of kind 2. -/
def uneven_file : InFile Int :=
  ⟨[], [[1, 1], [1, 2], [1, 3], [1, 4], [2, 9]]⟩

/-- A binary record of kind 1 that starts with a dummy word and goes on with the
two-byte values 7 and 8. -/
def dummy_bytes : List Nat := [252, 1, 127, 255, 0, 7, 0, 8]

/-- The state after the record start and the dummy word of `dummy_bytes`. -/
def after_dummy_state : State SampleCond Int :=
  state_after binary_args 2 (first_chunk_state binary_args [direct_col 1 2] dummy_bytes blank)

/-- The number of record starts of a run (`linenum`). -/
def linenum_of (r : Except Fatal (State κ V)) : Option Int :=
  match r with
  | Except.error _ => none
  | Except.ok s => some s.linenum

/-- The objects of `main` with the filter "column 1 of kind 1 is 5". -/
def filtered_first : State SampleCond Int :=
  { blank with loc_cond := [{ array_id := 1, colnum := 1, target := 5, status := false }] }

/-! ## Lemmas -/

/-! ### Loops over the column table -/

theorem modify_at_get {C : Type} (f : C → C) (k : Nat) (l : List C) (i : Nat) :
    (modify_at f k l)[i]? = if i = k then l[i]?.map f else l[i]? := by
  induction l generalizing k i with
  | nil => cases k <;> simp [modify_at]
  | cons c cs ih =>
    cases k with
    | zero =>
      cases i with
      | zero => simp [modify_at]
      | succ i => simp [modify_at]
    | succ k =>
      cases i with
      | zero => simp [modify_at]
      | succ i => simp [modify_at, ih]

theorem modify_at_length {C : Type} (f : C → C) (k : Nat) (l : List C) :
    (modify_at f k l).length = l.length := by
  induction l generalizing k with
  | nil => cases k <;> rfl
  | cons c cs ih => cases k <;> simp [modify_at, ih]

theorem for_loop_modify_get {C : Type} (f : C → C) (n : Nat) (l : List C) (i : Nat) :
    (for_loop n (fun k cd => modify_at f k cd) l)[i]? = if i < n then l[i]?.map f else l[i]? := by
  induction n with
  | zero => simp [for_loop]
  | succ n ih =>
    simp only [for_loop]
    rw [modify_at_get, ih]
    by_cases h1 : i = n
    · subst h1
      simp
    · by_cases h2 : i < n
      · have : i < n + 1 := by omega
        simp [h1, h2, this]
      · have : ¬ i < n + 1 := by omega
        simp [h1, h2, this]

theorem rollback_get (array_id : Int) (n : Nat) (cd : List (column_def V)) (i : Nat) :
    (rollback array_id n cd)[i]? =
      if i < n then cd[i]?.map (roll_back array_id) else cd[i]? :=
  for_loop_modify_get (roll_back array_id) n cd i

theorem backfill_strict (a : Args κ) (array_id : Int) (n : Nat) (cd : List (column_def V))
    (h : a.sloppy = false) : backfill a array_id n cd = cd := by
  simp [backfill, h]

theorem backfill_got_val (a : Args κ) (array_id : Int) (n : Nat) (cd : List (column_def V))
    (h : a.sloppy = true) (i : Nat) (hi : i < n) (c : column_def V)
    (hc : (backfill a array_id n cd)[i]? = some c) (hk : c.array_id = array_id) :
    c.got_val = true := by
  simp only [backfill, h, if_true] at hc
  rw [for_loop_modify_get, if_pos hi] at hc
  cases hcd : cd[i]? with
  | none => rw [hcd] at hc; cases hc
  | some c0 =>
    rw [hcd] at hc
    simp only [Option.map_some'] at hc
    cases hc
    by_cases h1 : c0.array_id = array_id
    · rw [if_pos h1] at hk ⊢
      cases hg : c0.got_val with
      | true => simp [hg]
      | false => simp [hg, fill_missing]
    · rw [if_neg h1] at hk
      exact absurd hk h1

/-! ### The synchronization check -/

theorem sync_bad_iff (array_id : Int) (n : Nat) (cd : List (column_def V)) (l : Int × Int) :
    sync_bad array_id n cd l = true ↔
      ∃ i c, i < n ∧ cd[i]? = some c ∧ c.array_id = array_id ∧
        (l.1 ≠ c.index ∨ l.2 ≠ c.curr_index) := by
  induction n with
  | zero => simp [sync_bad, for_loop]
  | succ n ih =>
    unfold sync_bad at ih ⊢
    simp only [for_loop]
    constructor
    · intro h
      cases hc : cd[n]? with
      | none =>
        rw [hc] at h
        obtain ⟨i, c, hi, h1, h2, h3⟩ := ih.mp h
        exact ⟨i, c, by omega, h1, h2, h3⟩
      | some c =>
        rw [hc] at h
        simp only [] at h
        by_cases hk : c.array_id = array_id
        · rw [if_pos hk] at h
          by_cases hd : l.1 ≠ c.index ∨ l.2 ≠ c.curr_index
          · exact ⟨n, c, by omega, hc, hk, hd⟩
          · rw [if_neg hd] at h
            obtain ⟨i, c', hi, h1, h2, h3⟩ := ih.mp h
            exact ⟨i, c', by omega, h1, h2, h3⟩
        · rw [if_neg hk] at h
          obtain ⟨i, c', hi, h1, h2, h3⟩ := ih.mp h
          exact ⟨i, c', by omega, h1, h2, h3⟩
    · rintro ⟨i, c, hi, h1, h2, h3⟩
      by_cases hin : i = n
      · subst hin
        rw [h1]
        simp only []
        rw [if_pos h2, if_pos h3]
      · have hb := ih.mpr ⟨i, c, by omega, h1, h2, h3⟩
        cases hc : cd[n]? with
        | none => simpa using hb
        | some c' =>
          simp only []
          split_ifs <;> first | rfl | exact hb

theorem sync_last_spec (array_id : Int) (n : Nat) (cd : List (column_def V)) (l : Int × Int)
    (h : ∃ i c, i < n ∧ cd[i]? = some c ∧ c.array_id = array_id) :
    ∃ j c, j < n ∧ cd[j]? = some c ∧ c.array_id = array_id ∧
      sync_last array_id n cd l = (c.index, c.curr_index) := by
  induction n with
  | zero =>
    obtain ⟨i, c, hi, _⟩ := h
    omega
  | succ n ih =>
    unfold sync_last at ih ⊢
    simp only [for_loop]
    cases hc : cd[n]? with
    | some c =>
      simp only []
      by_cases hk : c.array_id = array_id
      · rw [if_pos hk]
        exact ⟨n, c, by omega, hc, hk, rfl⟩
      · rw [if_neg hk]
        obtain ⟨i, c', hi, h1, h2⟩ := h
        have hin : i ≠ n := by
          rintro rfl
          rw [hc] at h1
          cases h1
          exact hk h2
        obtain ⟨j, c'', hj, h3, h4, h5⟩ := ih ⟨i, c', by omega, h1, h2⟩
        exact ⟨j, c'', by omega, h3, h4, h5⟩
    | none =>
      simp only []
      obtain ⟨i, c', hi, h1, h2⟩ := h
      have hin : i ≠ n := by
        rintro rfl
        rw [hc] at h1
        cases h1
      obtain ⟨j, c'', hj, h3, h4, h5⟩ := ih ⟨i, c', by omega, h1, h2⟩
      exact ⟨j, c'', by omega, h3, h4, h5⟩

theorem sync_check_iff (array_id : Int) (n : Nat) (cd : List (column_def V)) (l : Int × Int) :
    sync_bad array_id n cd (sync_last array_id n cd l) = true ↔
      ∃ i j ci cj, i < n ∧ j < n ∧ cd[i]? = some ci ∧ cd[j]? = some cj ∧
        ci.array_id = array_id ∧ cj.array_id = array_id ∧
        (ci.index ≠ cj.index ∨ ci.curr_index ≠ cj.curr_index) := by
  rw [sync_bad_iff]
  constructor
  · rintro ⟨i, c, hi, h1, h2, h3⟩
    obtain ⟨j, cj, hj, h4, h5, h6⟩ := sync_last_spec array_id n cd l ⟨i, c, hi, h1, h2⟩
    rw [h6] at h3
    refine ⟨j, i, cj, c, hj, hi, h4, h1, h5, h2, h3⟩
  · rintro ⟨i, j, ci, cj, hi, hj, h1, h2, h3, h4, h5⟩
    obtain ⟨k, ck, hk, h6, h7, h8⟩ := sync_last_spec array_id n cd l ⟨i, ci, hi, h1, h3⟩
    rw [h8]
    by_cases hd : ck.index ≠ ci.index ∨ ck.curr_index ≠ ci.curr_index
    · exact ⟨i, ci, hi, h1, h3, hd⟩
    · refine ⟨j, cj, hj, h2, h4, ?_⟩
      simp only [not_or, not_not] at hd
      simp only []
      rw [hd.1, hd.2]
      exact h5


/-! ### Flags through the stages -/

theorem update_flags_start_mono (O : CondOps κ V) (a : Args κ) (s : State κ V)
    (h : s.start_data = true) : (update_flags O a s).start_data = true := by
  unfold update_flags
  simp only []
  split_ifs <;> simp [h]

theorem finalize_record_flags {E : Extern V} {a : Args κ} {s t : State κ V}
    (h : finalize_record E a s = Except.ok t) :
    t.start_data = s.start_data ∧ t.stop_data = s.stop_data := by
  unfold finalize_record at h
  simp only [] at h
  split_ifs at h <;> (cases h; exact ⟨rfl, rfl⟩)

theorem begin_record_flags (E : Extern V) (O : CondOps κ V) (a : Args κ) (s : State κ V) :
    (begin_record E O a s).start_data = s.start_data ∧
      (begin_record E O a s).stop_data = s.stop_data := ⟨rfl, rfl⟩

theorem txt_value_flags (E : Extern V) (s : State κ V) :
    (txt_value E s).start_data = s.start_data ∧ (txt_value E s).stop_data = s.stop_data := by
  unfold txt_value
  simp only []
  repeat' split
  all_goals exact ⟨rfl, rfl⟩

theorem two_byte_flags (E : Extern V) (s : State κ V) :
    (two_byte E s).start_data = s.start_data ∧ (two_byte E s).stop_data = s.stop_data := by
  unfold two_byte
  simp only []
  split_ifs <;> exact ⟨rfl, rfl⟩

theorem four_byte_flags {E : Extern V} {a : Args κ} {s t : State κ V}
    (h : four_byte E a s = Except.ok t) :
    t.start_data = s.start_data ∧ t.stop_data = s.stop_data := by
  unfold four_byte at h
  simp only [] at h
  split_ifs at h <;> cases h <;> exact ⟨rfl, rfl⟩

theorem unknown_unit_flags {a : Args κ} {s t : State κ V}
    (h : unknown_unit a s = Except.ok t) :
    t.start_data = s.start_data ∧ t.stop_data = s.stop_data := by
  unfold unknown_unit at h
  split_ifs at h
  cases h
  exact ⟨rfl, rfl⟩

theorem feed_conditions_flags (O : CondOps κ V) (a : Args κ) (s : State κ V) :
    (feed_conditions O a s).start_data = s.start_data ∧
      (feed_conditions O a s).stop_data = s.stop_data := by
  unfold feed_conditions
  simp only []
  split_ifs <;> exact ⟨rfl, rfl⟩

theorem route_flags (E : Extern V) (a : Args κ) (s : State κ V) :
    (route E a s).start_data = s.start_data ∧ (route E a s).stop_data = s.stop_data := by
  unfold route
  split_ifs <;> exact ⟨rfl, rfl⟩

theorem classify_flags (E : Extern V) (a : Args κ) (s : State κ V) :
    (classify E a s).2.start_data = s.start_data ∧ (classify E a s).2.stop_data = s.stop_data := by
  unfold classify
  split_ifs <;> exact ⟨rfl, rfl⟩


theorem start_output_start_mono {E : Extern V} {O : CondOps κ V} {a : Args κ} {s t : State κ V}
    (h : start_output E O a s = Except.ok t) (hs : s.start_data = true) :
    t.start_data = true := by
  unfold start_output at h
  cases hf : finalize_record E a (update_flags O a s) with
  | error e => rw [hf] at h; cases h
  | ok u =>
    rw [hf] at h
    cases h
    rw [(begin_record_flags E O a u).1, (finalize_record_flags hf).1]
    exact update_flags_start_mono O a s hs

theorem dispatch_start_mono {E : Extern V} {O : CondOps κ V} {a : Args κ} {m : ByteType}
    {s t : State κ V} (h : dispatch E O a m s = Except.ok t) (hs : s.start_data = true) :
    t.start_data = true := by
  cases m <;> simp only [dispatch] at h
  · cases h; rw [(txt_value_flags E s).1]; exact hs
  · cases h; rw [(two_byte_flags E s).1]; exact hs
  · rw [(four_byte_flags h).1]; exact hs
  · rw [(unknown_unit_flags h).1]; exact hs
  · exact start_output_start_mono h hs
  · cases h; exact hs
  · rw [(unknown_unit_flags h).1]; exact hs

theorem before_switch_flags (E : Extern V) (a : Args κ) (s : State κ V) :
    (before_switch E a s).start_data = s.start_data ∧
      (before_switch E a s).stop_data = s.stop_data := by
  unfold before_switch
  simp only []
  split_ifs <;> exact classify_flags E a s

theorem unit_step_start_mono {E : Extern V} {O : CondOps κ V} {a : Args κ} {s t : State κ V}
    (h : unit_step E O a s = Except.ok t) (hs : s.start_data = true) :
    t.start_data = true := by
  unfold unit_step at h
  cases hd : dispatch E O a (classify E a s).1 (before_switch E a s) with
  | error e => rw [hd] at h; cases h
  | ok u =>
    rw [hd] at h
    cases h
    rw [(route_flags E a _).1, (feed_conditions_flags O a u).1]
    exact dispatch_start_mono hd ((before_switch_flags E a s).1.trans hs)

theorem inner_loop_start_mono {E : Extern V} {O : CondOps κ V} {a : Args κ} (n : Nat) :
    ∀ {s t : State κ V}, inner_loop E O a n s = Except.ok t → s.start_data = true →
      t.start_data = true := by
  induction n with
  | zero =>
    intro s t h hs
    unfold inner_loop at h
    split_ifs at h
    cases h
    exact hs
  | succ n ih =>
    intro s t h hs
    unfold inner_loop at h
    split_ifs at h
    · cases hu : unit_step E O a s with
      | error e => rw [hu] at h; cases h
      | ok u =>
        rw [hu] at h
        exact ih h (unit_step_start_mono hu hs)
    · cases h
      exact hs


theorem read_input_flags (r : Read V) (s : State κ V) :
    (read_input r s).2.start_data = s.start_data ∧ (read_input r s).2.stop_data = s.stop_data := by
  cases r <;> exact ⟨rfl, rfl⟩

theorem prepare_data_flags (a : Args κ) (r : Read V) (rest_byte : Int) (s : State κ V) :
    (prepare_data a r rest_byte s).start_data = s.start_data ∧
      (prepare_data a r rest_byte s).stop_data = s.stop_data := by
  cases r with
  | chunk bytes =>
    simp only [prepare_data]
    split_ifs <;> exact ⟨rfl, rfl⟩
  | line toks => exact ⟨rfl, rfl⟩
  | no_line => exact ⟨rfl, rfl⟩

theorem read_and_process_start_mono {E : Extern V} {O : CondOps κ V} {a : Args κ} {r : Read V}
    {s t : State κ V} (h : read_and_process E O a r s = Except.ok t)
    (hs : s.start_data = true) : t.start_data = true := by
  unfold read_and_process at h
  simp only [] at h
  by_cases hc : (read_input r s).2.num_bytes ≠ 0 ∧ (read_input r s).2.ncol > 0
  · rw [if_pos hc] at h
    refine inner_loop_start_mono _ h ?_
    rw [(prepare_data_flags a r _ _).1, (read_input_flags r s).1]
    exact hs
  · rw [if_neg hc] at h
    cases h
    exact (read_input_flags r s).1.trans hs

theorem outer_loop_start_mono {E : Extern V} {O : CondOps κ V} {a : Args κ}
    (rs : List (Read V)) :
    ∀ {s t : State κ V}, outer_loop E O a rs s = Except.ok t → s.start_data = true →
      t.start_data = true := by
  induction rs with
  | nil =>
    intro s t h hs
    cases h
    exact hs
  | cons r rs ih =>
    intro s t h hs
    unfold outer_loop at h
    split_ifs at h
    · cases hu : read_and_process E O a r s with
      | error e => rw [hu] at h; cases h
      | ok u =>
        rw [hu] at h
        exact ih h (read_and_process_start_mono hu hs)
    · cases h
      exact hs

theorem initialize_call_later_file (E : Extern V) (a : Args κ) (formfile : List (column_def V))
    (s : State κ V) (hf : a.filenum ≠ 0) :
    (initialize_call E a formfile s).start_data = s.start_data ∧
      (initialize_call E a formfile s).stop_data = s.stop_data := by
  unfold initialize_call
  simp [hf, def_nc_file]

theorem initialize_call_first_file (E : Extern V) (a : Args κ) (formfile : List (column_def V))
    (s : State κ V) (hf : a.filenum = 0) :
    (initialize_call E a formfile s).start_data = false ∧
      (initialize_call E a formfile s).stop_data = false := by
  unfold initialize_call
  simp [hf]

theorem end_of_stream_flags (E : Extern V) (O : CondOps κ V) (a : Args κ) (s : State κ V) :
    (end_of_stream E O a s).start_data = s.start_data ∧
      (end_of_stream E O a s).stop_data = s.stop_data := ⟨rfl, rfl⟩

/-! ### The flags at a record boundary -/

theorem update_flags_stop_without_cond (O : CondOps κ V) (a : Args κ) (s : State κ V)
    (hs : a.have_stop = false) (h : s.stop_data = false) :
    (update_flags O a s).stop_data = false := by
  unfold update_flags
  simp only [hs]
  split_ifs <;> simp_all

theorem update_flags_stop_assigned (O : CondOps κ V) (a : Args κ) (s : State κ V)
    (hs : a.have_stop = true) (hk : s.array_id > 0) :
    (update_flags O a s).stop_data = all_cond O s.stop_cond.toList := by
  unfold update_flags
  simp only [hs]
  split_ifs <;> simp_all

theorem update_flags_stop_placeholder (O : CondOps κ V) (a : Args κ) (s : State κ V)
    (hk : s.array_id ≤ 0) : (update_flags O a s).stop_data = false := by
  unfold update_flags
  have : ¬ s.array_id > 0 := by omega
  simp [this]

theorem update_flags_start_latched (O : CondOps κ V) (a : Args κ) (s : State κ V)
    (hk : s.array_id > 0) (hm : a.have_start = true → all_cond O s.start_cond.toList = true) :
    (update_flags O a s).start_data = true := by
  unfold update_flags
  simp only [hk, if_true]
  split_ifs with h1 h2 <;> simp_all

theorem rollback_guard_latched (a : Args κ) (s : State κ V) (hconv : a.list_line = 0)
    (hs : s.start_data = true) :
    rollback_guard a s = true ↔
      (s.wanted_data = false ∨ (a.have_stop = true ∧ s.stop_data = true)) := by
  unfold rollback_guard
  simp [hconv, hs]

/-! ### What a boundary leaves alone -/

theorem classify_frame (E : Extern V) (a : Args κ) (s : State κ V) :
    (classify E a s).2.coldef = s.coldef ∧ (classify E a s).2.numcoldef = s.numcoldef ∧
      (classify E a s).2.array_id = s.array_id ∧ (classify E a s).2.sink = s.sink ∧
      (classify E a s).2.start_cond = s.start_cond ∧
      (classify E a s).2.stop_cond = s.stop_cond ∧
      (classify E a s).2.loc_cond = s.loc_cond := by
  unfold classify
  split_ifs <;> exact ⟨rfl, rfl, rfl, rfl, rfl, rfl, rfl⟩

theorem before_switch_frame (E : Extern V) (a : Args κ) (s : State κ V) :
    (before_switch E a s).coldef = s.coldef ∧ (before_switch E a s).numcoldef = s.numcoldef ∧
      (before_switch E a s).array_id = s.array_id ∧ (before_switch E a s).sink = s.sink ∧
      (before_switch E a s).start_cond = s.start_cond ∧
      (before_switch E a s).stop_cond = s.stop_cond ∧
      (before_switch E a s).loc_cond = s.loc_cond := by
  unfold before_switch
  simp only []
  split_ifs <;> exact classify_frame E a s

theorem before_switch_locals (E : Extern V) (a : Args κ) (s : State κ V) :
    (before_switch E a s).valid_sample = false ∧
      (before_switch E a s).start_of_line = (classify E a s).2.start_of_line := by
  unfold before_switch
  simp only []
  split_ifs <;> exact ⟨rfl, rfl⟩

theorem update_flags_frame (O : CondOps κ V) (a : Args κ) (s : State κ V) :
    (update_flags O a s).coldef = s.coldef ∧ (update_flags O a s).numcoldef = s.numcoldef ∧
      (update_flags O a s).array_id = s.array_id ∧ (update_flags O a s).sink = s.sink ∧
      (update_flags O a s).valid_sample = s.valid_sample ∧
      (update_flags O a s).start_of_line = s.start_of_line ∧
      (update_flags O a s).l_index = s.l_index ∧
      (update_flags O a s).l_curr_index = s.l_curr_index ∧
      (update_flags O a s).wanted_data = all_cond O s.loc_cond := by
  unfold update_flags
  simp only []
  split_ifs <;> exact ⟨rfl, rfl, rfl, rfl, rfl, rfl, rfl, rfl, rfl⟩

/-- The column table that lines 373-462 leave behind, as a function of the rollback
decision. -/
theorem finalize_record_ok {E : Extern V} {a : Args κ} {s t : State κ V}
    (h : finalize_record E a s = Except.ok t) :
    t.coldef = (flush E s.numcoldef
        (if s.start_of_line then
          time_coordinate s.numcoldef (reset_got_val s.numcoldef
            (if rollback_guard a s then
              rollback s.array_id s.numcoldef (backfill a s.array_id s.numcoldef s.coldef)
            else backfill a s.array_id s.numcoldef s.coldef))
        else
          reset_got_val s.numcoldef
            (if rollback_guard a s then
              rollback s.array_id s.numcoldef (backfill a s.array_id s.numcoldef s.coldef)
            else backfill a s.array_id s.numcoldef s.coldef), s.sink)).1 ∧
      t.valid_sample = s.valid_sample := by
  unfold finalize_record at h
  simp only [] at h
  by_cases hb : sync_bad s.array_id s.numcoldef (backfill a s.array_id s.numcoldef s.coldef)
      (sync_last s.array_id s.numcoldef (backfill a s.array_id s.numcoldef s.coldef)
        (s.l_index, s.l_curr_index)) = true
  · rw [if_pos hb] at h
    cases h
  · rw [if_neg hb] at h
    cases h
    exact ⟨rfl, rfl⟩

theorem route_invalid (E : Extern V) (a : Args κ) (s : State κ V)
    (h : s.valid_sample = false) : route E a s = s := by
  unfold route
  simp [h]

theorem feed_conditions_frame (O : CondOps κ V) (a : Args κ) (s : State κ V) :
    (feed_conditions O a s).coldef = s.coldef ∧
      (feed_conditions O a s).valid_sample = s.valid_sample := by
  unfold feed_conditions
  simp only []
  split_ifs <;> exact ⟨rfl, rfl⟩

/-- A unit that is a record start: what `unit_step` returns. -/
theorem unit_step_boundary {E : Extern V} {O : CondOps κ V} {a : Args κ} {s t : State κ V}
    (hcls : (classify E a s).1 = ByteType.START_OUTPUT)
    (h : unit_step E O a s = Except.ok t) :
    ∃ u, finalize_record E a (update_flags O a (before_switch E a s)) = Except.ok u ∧
      t = feed_conditions O a (begin_record E O a u) := by
  unfold unit_step at h
  rw [hcls] at h
  simp only [dispatch, start_output] at h
  cases hf : finalize_record E a (update_flags O a (before_switch E a s)) with
  | error e => rw [hf] at h; cases h
  | ok u =>
    rw [hf] at h
    cases h
    refine ⟨u, rfl, ?_⟩
    apply route_invalid
    rw [(feed_conditions_frame O a _).2]
    show u.valid_sample = false
    rw [(finalize_record_ok hf).2, (update_flags_frame O a _).2.2.2.2.1]
    exact (before_switch_locals E a s).1

/-! ### The stop flag ends both loops -/

theorem inner_loop_stopped (E : Extern V) (O : CondOps κ V) (a : Args κ) (n : Nat)
    (s : State κ V) (h : s.stop_data = true) : inner_loop E O a n s = Except.ok s := by
  have hg : inner_guard a s = false := by
    unfold inner_guard
    simp [h]
  cases n <;> simp [inner_loop, hg]

theorem outer_loop_stopped (E : Extern V) (O : CondOps κ V) (a : Args κ) (rs : List (Read V))
    (s : State κ V) (h : s.stop_data = true) : outer_loop E O a rs s = Except.ok s := by
  have hg : outer_guard a s = false := by
    unfold outer_guard
    simp [h]
  cases rs <;> simp [outer_loop, hg]

theorem dispatch_stop_without_cond {E : Extern V} {O : CondOps κ V} {a : Args κ}
    {m : ByteType} {s t : State κ V} (h : dispatch E O a m s = Except.ok t)
    (hc : a.have_stop = false) (hs : s.stop_data = false) : t.stop_data = false := by
  cases m <;> simp only [dispatch] at h
  · cases h; rw [(txt_value_flags E s).2]; exact hs
  · cases h; rw [(two_byte_flags E s).2]; exact hs
  · rw [(four_byte_flags h).2]; exact hs
  · rw [(unknown_unit_flags h).2]; exact hs
  · unfold start_output at h
    cases hf : finalize_record E a (update_flags O a s) with
    | error e => rw [hf] at h; cases h
    | ok u =>
      rw [hf] at h
      cases h
      rw [(begin_record_flags E O a u).2, (finalize_record_flags hf).2]
      exact update_flags_stop_without_cond O a s hc hs
  · cases h; exact hs
  · rw [(unknown_unit_flags h).2]; exact hs

theorem unit_step_stop_without_cond {E : Extern V} {O : CondOps κ V} {a : Args κ}
    {s t : State κ V} (h : unit_step E O a s = Except.ok t)
    (hc : a.have_stop = false) (hs : s.stop_data = false) : t.stop_data = false := by
  unfold unit_step at h
  cases hd : dispatch E O a (classify E a s).1 (before_switch E a s) with
  | error e => rw [hd] at h; cases h
  | ok u =>
    rw [hd] at h
    cases h
    rw [(route_flags E a _).2, (feed_conditions_flags O a u).2]
    exact dispatch_stop_without_cond hd hc ((before_switch_flags E a s).2.trans hs)

theorem run_units_start_mono {E : Extern V} {O : CondOps κ V} {a : Args κ} (n : Nat) :
    ∀ {s t : State κ V}, run_units E O a n s = Except.ok t → s.start_data = true →
      t.start_data = true := by
  induction n with
  | zero =>
    intro s t h hs
    cases h
    exact hs
  | succ n ih =>
    intro s t h hs
    unfold run_units at h
    cases hu : unit_step E O a s with
    | error e => rw [hu] at h; cases h
    | ok u =>
      rw [hu] at h
      exact ih h (unit_step_start_mono hu hs)

/-! ### Reading the outcome of a run -/

/-- A run that returned has a final state. -/
theorem ok_of_fatal_none {σ : Type} {r : Except Fatal σ} (h : fatal_of r = none) :
    ∃ t, r = Except.ok t := by
  cases r with
  | error e => cases h
  | ok t => exact ⟨t, rfl⟩

theorem eq_error_of_fatal {σ : Type} {r : Except Fatal σ} {e : Fatal}
    (h : fatal_of r = some e) : r = Except.error e := by
  cases r with
  | error e' =>
    simp only [fatal_of, Option.some.injEq] at h
    rw [h]
  | ok t => cases h

/-! ### A record-start unit as a whole -/

theorem unit_step_boundary_flags {E : Extern V} {O : CondOps κ V} {a : Args κ}
    {s t : State κ V} (hcls : (classify E a s).1 = ByteType.START_OUTPUT)
    (h : unit_step E O a s = Except.ok t) :
    t.start_data = (update_flags O a (before_switch E a s)).start_data ∧
      t.stop_data = (update_flags O a (before_switch E a s)).stop_data := by
  obtain ⟨u, hu, rfl⟩ := unit_step_boundary hcls h
  rw [(feed_conditions_flags O a _).1, (feed_conditions_flags O a _).2,
    (begin_record_flags E O a u).1, (begin_record_flags E O a u).2]
  exact finalize_record_flags hu

theorem unit_step_boundary_coldef {E : Extern V} {O : CondOps κ V} {a : Args κ}
    {s t : State κ V} (hcls : (classify E a s).1 = ByteType.START_OUTPUT)
    (h : unit_step E O a s = Except.ok t) :
    t.coldef = (flush E s.numcoldef
        (if (classify E a s).2.start_of_line then
          time_coordinate s.numcoldef (reset_got_val s.numcoldef
            (if rollback_guard a (update_flags O a (before_switch E a s)) then
              rollback s.array_id s.numcoldef (backfill a s.array_id s.numcoldef s.coldef)
            else backfill a s.array_id s.numcoldef s.coldef))
        else
          reset_got_val s.numcoldef
            (if rollback_guard a (update_flags O a (before_switch E a s)) then
              rollback s.array_id s.numcoldef (backfill a s.array_id s.numcoldef s.coldef)
            else backfill a s.array_id s.numcoldef s.coldef), s.sink)).1 := by
  obtain ⟨u, hu, rfl⟩ := unit_step_boundary hcls h
  rw [(feed_conditions_frame O a _).1]
  show u.coldef = _
  rw [(finalize_record_ok hu).1]
  obtain ⟨h1, h2, h3, h4, -, h6, -⟩ := update_flags_frame O a (before_switch E a s)
  obtain ⟨g1, g2, g3, g4, -⟩ := before_switch_frame E a s
  rw [h1, h2, h3, h4, h6, g1, g2, g3, g4, (before_switch_locals E a s).2]


theorem inner_guard_running {a : Args κ} {s : State κ V} (h : inner_guard a s = true) :
    s.stop_data = false := by
  unfold inner_guard at h
  cases hs : s.stop_data
  · rfl
  · simp [hs] at h

/-! ### Without a stop condition the stop flag stays clear -/

theorem inner_loop_stop_without_cond {E : Extern V} {O : CondOps κ V} {a : Args κ} (n : Nat)
    (hc : a.have_stop = false) :
    ∀ {s t : State κ V}, inner_loop E O a n s = Except.ok t → s.stop_data = false →
      t.stop_data = false := by
  induction n with
  | zero =>
    intro s t h hs
    unfold inner_loop at h
    split_ifs at h
    cases h
    exact hs
  | succ n ih =>
    intro s t h hs
    unfold inner_loop at h
    split_ifs at h
    · cases hu : unit_step E O a s with
      | error e => rw [hu] at h; cases h
      | ok u =>
        rw [hu] at h
        exact ih h (unit_step_stop_without_cond hu hc hs)
    · cases h
      exact hs

theorem read_and_process_stop_without_cond {E : Extern V} {O : CondOps κ V} {a : Args κ}
    {r : Read V} {s t : State κ V} (h : read_and_process E O a r s = Except.ok t)
    (hc : a.have_stop = false) (hs : s.stop_data = false) : t.stop_data = false := by
  unfold read_and_process at h
  simp only [] at h
  by_cases hn : (read_input r s).2.num_bytes ≠ 0 ∧ (read_input r s).2.ncol > 0
  · rw [if_pos hn] at h
    refine inner_loop_stop_without_cond _ hc h ?_
    rw [(prepare_data_flags a r _ _).2, (read_input_flags r s).2]
    exact hs
  · rw [if_neg hn] at h
    cases h
    exact (read_input_flags r s).2.trans hs

theorem outer_loop_stop_without_cond {E : Extern V} {O : CondOps κ V} {a : Args κ}
    (rs : List (Read V)) (hc : a.have_stop = false) :
    ∀ {s t : State κ V}, outer_loop E O a rs s = Except.ok t → s.stop_data = false →
      t.stop_data = false := by
  induction rs with
  | nil =>
    intro s t h hs
    cases h
    exact hs
  | cons r rs ih =>
    intro s t h hs
    unfold outer_loop at h
    split_ifs at h
    · cases hu : read_and_process E O a r s with
      | error e => rw [hu] at h; cases h
      | ok u =>
        rw [hu] at h
        exact ih h (read_and_process_stop_without_cond hu hc hs)
    · cases h
      exact hs

/-! ### The cursor through one unit -/

theorem classify_cursor (E : Extern V) (a : Args κ) (s : State κ V) :
    (classify E a s).2.colnum = s.colnum ∧ (classify E a s).2.curr_byte = s.curr_byte ∧
      (classify E a s).2.data = s.data ∧ (classify E a s).2.value = s.value ∧
      (classify E a s).2.num_bytes = s.num_bytes ∧ (classify E a s).2.ndummy = s.ndummy := by
  unfold classify
  split_ifs <;> exact ⟨rfl, rfl, rfl, rfl, rfl, rfl⟩

theorem before_switch_cursor (E : Extern V) (a : Args κ) (s : State κ V) :
    (before_switch E a s).colnum = s.colnum ∧ (before_switch E a s).curr_byte = s.curr_byte ∧
      (before_switch E a s).data = s.data ∧ (before_switch E a s).value = s.value ∧
      (before_switch E a s).num_bytes = s.num_bytes := by
  obtain ⟨h1, h2, h3, h4, h5, -⟩ := classify_cursor E a s
  unfold before_switch
  simp only []
  split_ifs <;> exact ⟨h1, h2, h3, h4, h5⟩

theorem classify_binary (E : Extern V) (a : Args κ) (s : State κ V) (h : a.txtfile = false) :
    (classify E a s).1 = E.bytetype (s.data s.curr_byte) (s.data (s.curr_byte + 1)) ∧
      (classify E a s).2.start_of_line = decide (s.colnum = 1) := by
  unfold classify
  simp [h]

theorem feed_conditions_cursor (O : CondOps κ V) (a : Args κ) (s : State κ V) :
    (feed_conditions O a s).colnum = s.colnum ∧ (feed_conditions O a s).curr_byte = s.curr_byte ∧
      (feed_conditions O a s).sink = s.sink ∧ (feed_conditions O a s).numcoldef = s.numcoldef ∧
      (feed_conditions O a s).array_id = s.array_id ∧ (feed_conditions O a s).value = s.value ∧
      (feed_conditions O a s).start_of_line = s.start_of_line ∧
      (feed_conditions O a s).data = s.data := by
  unfold feed_conditions
  simp only []
  split_ifs <;> exact ⟨rfl, rfl, rfl, rfl, rfl, rfl, rfl, rfl⟩

/-- A unit whose case of the switch returns with `valid_sample` cleared: the conditions
are fed and nothing is routed. -/
theorem unit_step_not_routed {E : Extern V} {O : CondOps κ V} {a : Args κ}
    {s u : State κ V}
    (hd : dispatch E O a (classify E a s).1 (before_switch E a s) = Except.ok u)
    (hv : u.valid_sample = false) :
    unit_step E O a s = Except.ok (feed_conditions O a u) := by
  unfold unit_step
  rw [hd]
  show Except.ok (route E a (feed_conditions O a u)) = _
  rw [route_invalid E a _ (by rw [(feed_conditions_frame O a u).2]; exact hv)]

theorem inner_loop_step {E : Extern V} {O : CondOps κ V} {a : Args κ} {s : State κ V}
    (n : Nat) (hg : inner_guard a s = true) :
    inner_loop E O a (n + 1) s = (unit_step E O a s).bind (inner_loop E O a n) := by
  simp [inner_loop, hg]

/-! ### Stores into a range of slots -/

theorem poke_range (m : Nat) (base : Int) (g : Nat → V) (vals : Int → V) (k : Int) :
    for_loop m (fun j w => poke w (base + (j : Int)) (g j)) vals k =
      if base ≤ k ∧ k < base + (m : Int) then g (k - base).toNat else vals k := by
  induction m with
  | zero =>
    simp only [for_loop]
    rw [if_neg]
    intro h
    have := h.1
    have := h.2
    simp at *
    omega
  | succ m ih =>
    simp only [for_loop, poke]
    by_cases hk : k = base + (m : Int)
    · rw [if_pos hk, if_pos]
      · congr 1
        omega
      · constructor
        · omega
        · push_cast
          omega
    · rw [if_neg hk, ih]
      by_cases hr : base ≤ k ∧ k < base + (m : Int)
      · rw [if_pos hr, if_pos]
        constructor
        · exact hr.1
        · push_cast
          omega
      · rw [if_neg hr, if_neg]
        intro h
        apply hr
        constructor
        · exact h.1
        · have := h.2
          push_cast at this
          omega

/-! ### The flush loop -/

theorem flush_col_eq (E : Extern V) (i : Nat) (st : List (column_def V) × List (nc_write V)) :
    flush_col E i st =
      match st.1[i]? with
      | none => st
      | some c =>
        if c.curr_index = E.MAX_SAMPLES then
          (modify_at flush_reset i st.1, st.2 ++ [flush_write E c])
        else st := rfl

theorem flush_writes_succ (E : Extern V) (n : Nat) (cd : List (column_def V)) :
    flush_writes E (n + 1) cd = flush_writes E n cd ++
      (match cd[n]? with
       | some c => if c.curr_index = E.MAX_SAMPLES then [flush_write E c] else []
       | none => []) := by
  unfold flush_writes
  rw [List.range_succ, List.filterMap_append]
  congr 1
  cases hc : cd[n]? with
  | none => simp [List.filterMap, hc]
  | some c =>
    by_cases h : c.curr_index = E.MAX_SAMPLES
    · simp [List.filterMap, hc, h]
    · simp [List.filterMap, hc, h]

theorem flush_spec (E : Extern V) (n : Nat) (cd : List (column_def V))
    (sk : List (nc_write V)) :
    (∀ i : Nat, (flush E n (cd, sk)).1[i]? =
      if i < n then cd[i]?.map (fun c =>
        if c.curr_index = E.MAX_SAMPLES then flush_reset c else c) else cd[i]?) ∧
    (flush E n (cd, sk)).2 = sk ++ flush_writes E n cd := by
  induction n with
  | zero => simp [flush, for_loop, flush_writes]
  | succ n ih =>
    obtain ⟨ih1, ih2⟩ := ih
    have hstep : flush E (n + 1) (cd, sk) = flush_col E n (flush E n (cd, sk)) := rfl
    have hn : (flush E n (cd, sk)).1[n]? = cd[n]? := by
      rw [ih1 n, if_neg (Nat.lt_irrefl n)]
    rw [hstep, flush_col_eq, hn, flush_writes_succ]
    cases hc : cd[n]? with
    | none =>
      refine ⟨fun i => ?_, by simp [ih2]⟩
      simp only []
      rw [ih1 i]
      by_cases h1 : i = n
      · subst h1
        simp [hc]
      · by_cases h2 : i < n
        · have : i < n + 1 := by omega
          simp [h2, this]
        · have : ¬ i < n + 1 := by omega
          simp [h2, this]
    | some c =>
      by_cases hfull : c.curr_index = E.MAX_SAMPLES
      · simp only [hfull, if_true]
        refine ⟨fun i => ?_, by rw [ih2, List.append_assoc]⟩
        rw [modify_at_get, ih1 i]
        by_cases h1 : i = n
        · subst h1
          simp [hc, hfull]
        · by_cases h2 : i < n
          · have : i < n + 1 := by omega
            simp [h1, h2, this]
          · have : ¬ i < n + 1 := by omega
            simp [h1, h2, this]
      · simp only [hfull, if_false]
        refine ⟨fun i => ?_, by simp [ih2]⟩
        rw [ih1 i]
        by_cases h1 : i = n
        · subst h1
          simp [hc, hfull]
        · by_cases h2 : i < n
          · have : i < n + 1 := by omega
            simp [h2, this]
          · have : ¬ i < n + 1 := by omega
            simp [h2, this]

theorem to_size_t_id (E : Extern V) (x : Int) (h0 : 0 ≤ x) (h1 : x < E.size_t_modulus) :
    to_size_t E x = x := by
  unfold to_size_t
  exact Int.emod_eq_of_lt h0 h1

/-! ### The check between input files -/

/-! ### The check between two input files -/

theorem max_counters_spec (n : Nat) (cd : List (column_def V)) :
    0 ≤ (max_counters n cd).1 ∧ 0 ≤ (max_counters n cd).2 ∧
    (∀ (i : Nat) (c : column_def V), i < n → cd[i]? = some c →
      c.index ≤ (max_counters n cd).1 ∧ c.curr_index ≤ (max_counters n cd).2) ∧
    ((max_counters n cd).1 = 0 ∨
      ∃ (i : Nat) (c : column_def V), i < n ∧ cd[i]? = some c ∧
        c.index = (max_counters n cd).1) ∧
    ((max_counters n cd).2 = 0 ∨
      ∃ (i : Nat) (c : column_def V), i < n ∧ cd[i]? = some c ∧
        c.curr_index = (max_counters n cd).2) := by
  induction n with
  | zero =>
    refine ⟨le_refl _, le_refl _, ?_, Or.inl rfl, Or.inl rfl⟩
    intro i c hi
    omega
  | succ n ih =>
    obtain ⟨a1, a2, a3, a4, a5⟩ := ih
    have hstep : max_counters (n + 1) cd =
        (match cd[n]? with
         | some c => (if c.index > (max_counters n cd).1 then c.index
                        else (max_counters n cd).1,
                      if c.curr_index > (max_counters n cd).2 then c.curr_index
                        else (max_counters n cd).2)
         | none => max_counters n cd) := rfl
    rw [hstep]
    cases hc : cd[n]? with
    | none =>
      simp only []
      refine ⟨a1, a2, ?_, ?_, ?_⟩
      · intro i c hi hci
        have hin : i ≠ n := by
          rintro rfl
          rw [hc] at hci
          cases hci
        exact a3 i c (by omega) hci
      · rcases a4 with h | ⟨i, c, hi, h1, h2⟩
        · exact Or.inl h
        · exact Or.inr ⟨i, c, by omega, h1, h2⟩
      · rcases a5 with h | ⟨i, c, hi, h1, h2⟩
        · exact Or.inl h
        · exact Or.inr ⟨i, c, by omega, h1, h2⟩
    | some c =>
      simp only []
      refine ⟨?_, ?_, ?_, ?_, ?_⟩
      · split_ifs <;> omega
      · split_ifs <;> omega
      · intro i c' hi hci
        by_cases hin : i = n
        · subst hin
          rw [hc] at hci
          cases hci
          constructor <;> split_ifs <;> omega
        · obtain ⟨b1, b2⟩ := a3 i c' (by omega) hci
          constructor <;> split_ifs <;> omega
      · by_cases hgt : c.index > (max_counters n cd).1
        · rw [if_pos hgt]
          exact Or.inr ⟨n, c, by omega, hc, rfl⟩
        · rw [if_neg hgt]
          rcases a4 with h | ⟨i, c', hi, h1, h2⟩
          · exact Or.inl h
          · exact Or.inr ⟨i, c', by omega, h1, h2⟩
      · by_cases hgt : c.curr_index > (max_counters n cd).2
        · rw [if_pos hgt]
          exact Or.inr ⟨n, c, by omega, hc, rfl⟩
        · rw [if_neg hgt]
          rcases a5 with h | ⟨i, c', hi, h1, h2⟩
          · exact Or.inl h
          · exact Or.inr ⟨i, c', by omega, h1, h2⟩

/-- The strict check: the loop fails at the first column that is not at the maxima and
otherwise leaves the table as it is. -/
theorem cross_sync_strict (a : Args κ) (hs : a.sloppy = false) (m : Int × Int)
    (cd : List (column_def V)) (n : Nat) :
    (for_loop n (cross_sync_col a m) (Except.ok cd) = Except.ok cd ∧
      ∀ (i : Nat) (c : column_def V), i < n → cd[i]? = some c →
        c.index = m.1 ∧ c.curr_index = m.2) ∨
    (for_loop n (cross_sync_col a m) (Except.ok cd) = Except.error Fatal.last_file_corrupt ∧
      ∃ (i : Nat) (c : column_def V), i < n ∧ cd[i]? = some c ∧
        (c.index ≠ m.1 ∨ c.curr_index ≠ m.2)) := by
  induction n with
  | zero =>
    left
    refine ⟨rfl, ?_⟩
    intro i c hi
    omega
  | succ n ih =>
    have hstep : for_loop (n + 1) (cross_sync_col a m) (Except.ok cd) =
        cross_sync_col a m n (for_loop n (cross_sync_col a m) (Except.ok cd)) := rfl
    rw [hstep]
    rcases ih with ⟨h1, h2⟩ | ⟨h1, i, c, hi, h2, h3⟩
    · rw [h1]
      simp only [cross_sync_col, Except.bind]
      cases hc : cd[n]? with
      | none =>
        left
        refine ⟨rfl, ?_⟩
        intro i c hi hci
        have hin : i ≠ n := by
          rintro rfl
          rw [hc] at hci
          cases hci
        exact h2 i c (by omega) hci
      | some c =>
        simp only []
        by_cases hx : c.index ≠ m.1
        · right
          refine ⟨?_, n, c, by omega, hc, Or.inl hx⟩
          rw [if_pos ⟨hx, hs⟩]
        · by_cases hy : c.curr_index ≠ m.2
          · right
            refine ⟨?_, n, c, by omega, hc, Or.inr hy⟩
            rw [if_neg (fun h => hx h.1), if_pos ⟨hy, hs⟩]
          · left
            simp only [not_not] at hx hy
            constructor
            · rw [if_neg (fun h => h.1 hx), if_neg (fun h => h.1 hy)]
              congr 1
              apply List.ext_getElem?
              intro k
              rw [modify_at_get]
              by_cases hk : k = n
              · subst hk
                rw [if_pos rfl, hc]
                cases c
                simp_all
              · rw [if_neg hk]
            · intro i c' hi hci
              by_cases hin : i = n
              · subst hin
                rw [hc] at hci
                cases hci
                exact ⟨hx, hy⟩
              · exact h2 i c' (by omega) hci
    · right
      refine ⟨?_, i, c, by omega, h2, h3⟩
      rw [h1]
      rfl

/-- The sloppy check never fails and moves the columns to `m`. -/
theorem cross_sync_sloppy (a : Args κ) (hs : a.sloppy = true) (m : Int × Int)
    (cd : List (column_def V)) (n : Nat) :
    ∃ cd', for_loop n (cross_sync_col a m) (Except.ok cd) = Except.ok cd' ∧
      ∀ i : Nat, cd'[i]? =
        if i < n then cd[i]?.map (fun c =>
          { c with index := if c.index ≠ m.1 then m.1 else c.index
                   curr_index := if c.curr_index ≠ m.2 then m.2 else c.curr_index })
        else cd[i]? := by
  induction n with
  | zero => exact ⟨cd, rfl, fun i => by simp⟩
  | succ n ih =>
    obtain ⟨cd', h1, h2⟩ := ih
    have hstep : for_loop (n + 1) (cross_sync_col a m) (Except.ok cd) =
        cross_sync_col a m n (for_loop n (cross_sync_col a m) (Except.ok cd)) := rfl
    rw [hstep, h1]
    simp only [cross_sync_col, Except.bind]
    have hn : cd'[n]? = cd[n]? := by
      rw [h2 n, if_neg (Nat.lt_irrefl n)]
    rw [hn]
    cases hc : cd[n]? with
    | none =>
      refine ⟨cd', rfl, fun i => ?_⟩
      rw [h2 i]
      by_cases h3 : i = n
      · subst h3
        simp [hc]
      · by_cases h4 : i < n
        · have : i < n + 1 := by omega
          simp [h4, this]
        · have : ¬ i < n + 1 := by omega
          simp [h4, this]
    | some c =>
      simp only []
      rw [if_neg (fun h => by rw [hs] at h; exact Bool.noConfusion h.2),
        if_neg (fun h => by rw [hs] at h; exact Bool.noConfusion h.2)]
      refine ⟨_, rfl, fun i => ?_⟩
      rw [modify_at_get, h2 i]
      by_cases h3 : i = n
      · subst h3
        simp [hc]
      · by_cases h4 : i < n
        · have : i < n + 1 := by omega
          simp [h3, h4, this]
        · have : ¬ i < n + 1 := by omega
          simp [h3, h4, this]


theorem cross_sync_eq (a : Args κ) (i : Nat) (s : State κ V) (hconv : a.list_line = 0)
    (hi : i ≥ 1) :
    cross_sync a i s =
      (for_loop s.numcoldef (cross_sync_col a (max_counters s.numcoldef s.coldef))
        (Except.ok s.coldef)).map (fun cd => { s with coldef := cd }) := by
  unfold cross_sync
  rw [if_pos ⟨hconv, by omega⟩]

/-! ### The routing loop -/

theorem modify_at_twice {C : Type} (f g : C → C) (j : Nat) (l : List C) :
    modify_at g j (modify_at f j l) = modify_at (fun c => g (f c)) j l := by
  induction l generalizing j with
  | nil => cases j <;> rfl
  | cons c cs ih =>
    cases j with
    | zero => rfl
    | succ j => simp [modify_at, ih]

theorem modify_at_congr {C : Type} (f g : C → C) (j : Nat) (l : List C) (d : C)
    (hd : l[j]? = some d) (h : f d = g d) : modify_at f j l = modify_at g j l := by
  induction l generalizing j with
  | nil => cases j <;> rfl
  | cons c cs ih =>
    cases j with
    | zero =>
      simp at hd
      subst hd
      simp [modify_at, h]
    | succ j =>
      simp at hd
      simp [modify_at, ih j hd]

theorem modify_at_self {C : Type} (f : C → C) (j : Nat) (l : List C) (d : C)
    (hd : l[j]? = some d) (h : f d = d) : modify_at f j l = l := by
  induction l generalizing j with
  | nil => cases j <;> rfl
  | cons c cs ih =>
    cases j with
    | zero =>
      simp at hd
      subst hd
      simp [modify_at, h]
    | succ j =>
      simp at hd
      simp [modify_at, ih j hd]

/-- The routing body in one piece: the column itself is updated, then a time component
may be added to the time column, and `value` may be overwritten. -/
theorem route_col_eq (E : Extern V) (array_id colnum : Int) (sol : Bool) (j : Nat)
    (cd : List (column_def V)) (v : V) (d : column_def V) (hd : cd[j]? = some d) :
    route_col E array_id colnum sol j (cd, v) =
      if eligible array_id colnum sol d then
        (if adds_time array_id colnum sol d then
            at_timcol (add_time_component E (time_term E v d)) d.time_colnum
              (modify_at (own_update array_id colnum v) j cd)
          else modify_at (own_update array_id colnum v) j cd,
         if converts array_id colnum sol d then E.conv_hour_min v else v)
      else (cd, v) := by
  unfold route_col
  simp only [hd]
  by_cases he : eligible array_id colnum sol d = true
  · simp only [he, if_true]
    by_cases h1 : d.follow_id = -1 ∧ d.i_am_time = false
    · have hown : ∀ c : column_def V, c = d → own_update array_id colnum v c =
          (if d.col_num + d.ncol - 1 = colnum then advance (store_direct colnum v c)
            else store_direct colnum v c) := by
        intro c hc
        subst hc
        simp [own_update, h1]
      rw [if_pos h1]
      by_cases h2 : d.col_num + d.ncol - 1 = colnum
      · rw [if_pos h2, modify_at_twice]
        have hm : modify_at (fun c => advance (store_direct colnum v c)) j cd =
            modify_at (own_update array_id colnum v) j cd :=
          modify_at_congr _ _ j cd d hd (by rw [hown d rfl, if_pos h2])
        rw [hm]
        cases h3 : d.time_comp
        · simp [adds_time, converts, h3]
        · cases h4 : d.time_csi_hm
          · simp [adds_time, converts, he, h1.1, h1.2, h2, h3, h4, time_term]
          · simp [adds_time, converts, he, h1.1, h1.2, h2, h3, h4, time_term]
      · rw [if_neg h2]
        have hm : modify_at (store_direct colnum v) j cd =
            modify_at (own_update array_id colnum v) j cd :=
          modify_at_congr _ _ j cd d hd (by rw [hown d rfl, if_neg h2])
        rw [hm]
        simp [adds_time, converts, h1.1, h2]
    · rw [if_neg h1]
      by_cases h2 : d.i_am_time = false
      · have hf : d.follow_id ≠ -1 := fun h => h1 ⟨h, h2⟩
        rw [if_pos h2]
        have hm : (if d.array_id = array_id then modify_at (capture colnum v) j cd
              else if d.got_follow_val = true then modify_at emit_held j cd
              else modify_at missed j cd) =
            modify_at (own_update array_id colnum v) j cd := by
          by_cases h3 : d.array_id = array_id
          · rw [if_pos h3]
            exact modify_at_congr _ _ j cd d hd (by simp [own_update, hf, h2, h3])
          · rw [if_neg h3]
            by_cases h4 : d.got_follow_val = true
            · rw [if_pos h4]
              exact modify_at_congr _ _ j cd d hd (by simp [own_update, hf, h2, h3, h4])
            · rw [if_neg h4]
              exact modify_at_congr _ _ j cd d hd (by simp [own_update, hf, h2, h3, h4])
        simp only [hm]
        by_cases h5 : ¬ (d.follow_id ≠ -1 ∧ d.array_id = array_id) ∧ d.time_comp = true
        · rw [if_pos h5]
          have h6 : d.array_id ≠ array_id := fun h => h5.1 ⟨hf, h⟩
          simp [adds_time, converts, he, h2, h5.2, hf, h6, time_term]
        · rw [if_neg h5]
          have : adds_time array_id colnum sol d = false := by
            simp only [adds_time, he, h2, hf, if_false]
            cases h7 : d.time_comp
            · simp
            · by_cases h8 : d.array_id = array_id
              · simp [h8]
              · exact absurd ⟨fun h => h8 h.2, h7⟩ h5
          simp [this, converts]
      · rw [if_neg h2]
        have h3 : d.i_am_time = true := by
          cases h : d.i_am_time
          · exact absurd h h2
          · rfl
        have hm : modify_at (own_update array_id colnum v) j cd = cd :=
          modify_at_self _ j cd d hd (by simp [own_update, h3])
        simp [adds_time, converts, h3, hm]
  · simp only [he]
    rfl


theorem route_col_none (E : Extern V) (array_id colnum : Int) (sol : Bool) (j : Nat)
    (st : List (column_def V) × V) (hd : st.1[j]? = none) :
    route_col E array_id colnum sol j st = st := by
  unfold route_col
  simp only [hd]

theorem at_timcol_get (f : column_def V → column_def V) (t : Int) (cd : List (column_def V))
    (k : Nat) : (at_timcol f t cd)[k]? = if t = (k : Int) then cd[k]?.map f else cd[k]? := by
  unfold at_timcol
  by_cases h : t < 0
  · rw [if_pos h, if_neg (by omega)]
  · rw [if_neg h, modify_at_get]
    by_cases h2 : t = (k : Int)
    · rw [if_pos h2, if_pos (by omega)]
    · rw [if_neg h2, if_neg (by omega)]

theorem own_update_static (array_id colnum : Int) (v : V) (c : column_def V) :
    static_of (own_update array_id colnum v c) = static_of c := by
  unfold own_update
  split_ifs <;> rfl

theorem add_time_component_static (E : Extern V) (x : V) (c : column_def V) :
    static_of (add_time_component E x c) = static_of c := rfl

theorem eligible_static (array_id colnum : Int) (sol : Bool) (d e : column_def V)
    (h : static_of d = static_of e) :
    eligible array_id colnum sol d = eligible array_id colnum sol e := by
  simp only [static_of, Prod.mk.injEq] at h
  obtain ⟨h1, h2, h3, h4, h5, -⟩ := h
  simp only [eligible, h1, h2, h3, h4, h5]

theorem adds_time_static (array_id colnum : Int) (sol : Bool) (d e : column_def V)
    (h : static_of d = static_of e) :
    adds_time array_id colnum sol d = adds_time array_id colnum sol e := by
  have he := eligible_static array_id colnum sol d e h
  simp only [static_of, Prod.mk.injEq] at h
  obtain ⟨h1, h2, h3, h4, h5, h6, -⟩ := h
  simp only [adds_time, he, h1, h2, h3, h4, h5, h6]

theorem converts_static (array_id colnum : Int) (sol : Bool) (d e : column_def V)
    (h : static_of d = static_of e) :
    converts array_id colnum sol d = converts array_id colnum sol e := by
  have he := adds_time_static array_id colnum sol d e h
  simp only [static_of, Prod.mk.injEq] at h
  obtain ⟨h1, h2, h3, h4, h5, h6, h7, -⟩ := h
  simp only [converts, he, h2, h7]

/-- One pass of the routing body keeps the configuration of every column. -/
theorem route_col_static (E : Extern V) (array_id colnum : Int) (sol : Bool) (j : Nat)
    (st : List (column_def V) × V) (k : Nat) :
    ((route_col E array_id colnum sol j st).1[k]?).map static_of = (st.1[k]?).map static_of := by
  cases hd : st.1[j]? with
  | none => rw [route_col_none E array_id colnum sol j st hd]
  | some d =>
    obtain ⟨cd, v⟩ := st
    simp only at hd
    rw [route_col_eq E array_id colnum sol j cd v d hd]
    have hown : ((modify_at (own_update array_id colnum v) j cd)[k]?).map static_of =
        (cd[k]?).map static_of := by
      rw [modify_at_get]
      by_cases hkj : k = j
      · rw [if_pos hkj]
        cases cd[k]? with
        | none => rfl
        | some c => simp [own_update_static]
      · rw [if_neg hkj]
    by_cases he : eligible array_id colnum sol d = true
    · rw [if_pos he]
      by_cases ha : adds_time array_id colnum sol d = true
      · simp only [ha, if_true]
        rw [at_timcol_get]
        by_cases ht : d.time_colnum = (k : Int)
        · rw [if_pos ht, ← hown]
          cases (modify_at (own_update array_id colnum v) j cd)[k]? with
          | none => rfl
          | some c => simp [add_time_component_static]
        · rw [if_neg ht, hown]
      · simp only [ha]
        exact hown
    · rw [if_neg he]

theorem route_loop_static (E : Extern V) (array_id colnum : Int) (sol : Bool) (n : Nat)
    (st : List (column_def V) × V) (k : Nat) :
    ((for_loop n (route_col E array_id colnum sol) st).1[k]?).map static_of =
      (st.1[k]?).map static_of := by
  induction n with
  | zero => rfl
  | succ n ih =>
    simp only [for_loop]
    rw [route_col_static, ih]

/-- One pass of the routing body leaves column `k` alone unless it is the pass of column
`k` itself or a time component is added to column `k`. -/
theorem route_col_frame (E : Extern V) (array_id colnum : Int) (sol : Bool) (j : Nat)
    (st : List (column_def V) × V) (k : Nat)
    (h : ∀ d, st.1[j]? = some d →
      (j = k → eligible array_id colnum sol d = false ∨ d.i_am_time = true) ∧
      (adds_time array_id colnum sol d = true → d.time_colnum ≠ (k : Int))) :
    (route_col E array_id colnum sol j st).1[k]? = st.1[k]? := by
  cases hd : st.1[j]? with
  | none => rw [route_col_none E array_id colnum sol j st hd]
  | some d =>
    obtain ⟨h1, h2⟩ := h d hd
    obtain ⟨cd, v⟩ := st
    simp only at hd
    rw [route_col_eq E array_id colnum sol j cd v d hd]
    by_cases he : eligible array_id colnum sol d = true
    · rw [if_pos he]
      have hown : (modify_at (own_update array_id colnum v) j cd)[k]? = cd[k]? := by
        rw [modify_at_get]
        by_cases hkj : k = j
        · rw [if_pos hkj]
          subst hkj
          rcases h1 rfl with h3 | h3
          · rw [he] at h3
            cases h3
          · rw [hd]
            simp [own_update, h3]
        · rw [if_neg hkj]
      by_cases ha : adds_time array_id colnum sol d = true
      · simp only [ha, if_true]
        rw [at_timcol_get, if_neg (h2 ha)]
        exact hown
      · simp only [ha]
        exact hown
    · rw [if_neg he]

/-- Column `j` of the table as the routing loop finds it has the configuration it had
when the loop was entered. -/
theorem route_loop_entry (E : Extern V) (array_id colnum : Int) (sol : Bool) (n : Nat)
    (cd : List (column_def V)) (v : V) (j : Nat) (d : column_def V)
    (hd : (for_loop n (route_col E array_id colnum sol) (cd, v)).1[j]? = some d) :
    ∃ d0, cd[j]? = some d0 ∧ static_of d0 = static_of d := by
  have h := route_loop_static E array_id colnum sol n (cd, v) j
  rw [hd] at h
  cases h0 : cd[j]? with
  | none =>
    rw [h0] at h
    cases h
  | some d0 =>
    rw [h0] at h
    simp only [Option.map_some', Option.some.injEq] at h
    exact ⟨d0, rfl, h.symm⟩

/-- The passes `m ≤ j < n` of the routing loop leave column `k` alone when none of them
is the pass of column `k` (unless that pass does nothing) and none adds a time component
to column `k`. -/
theorem route_loop_after (E : Extern V) (array_id colnum : Int) (sol : Bool) (m n : Nat)
    (cd : List (column_def V)) (v : V) (k : Nat) (hmn : m ≤ n)
    (h : ∀ (j : Nat) (d : column_def V), m ≤ j → j < n → cd[j]? = some d →
      (j = k → eligible array_id colnum sol d = false ∨ d.i_am_time = true) ∧
      (adds_time array_id colnum sol d = true → d.time_colnum ≠ (k : Int))) :
    (for_loop n (route_col E array_id colnum sol) (cd, v)).1[k]? =
      (for_loop m (route_col E array_id colnum sol) (cd, v)).1[k]? := by
  induction n with
  | zero =>
    have : m = 0 := by omega
    subst this
    rfl
  | succ n ih =>
    by_cases hm : m = n + 1
    · subst hm
      rfl
    · have hmn2 : m ≤ n := by omega
      simp only [for_loop]
      rw [route_col_frame, ih hmn2 (fun j d h1 h2 h3 => h j d h1 (by omega) h3)]
      intro d hd
      obtain ⟨d0, hd0, hs⟩ := route_loop_entry E array_id colnum sol n cd v n d hd
      obtain ⟨h1, h2⟩ := h n d0 hmn2 (by omega) hd0
      have hi : d0.i_am_time = d.i_am_time := by
        simp only [static_of, Prod.mk.injEq] at hs
        exact hs.2.2.2.2.1
      have ht : d0.time_colnum = d.time_colnum := by
        simp only [static_of, Prod.mk.injEq] at hs
        exact hs.2.2.2.2.2.2.2.1
      rw [← eligible_static array_id colnum sol d0 d hs,
        ← adds_time_static array_id colnum sol d0 d hs, ← hi, ← ht]
      exact ⟨h1, h2⟩

/-- The local `value` reaches pass `m` unchanged when no earlier column converts it. -/
theorem route_loop_value (E : Extern V) (array_id colnum : Int) (sol : Bool) (m : Nat)
    (cd : List (column_def V)) (v : V)
    (h : ∀ (j : Nat) (d : column_def V), j < m → cd[j]? = some d →
      converts array_id colnum sol d = false) :
    (for_loop m (route_col E array_id colnum sol) (cd, v)).2 = v := by
  induction m with
  | zero => rfl
  | succ m ih =>
    have ih2 := ih (fun j d h1 h2 => h j d (by omega) h2)
    simp only [for_loop]
    cases hd : (for_loop m (route_col E array_id colnum sol) (cd, v)).1[m]? with
    | none =>
      rw [route_col_none E array_id colnum sol m _ hd]
      exact ih2
    | some d =>
      obtain ⟨d0, hd0, hs⟩ := route_loop_entry E array_id colnum sol m cd v m d hd
      have hc := h m d0 (by omega) hd0
      rw [converts_static array_id colnum sol d0 d hs] at hc
      have := route_col_eq E array_id colnum sol m
        (for_loop m (route_col E array_id colnum sol) (cd, v)).1
        (for_loop m (route_col E array_id colnum sol) (cd, v)).2 d hd
      simp only [Prod.mk.eta] at this
      rw [this]
      by_cases he : eligible array_id colnum sol d = true
      · rw [if_pos he]
        simp only [hc]
        exact ih2
      · rw [if_neg he]
        exact ih2

theorem time_term_static (E : Extern V) (v : V) (d e : column_def V)
    (h : static_of d = static_of e) (hf : d.follow_id = -1) :
    time_term E v d = time_term E v e := by
  simp only [static_of, Prod.mk.injEq] at h
  obtain ⟨-, h2, -, -, -, -, h7, -, h9, h10⟩ := h
  have hf2 : e.follow_id = -1 := by rw [← h2]; exact hf
  simp only [time_term, hf, hf2, h7, h9, h10, if_true]

/-- The routing loop on column `k` itself: when no column adds a time component to
column `k`, the loop leaves in column `k` what the pass of column `k` put there. -/
theorem route_loop_own (E : Extern V) (array_id colnum : Int) (sol : Bool) (n : Nat)
    (cd : List (column_def V)) (v : V) (k : Nat) (c : column_def V) (hk : k < n)
    (hc : cd[k]? = some c) (he : eligible array_id colnum sol c = true)
    (hno : ∀ (j : Nat) (d : column_def V), j < n → cd[j]? = some d →
      adds_time array_id colnum sol d = true → d.time_colnum ≠ (k : Int)) :
    (for_loop n (route_col E array_id colnum sol) (cd, v)).1[k]? =
      some (own_update array_id colnum
        (for_loop k (route_col E array_id colnum sol) (cd, v)).2 c) := by
  rw [route_loop_after E array_id colnum sol (k + 1) n cd v k (by omega)
    (fun j d h1 h2 h3 => ⟨fun h => by omega, hno j d h2 h3⟩)]
  have hbefore : (for_loop k (route_col E array_id colnum sol) (cd, v)).1[k]? = some c := by
    rw [route_loop_after E array_id colnum sol 0 k cd v k (by omega)
      (fun j d _ h2 h3 => ⟨fun h => by omega, hno j d (by omega) h3⟩)]
    exact hc
  simp only [for_loop]
  have := route_col_eq E array_id colnum sol k
    (for_loop k (route_col E array_id colnum sol) (cd, v)).1
    (for_loop k (route_col E array_id colnum sol) (cd, v)).2 c hbefore
  simp only [Prod.mk.eta] at this
  rw [this, if_pos he]
  by_cases ha : adds_time array_id colnum sol c = true
  · simp only [ha, if_true]
    rw [at_timcol_get, if_neg (hno k c hk hc ha), modify_at_get, if_pos rfl, hbefore]
    rfl
  · have ha2 : adds_time array_id colnum sol c = false := by
      cases h : adds_time array_id colnum sol c
      · rfl
      · exact absurd h ha
    rw [ha2]
    simp only [Bool.false_eq_true, if_false]
    rw [modify_at_get, if_pos rfl, hbefore]
    rfl

/-- The routing loop on a time column `t` to which exactly the direct column `j1` adds a
component at this unit. -/
theorem route_loop_time (E : Extern V) (array_id colnum : Int) (sol : Bool) (n : Nat)
    (cd : List (column_def V)) (v : V) (t j1 : Nat) (T d1 : column_def V)
    (hT : cd[t]? = some T) (hTt : T.i_am_time = true)
    (hj1 : j1 < n) (hd1 : cd[j1]? = some d1)
    (ha1 : adds_time array_id colnum sol d1 = true) (ht1 : d1.time_colnum = (t : Int))
    (hf1 : d1.follow_id = -1)
    (honly : ∀ (j : Nat) (d : column_def V), j < n → cd[j]? = some d →
      adds_time array_id colnum sol d = true → d.time_colnum = (t : Int) → j = j1) :
    (for_loop n (route_col E array_id colnum sol) (cd, v)).1[t]? =
      some (add_time_component E
        (time_term E (for_loop j1 (route_col E array_id colnum sol) (cd, v)).2 d1) T) := by
  have hne : t ≠ j1 := by
    intro h
    subst h
    rw [hT] at hd1
    cases hd1
    simp [adds_time, hTt] at ha1
  have hquiet : ∀ (j : Nat) (d : column_def V), j < n → j ≠ j1 → cd[j]? = some d →
      (j = t → eligible array_id colnum sol d = false ∨ d.i_am_time = true) ∧
      (adds_time array_id colnum sol d = true → d.time_colnum ≠ (t : Int)) := by
    intro j d h1 h2 h3
    refine ⟨fun h => Or.inr ?_, fun h4 h5 => h2 (honly j d h1 h3 h4 h5)⟩
    subst h
    rw [hT] at h3
    cases h3
    exact hTt
  rw [route_loop_after E array_id colnum sol (j1 + 1) n cd v t (by omega)
    (fun j d h1 h2 h3 => hquiet j d h2 (by omega) h3)]
  have hbefore : (for_loop j1 (route_col E array_id colnum sol) (cd, v)).1[t]? = some T := by
    rw [route_loop_after E array_id colnum sol 0 j1 cd v t (by omega)
      (fun j d _ h2 h3 => hquiet j d (by omega) (by omega) h3)]
    exact hT
  simp only [for_loop]
  cases hd : (for_loop j1 (route_col E array_id colnum sol) (cd, v)).1[j1]? with
  | none =>
    have h := route_loop_static E array_id colnum sol j1 (cd, v) j1
    rw [hd, hd1] at h
    cases h
  | some d =>
    obtain ⟨d0, hd0, hs⟩ := route_loop_entry E array_id colnum sol j1 cd v j1 d hd
    rw [hd1] at hd0
    cases hd0
    have := route_col_eq E array_id colnum sol j1
      (for_loop j1 (route_col E array_id colnum sol) (cd, v)).1
      (for_loop j1 (route_col E array_id colnum sol) (cd, v)).2 d hd
    simp only [Prod.mk.eta] at this
    have had : adds_time array_id colnum sol d = true := by
      rw [← adds_time_static array_id colnum sol d1 d hs]
      exact ha1
    have hel : eligible array_id colnum sol d = true := by
      simp only [adds_time, Bool.and_eq_true] at had
      exact had.1.1.1
    have htc : d.time_colnum = (t : Int) := by
      rw [← ht1]
      simp only [static_of, Prod.mk.injEq] at hs
      exact hs.2.2.2.2.2.2.2.1.symm
    rw [this, if_pos hel]
    simp only [had, if_true]
    rw [at_timcol_get, if_pos htc, modify_at_get, if_neg hne, hbefore,
      ← time_term_static E _ d1 d hs hf1]
    rfl


theorem add_time_component_first (E : Extern V) (x : V) (T : column_def V)
    (h0 : T.time_got_comp = 0) :
    (add_time_component E x T).values T.curr_index = E.add E.zero x ∧
      (add_time_component E x T).time_got_comp = 1 ∧
      (add_time_component E x T).curr_index = T.curr_index ∧
      (add_time_component E x T).index = T.index ∧
      (add_time_component E x T).i_am_time = T.i_am_time := by
  simp [add_time_component, h0, poke]

theorem add_time_component_next (E : Extern V) (x : V) (T : column_def V)
    (h0 : T.time_got_comp ≠ 0) :
    (add_time_component E x T).values T.curr_index = E.add (T.values T.curr_index) x ∧
      (add_time_component E x T).time_got_comp = T.time_got_comp + 1 ∧
      (add_time_component E x T).curr_index = T.curr_index ∧
      (add_time_component E x T).index = T.index := by
  simp [add_time_component, h0, poke]

/-- A direct time component adds its term at the unit of its last input column. -/
theorem adds_time_direct (array_id : Int) (sol : Bool) (d : column_def V)
    (hk : d.array_id = array_id) (hf : d.follow_id = -1) (hn : d.i_am_time = false)
    (hc : d.time_comp = true) (hs : 1 ≤ d.ncol) :
    adds_time array_id (d.col_num + d.ncol - 1) sol d = true := by
  have h1 : d.col_num ≤ d.col_num + d.ncol - 1 := by omega
  simp [adds_time, eligible, hk, hf, hn, hc, h1]

theorem adds_time_direct_only (array_id colnum : Int) (sol : Bool) (d : column_def V)
    (hf : d.follow_id = -1) (h : adds_time array_id colnum sol d = true) :
    d.col_num + d.ncol - 1 = colnum ∧ d.time_comp = true := by
  simp only [adds_time, hf, if_true, Bool.and_eq_true, decide_eq_true_eq] at h
  exact ⟨h.2, h.1.2⟩

theorem adds_time_comp (array_id colnum : Int) (sol : Bool) (d : column_def V)
    (h : adds_time array_id colnum sol d = true) : d.time_comp = true := by
  simp only [adds_time, Bool.and_eq_true] at h
  exact h.1.2

theorem converts_hm (array_id colnum : Int) (sol : Bool) (d : column_def V)
    (h : d.time_csi_hm = false) : converts array_id colnum sol d = false := by
  simp [converts, h]

/-- The pass of a direct column (lines 558-567) when no earlier column of the table
converts `value` at this unit and no column adds a time component to it: the value of
the unit is stored in the slot of the input column, and the counters advance exactly
when the unit is the last input column of the variable. -/
theorem route_loop_direct (E : Extern V) (array_id colnum : Int) (sol : Bool) (n : Nat)
    (cd : List (column_def V)) (v : V) (k : Nat) (c : column_def V) (hk : k < n)
    (hc : cd[k]? = some c) (hkind : c.array_id = array_id) (hf : c.follow_id = -1)
    (hnt : c.i_am_time = false) (hlo : c.col_num ≤ colnum)
    (hhi : colnum ≤ c.col_num + c.ncol - 1)
    (hconv : ∀ (j : Nat) (d : column_def V), j < k → cd[j]? = some d →
      converts array_id colnum sol d = false)
    (hno : ∀ (j : Nat) (d : column_def V), j < n → cd[j]? = some d →
      adds_time array_id colnum sol d = true → d.time_colnum ≠ (k : Int)) :
    ∃ c', (for_loop n (route_col E array_id colnum sol) (cd, v)).1[k]? = some c' ∧
      c'.values (c.ncol * c.curr_index + colnum - c.col_num) = v ∧
      (∀ x, x ≠ c.ncol * c.curr_index + colnum - c.col_num → c'.values x = c.values x) ∧
      (colnum = c.col_num + c.ncol - 1 →
        c'.index = c.index + 1 ∧ c'.curr_index = c.curr_index + 1 ∧ c'.got_val = true) ∧
      (colnum ≠ c.col_num + c.ncol - 1 →
        c'.index = c.index ∧ c'.curr_index = c.curr_index ∧ c'.got_val = c.got_val) := by
  have he : eligible array_id colnum sol c = true := by
    have h2 : c.col_num + c.ncol - 1 ≥ colnum := hhi
    simp [eligible, hkind, hlo, h2]
  refine ⟨_, route_loop_own E array_id colnum sol n cd v k c hk hc he hno, ?_⟩
  rw [route_loop_value E array_id colnum sol k cd v hconv]
  by_cases hlast : c.col_num + c.ncol - 1 = colnum
  · have hown : own_update array_id colnum v c = advance (store_direct colnum v c) := by
      simp [own_update, hf, hnt, hlast]
    rw [hown]
    refine ⟨by simp [advance, store_direct, poke], fun x hx => by simp [advance, store_direct, poke, hx],
      fun _ => ⟨rfl, rfl, rfl⟩, fun h => absurd hlast.symm h⟩
  · have hown : own_update array_id colnum v c = store_direct colnum v c := by
      simp [own_update, hf, hnt, hlast]
    rw [hown]
    refine ⟨by simp [store_direct, poke], fun x hx => by simp [store_direct, poke, hx],
      fun h => absurd h.symm hlast, fun _ => ⟨rfl, rfl, rfl⟩⟩

/-- Without the start-of-line flag a follow column is not addressed by a unit of the
followed record kind. -/
theorem route_loop_follow_idle (E : Extern V) (array_id colnum : Int) (n : Nat)
    (cd : List (column_def V)) (v : V) (k : Nat) (c : column_def V)
    (hc : cd[k]? = some c) (hA : c.array_id ≠ array_id)
    (hno : ∀ (j : Nat) (d : column_def V), j < n → cd[j]? = some d →
      adds_time array_id colnum false d = true → d.time_colnum ≠ (k : Int)) :
    (for_loop n (route_col E array_id colnum false) (cd, v)).1[k]? = some c := by
  rw [route_loop_after E array_id colnum false 0 n cd v k (by omega)
    (fun j d _ h2 h3 => ⟨fun h => Or.inl (by
      subst h
      rw [hc] at h3
      cases h3
      simp [eligible, hA]), hno j d h2 h3⟩)]
  exact hc

theorem route_locals (E : Extern V) (a : Args κ) (s : State κ V) :
    (route E a s).colnum = s.colnum ∧ (route E a s).curr_byte = s.curr_byte ∧
      (route E a s).ndummy = s.ndummy ∧ (route E a s).end_txtline = s.end_txtline ∧
      (route E a s).ncol = s.ncol ∧ (route E a s).sink = s.sink ∧
      (route E a s).num_bytes = s.num_bytes ∧ (route E a s).valid_sample = s.valid_sample ∧
      (route E a s).numcoldef = s.numcoldef ∧ (route E a s).array_id = s.array_id := by
  unfold route
  split_ifs <;> exact ⟨rfl, rfl, rfl, rfl, rfl, rfl, rfl, rfl, rfl, rfl⟩

theorem feed_conditions_locals (O : CondOps κ V) (a : Args κ) (s : State κ V) :
    (feed_conditions O a s).ndummy = s.ndummy ∧
      (feed_conditions O a s).end_txtline = s.end_txtline ∧
      (feed_conditions O a s).ncol = s.ncol ∧
      (feed_conditions O a s).num_bytes = s.num_bytes ∧
      (feed_conditions O a s).txtdata = s.txtdata := by
  unfold feed_conditions
  simp only []
  split_ifs <;> exact ⟨rfl, rfl, rfl, rfl, rfl⟩

theorem before_switch_text (E : Extern V) (a : Args κ) (s : State κ V) :
    (before_switch E a s).end_txtline = s.end_txtline ∧ (before_switch E a s).ncol = s.ncol ∧
      (before_switch E a s).txtdata = s.txtdata := by
  have h : (classify E a s).2.end_txtline = s.end_txtline ∧ (classify E a s).2.ncol = s.ncol ∧
      (classify E a s).2.txtdata = s.txtdata := by
    unfold classify
    split_ifs <;> exact ⟨rfl, rfl, rfl⟩
  unfold before_switch
  simp only []
  split_ifs <;> exact h

theorem before_switch_ndummy (E : Extern V) (a : Args κ) (s : State κ V)
    (h : (classify E a s).1 = ByteType.DUMMY_WORD) :
    (before_switch E a s).ndummy = s.ndummy := by
  unfold before_switch
  simp only []
  rw [if_neg (fun hc => hc.2 h)]
  exact (classify_cursor E a s).2.2.2.2.2

/-- The `TXT_VALUE` case of the switch for a column cursor that is not negative. -/
theorem txt_value_spec (E : Extern V) (s : State κ V) (h : s.colnum ≥ 0) :
    (txt_value E s).colnum = s.colnum + 1 ∧ (txt_value E s).valid_sample = true ∧
      (txt_value E s).coldef = s.coldef ∧
      ((txt_value E s).end_txtline = (if s.colnum + 1 = s.ncol then true else s.end_txtline) ∧
        (txt_value E s).ncol = s.ncol) ∧
      (E.is_no_value (s.txtdata s.colnum) = true →
        ∀ d, s.coldef[E.col2vardef s.colnum]? = some d → (txt_value E s).value = d.FillValue) ∧
      (E.is_no_value (s.txtdata s.colnum) = false → (txt_value E s).value = s.txtdata s.colnum) := by
  have e : s.colnum + 1 - 1 = s.colnum := by omega
  unfold txt_value
  simp only []
  rw [if_pos h]
  simp only []
  by_cases hend : s.colnum + 1 = s.ncol
  · rw [if_pos hend]
    simp only [e, if_pos hend]
    cases hnv : E.is_no_value (s.txtdata s.colnum) with
    | false =>
      simp
    | true =>
      simp only [if_true]
      cases hx : s.coldef[E.col2vardef s.colnum]? with
      | none => exact ⟨rfl, rfl, rfl, ⟨rfl, rfl⟩, fun _ d hd => (by cases hd), fun h => (by cases h)⟩
      | some d0 =>
        exact ⟨rfl, rfl, rfl, ⟨rfl, rfl⟩, fun _ d hd => (by cases hd; rfl), fun h => (by cases h)⟩
  · rw [if_neg hend]
    simp only [e, if_neg hend]
    cases hnv : E.is_no_value (s.txtdata s.colnum) with
    | false =>
      simp
    | true =>
      simp only [if_true]
      cases hx : s.coldef[E.col2vardef s.colnum]? with
      | none => exact ⟨rfl, rfl, rfl, ⟨rfl, rfl⟩, fun _ d hd => (by cases hd), fun h => (by cases h)⟩
      | some d0 =>
        exact ⟨rfl, rfl, rfl, ⟨rfl, rfl⟩, fun _ d hd => (by cases hd; rfl), fun h => (by cases h)⟩

/-- A value token of a text file behind the last token of the line: the unit returns,
the cursor moves on and the line is not marked as ended. -/
theorem text_value_past_end (E : Extern V) (O : CondOps κ V) (a : Args κ) (s : State κ V)
    (htxt : a.txtfile = true) (h1 : 1 ≤ s.colnum) (h2 : s.ncol ≤ s.colnum) :
    ∃ t, unit_step E O a s = Except.ok t ∧ t.colnum = s.colnum + 1 ∧ t.ncol = s.ncol ∧
      t.end_txtline = s.end_txtline ∧ t.stop_data = s.stop_data := by
  have hcls : (classify E a s).1 = ByteType.TXT_VALUE := by
    unfold classify
    rw [if_pos htxt, if_neg (by omega)]
  obtain ⟨c1, -, -, -, -⟩ := before_switch_cursor E a s
  obtain ⟨t1, t2, -⟩ := before_switch_text E a s
  have hpos : (before_switch E a s).colnum ≥ 0 := by
    rw [c1]
    omega
  obtain ⟨k1, -, -, ⟨k4, k5⟩, -, -⟩ := txt_value_spec E (before_switch E a s) hpos
  have hu : unit_step E O a s =
      Except.ok (route E a (feed_conditions O a (txt_value E (before_switch E a s)))) := by
    unfold unit_step
    rw [hcls]
    rfl
  obtain ⟨r1, -, -, r4, r5, -⟩ := route_locals E a
    (feed_conditions O a (txt_value E (before_switch E a s)))
  obtain ⟨-, g2, g3, -, -⟩ := feed_conditions_locals O a (txt_value E (before_switch E a s))
  refine ⟨_, hu, ?_, ?_, ?_, ?_⟩
  · rw [r1, (feed_conditions_cursor O a _).1, k1, c1]
  · rw [r5, g3, k5, t2]
  · rw [r4, g2, k4, c1, t2, if_neg (by omega), t1]
  · rw [(route_flags E a _).2, (feed_conditions_flags O a _).2, (txt_value_flags E _).2,
      (before_switch_flags E a s).2]

/-- Behind the last token of a text line the inner loop does not end: whatever the
bound on the number of passes, the loop is still running when the bound is reached. -/
theorem text_line_overrun (E : Extern V) (O : CondOps κ V) (a : Args κ)
    (htxt : a.txtfile = true) (n : Nat) :
    ∀ s : State κ V, 1 ≤ s.colnum → s.ncol ≤ s.colnum → s.end_txtline = false →
      s.stop_data = false → inner_loop E O a n s = Except.error Fatal.out_of_fuel := by
  induction n with
  | zero =>
    intro s _ _ h3 h4
    simp [inner_loop, inner_guard, htxt, h3, h4]
  | succ n ih =>
    intro s h1 h2 h3 h4
    have hg : inner_guard a s = true := by
      simp [inner_guard, htxt, h3, h4]
    obtain ⟨t, hu, t1, t2, t3, t4⟩ := text_value_past_end E O a s htxt h1 h2
    rw [inner_loop_step n hg, hu]
    exact ih t (by omega) (by omega) (by rw [t3]; exact h3) (by rw [t4]; exact h4)

/-! ### Relations that every column update respects -/

theorem table_rel_refl {R : column_def V → column_def V → Prop} (hr : ∀ c, R c c)
    (cd : List (column_def V)) : table_rel R cd cd := by
  refine ⟨rfl, fun k c c' h1 h2 => ?_⟩
  rw [h1] at h2
  cases h2
  exact hr c

theorem table_rel_trans {R : column_def V → column_def V → Prop}
    (ht : ∀ c1 c2 c3, R c1 c2 → R c2 c3 → R c1 c3) {cd1 cd2 cd3 : List (column_def V)}
    (h12 : table_rel R cd1 cd2) (h23 : table_rel R cd2 cd3) : table_rel R cd1 cd3 := by
  refine ⟨h23.1.trans h12.1, fun k c c' h1 h3 => ?_⟩
  have hk : k < cd2.length := by
    rw [h12.1]
    exact (List.getElem?_eq_some_iff.mp h1).1
  exact ht c _ c' (h12.2 k c _ h1 (List.getElem?_eq_getElem hk))
    (h23.2 k _ c' (List.getElem?_eq_getElem hk) h3)

theorem modify_at_rel {R : column_def V → column_def V → Prop} (hr : ∀ c, R c c)
    (f : column_def V → column_def V) (hf : ∀ c, R c (f c)) (j : Nat)
    (cd : List (column_def V)) : table_rel R cd (modify_at f j cd) := by
  refine ⟨modify_at_length f j cd, fun k c c' h1 h2 => ?_⟩
  rw [modify_at_get] at h2
  by_cases hk : k = j
  · rw [if_pos hk, h1] at h2
    cases h2
    exact hf c
  · rw [if_neg hk, h1] at h2
    cases h2
    exact hr c

/-- A loop over the columns whose body respects `R` respects `R`. -/
theorem for_loop_rel {R : column_def V → column_def V → Prop} {S : Type} (hr : ∀ c, R c c)
    (ht : ∀ c1 c2 c3, R c1 c2 → R c2 c3 → R c1 c3) (p : S → List (column_def V))
    (body : Nat → S → S) (hb : ∀ i st, table_rel R (p st) (p (body i st))) (n : Nat)
    (st : S) : table_rel R (p st) (p (for_loop n body st)) := by
  induction n with
  | zero => exact table_rel_refl hr _
  | succ n ih => exact table_rel_trans ht ih (hb n _)

theorem at_timcol_rel {R : column_def V → column_def V → Prop} (hr : ∀ c, R c c)
    (f : column_def V → column_def V) (hf : ∀ c, R c (f c)) (t : Int)
    (cd : List (column_def V)) : table_rel R cd (at_timcol f t cd) := by
  unfold at_timcol
  split_ifs
  · exact table_rel_refl hr cd
  · exact modify_at_rel hr f hf _ cd

variable {E : Extern V} {R : column_def V → column_def V → Prop}

theorem route_col_rel (hR : Respected E R) (array_id colnum : Int) (sol : Bool) (j : Nat)
    (st : List (column_def V) × V) :
    table_rel R st.1 (route_col E array_id colnum sol j st).1 := by
  cases hd : st.1[j]? with
  | none =>
    rw [route_col_none E array_id colnum sol j st hd]
    exact table_rel_refl hR.refl _
  | some d =>
    obtain ⟨cd, v⟩ := st
    simp only at hd
    rw [route_col_eq E array_id colnum sol j cd v d hd]
    have hown := modify_at_rel hR.refl (own_update array_id colnum v)
      (hR.own array_id colnum v) j cd
    by_cases he : eligible array_id colnum sol d = true
    · rw [if_pos he]
      by_cases ha : adds_time array_id colnum sol d = true
      · simp only [ha, if_true]
        exact table_rel_trans hR.trans hown (at_timcol_rel hR.refl _ (hR.time _) _ _)
      · have ha2 : adds_time array_id colnum sol d = false := by
          cases h : adds_time array_id colnum sol d
          · rfl
          · exact absurd h ha
        rw [ha2]
        exact hown
    · rw [if_neg he]
      exact table_rel_refl hR.refl _

theorem route_rel (hR : Respected E R) (a : Args κ) (s : State κ V) :
    table_rel R s.coldef (route E a s).coldef := by
  unfold route
  split_ifs
  · exact for_loop_rel hR.refl hR.trans (fun st : List (column_def V) × V => st.1) _
      (fun i st => route_col_rel hR _ _ _ i st) s.numcoldef (s.coldef, s.value)
  · exact table_rel_refl hR.refl _

theorem flush_rel (hR : Respected E R) (n : Nat)
    (st : List (column_def V) × List (nc_write V)) :
    table_rel R st.1 (flush E n st).1 := by
  refine for_loop_rel hR.refl hR.trans
    (fun st : List (column_def V) × List (nc_write V) => st.1) _ (fun i st => ?_) n st
  rw [flush_col_eq]
  cases st.1[i]? with
  | none => exact table_rel_refl hR.refl _
  | some c =>
    simp only []
    split_ifs
    · exact modify_at_rel hR.refl flush_reset hR.flushed i st.1
    · exact table_rel_refl hR.refl _

theorem modify_loop_rel (hr : ∀ c, R c c) (ht : ∀ c1 c2 c3, R c1 c2 → R c2 c3 → R c1 c3)
    (f : column_def V → column_def V) (hf : ∀ c, R c (f c)) (n : Nat)
    (cd : List (column_def V)) :
    table_rel R cd (for_loop n (fun i cd => modify_at f i cd) cd) :=
  for_loop_rel hr ht (fun cd : List (column_def V) => cd) _
    (fun i cd => modify_at_rel hr f hf i cd) n cd

theorem backfill_rel (hR : Respected E R) (a : Args κ) (array_id : Int) (n : Nat)
    (cd : List (column_def V)) : table_rel R cd (backfill a array_id n cd) := by
  unfold backfill
  split_ifs
  · refine modify_loop_rel hR.refl hR.trans _ (fun c => ?_) n cd
    beta_reduce
    split_ifs
    · exact hR.fill c
    · exact hR.refl c
    · exact hR.refl c
  · exact table_rel_refl hR.refl _

theorem rollback_rel (hR : Respected E R) (array_id : Int) (n : Nat)
    (cd : List (column_def V)) : table_rel R cd (rollback array_id n cd) :=
  modify_loop_rel hR.refl hR.trans _ (hR.back array_id) n cd

theorem reset_got_val_rel (hR : Respected E R) (n : Nat) (cd : List (column_def V)) :
    table_rel R cd (reset_got_val n cd) :=
  modify_loop_rel hR.refl hR.trans _ hR.reset n cd

theorem time_coordinate_rel (hR : Respected E R) (n : Nat) (cd : List (column_def V)) :
    table_rel R cd (time_coordinate n cd) :=
  modify_loop_rel hR.refl hR.trans _ hR.finish n cd

theorem finalize_record_rel (hR : Respected E R) {a : Args κ} {s t : State κ V}
    (h : finalize_record E a s = Except.ok t) : table_rel R s.coldef t.coldef := by
  rw [(finalize_record_ok h).1]
  have h1 := backfill_rel hR a s.array_id s.numcoldef s.coldef
  have h2 : table_rel R s.coldef
      (if rollback_guard a s then
        rollback s.array_id s.numcoldef (backfill a s.array_id s.numcoldef s.coldef)
      else backfill a s.array_id s.numcoldef s.coldef) := by
    split_ifs
    · exact table_rel_trans hR.trans h1 (rollback_rel hR _ _ _)
    · exact h1
  have h3 := table_rel_trans hR.trans h2 (reset_got_val_rel hR s.numcoldef _)
  refine table_rel_trans hR.trans ?_ (flush_rel hR s.numcoldef _)
  simp only []
  by_cases hs : s.start_of_line = true
  · rw [if_pos hs]
    exact table_rel_trans hR.trans h3 (time_coordinate_rel hR _ _)
  · rw [if_neg hs]
    exact h3

theorem txt_value_coldef (E : Extern V) (s : State κ V) : (txt_value E s).coldef = s.coldef := by
  unfold txt_value
  simp only []
  repeat' split
  all_goals rfl

theorem two_byte_coldef (E : Extern V) (s : State κ V) : (two_byte E s).coldef = s.coldef := by
  unfold two_byte
  simp only []
  split_ifs <;> rfl

theorem four_byte_coldef {a : Args κ} {s t : State κ V}
    (h : four_byte E a s = Except.ok t) : t.coldef = s.coldef := by
  unfold four_byte at h
  simp only [] at h
  split_ifs at h <;> cases h <;> rfl

theorem unknown_unit_coldef {a : Args κ} {s t : State κ V}
    (h : unknown_unit a s = Except.ok t) : t.coldef = s.coldef := by
  unfold unknown_unit at h
  split_ifs at h
  cases h
  rfl

theorem dispatch_rel (hR : Respected E R) {O : CondOps κ V} {a : Args κ} {m : ByteType}
    {s t : State κ V} (h : dispatch E O a m s = Except.ok t) :
    table_rel R s.coldef t.coldef := by
  cases m <;> simp only [dispatch] at h
  · cases h
    rw [txt_value_coldef]
    exact table_rel_refl hR.refl _
  · cases h
    rw [two_byte_coldef]
    exact table_rel_refl hR.refl _
  · rw [four_byte_coldef h]
    exact table_rel_refl hR.refl _
  · rw [unknown_unit_coldef h]
    exact table_rel_refl hR.refl _
  · unfold start_output at h
    cases hf : finalize_record E a (update_flags O a s) with
    | error e => rw [hf] at h; cases h
    | ok u =>
      rw [hf] at h
      cases h
      have := finalize_record_rel hR hf
      rw [(update_flags_frame O a s).1] at this
      exact this
  · cases h
    exact table_rel_refl hR.refl _
  · rw [unknown_unit_coldef h]
    exact table_rel_refl hR.refl _

/-- One unit respects `R`. -/
theorem unit_step_rel (hR : Respected E R) {O : CondOps κ V} {a : Args κ} {s t : State κ V}
    (h : unit_step E O a s = Except.ok t) : table_rel R s.coldef t.coldef := by
  unfold unit_step at h
  cases hd : dispatch E O a (classify E a s).1 (before_switch E a s) with
  | error e => rw [hd] at h; cases h
  | ok u =>
    rw [hd] at h
    cases h
    have h1 := dispatch_rel hR hd
    rw [(before_switch_frame E a s).1] at h1
    have h2 := route_rel hR a (feed_conditions O a u)
    rw [(feed_conditions_frame O a u).1] at h2
    exact table_rel_trans hR.trans h1 h2

theorem run_units_rel (hR : Respected E R) {O : CondOps κ V} {a : Args κ} (n : Nat) :
    ∀ {s t : State κ V}, run_units E O a n s = Except.ok t → table_rel R s.coldef t.coldef := by
  induction n with
  | zero =>
    intro s t h
    cases h
    exact table_rel_refl hR.refl _
  | succ n ih =>
    intro s t h
    unfold run_units at h
    cases hu : unit_step E O a s with
    | error e => rw [hu] at h; cases h
    | ok u =>
      rw [hu] at h
      exact table_rel_trans hR.trans (unit_step_rel hR hu) (ih h)

theorem inner_loop_rel (hR : Respected E R) {O : CondOps κ V} {a : Args κ} (n : Nat) :
    ∀ {s t : State κ V}, inner_loop E O a n s = Except.ok t → table_rel R s.coldef t.coldef := by
  induction n with
  | zero =>
    intro s t h
    unfold inner_loop at h
    split_ifs at h
    cases h
    exact table_rel_refl hR.refl _
  | succ n ih =>
    intro s t h
    unfold inner_loop at h
    split_ifs at h
    · cases hu : unit_step E O a s with
      | error e => rw [hu] at h; cases h
      | ok u =>
        rw [hu] at h
        exact table_rel_trans hR.trans (unit_step_rel hR hu) (ih h)
    · cases h
      exact table_rel_refl hR.refl _

theorem read_input_coldef (r : Read V) (s : State κ V) : (read_input r s).2.coldef = s.coldef := by
  cases r <;> rfl

theorem prepare_data_coldef (a : Args κ) (r : Read V) (rest_byte : Int) (s : State κ V) :
    (prepare_data a r rest_byte s).coldef = s.coldef := by
  cases r with
  | chunk bytes =>
    simp only [prepare_data]
    split_ifs <;> rfl
  | line toks => rfl
  | no_line => rfl

theorem read_and_process_rel (hR : Respected E R) {O : CondOps κ V} {a : Args κ} {r : Read V}
    {s t : State κ V} (h : read_and_process E O a r s = Except.ok t) :
    table_rel R s.coldef t.coldef := by
  unfold read_and_process at h
  simp only [] at h
  by_cases hc : (read_input r s).2.num_bytes ≠ 0 ∧ (read_input r s).2.ncol > 0
  · rw [if_pos hc] at h
    have := inner_loop_rel hR _ h
    rw [prepare_data_coldef, read_input_coldef] at this
    exact this
  · rw [if_neg hc] at h
    cases h
    rw [read_input_coldef]
    exact table_rel_refl hR.refl _

theorem outer_loop_rel (hR : Respected E R) {O : CondOps κ V} {a : Args κ}
    (rs : List (Read V)) :
    ∀ {s t : State κ V}, outer_loop E O a rs s = Except.ok t → table_rel R s.coldef t.coldef := by
  induction rs with
  | nil =>
    intro s t h
    cases h
    exact table_rel_refl hR.refl _
  | cons r rs ih =>
    intro s t h
    unfold outer_loop at h
    split_ifs at h
    · cases hu : read_and_process E O a r s with
      | error e => rw [hu] at h; cases h
      | ok u =>
        rw [hu] at h
        exact table_rel_trans hR.trans (read_and_process_rel hR hu) (ih h)
    · cases h
      exact table_rel_refl hR.refl _

theorem end_of_stream_rel (hR : Respected E R) (O : CondOps κ V) (a : Args κ)
    (s : State κ V) : table_rel R s.coldef (end_of_stream E O a s).coldef := by
  have h1 := time_coordinate_rel hR s.numcoldef s.coldef
  show table_rel R s.coldef
    (if last_rollback_guard a { s with wanted_data := all_cond O s.loc_cond } then
      for_loop s.numcoldef (fun i cd => modify_at roll_back_last i cd)
        (time_coordinate s.numcoldef s.coldef)
    else time_coordinate s.numcoldef s.coldef)
  split_ifs
  · exact table_rel_trans hR.trans h1 (modify_loop_rel hR.refl hR.trans _ hR.back_last _ _)
  · exact h1

/-- The column table with which a call of `do_conv_csi` starts: the format file for the
first input file in conversion mode, the table of the caller otherwise. -/
theorem initialize_call_rel (hR : Respected E R) (a : Args κ) (formfile : List (column_def V))
    (s : State κ V) :
    table_rel R (if a.list_line = 0 ∧ a.filenum = 0 then formfile else s.coldef)
      (initialize_call E a formfile s).coldef := by
  by_cases h1 : a.list_line = 0 ∧ a.filenum = 0
  · rw [if_pos h1]
    have : (initialize_call E a formfile s).coldef =
        reset_got_val formfile.length formfile := by
      simp [initialize_call, h1, def_nc_file]
    rw [this]
    exact reset_got_val_rel hR _ _
  · rw [if_neg h1]
    have : (initialize_call E a formfile s).coldef = reset_got_val 0 s.coldef := by
      unfold initialize_call
      simp only [if_neg h1]
      split_ifs <;> rfl
    rw [this]
    exact reset_got_val_rel hR _ _

/-- A whole call of `do_conv_csi` respects `R`. -/
theorem do_conv_csi_rel (hR : Respected E R) {O : CondOps κ V} {a : Args κ}
    {formfile : List (column_def V)} {infile : InFile V} {s t : State κ V}
    (h : do_conv_csi E O a formfile infile s = Except.ok t) :
    table_rel R (if a.list_line = 0 ∧ a.filenum = 0 then formfile else s.coldef) t.coldef := by
  unfold do_conv_csi at h
  cases ho : outer_loop E O a (reads E a infile) (initialize_call E a formfile s) with
  | error e => rw [ho] at h; cases h
  | ok u =>
    rw [ho] at h
    cases h
    exact table_rel_trans hR.trans (initialize_call_rel hR a formfile s)
      (table_rel_trans hR.trans (outer_loop_rel hR _ ho) (end_of_stream_rel hR O a u))

/-! ### The counter relation and the held follow values -/

theorem table_agrees_iff (cd : List (column_def V)) :
    table_agrees cd = true ↔
      ∀ (k : Nat) (c : column_def V), cd[k]? = some c → counters_agree c = true := by
  unfold table_agrees
  rw [List.all_eq_true]
  constructor
  · intro h k c hc
    exact h c (List.mem_iff_getElem?.mpr ⟨k, hc⟩)
  · intro h c hc
    obtain ⟨k, hk⟩ := List.mem_iff_getElem?.mp hc
    exact h k c hk

theorem table_agrees_of_rel {cd cd' : List (column_def V)}
    (h : table_rel keeps_agreement cd cd') (ha : table_agrees cd = true) :
    table_agrees cd' = true := by
  rw [table_agrees_iff] at ha ⊢
  intro k c' hc'
  have hk : k < cd.length := by
    rw [← h.1]
    exact (List.getElem?_eq_some_iff.mp hc').1
  exact h.2 k _ c' (List.getElem?_eq_getElem hk) hc' (ha k _ (List.getElem?_eq_getElem hk))

theorem counters_agree_iff (c : column_def V) :
    counters_agree c = true ↔ c.index - c.first_index = c.curr_index := by
  simp [counters_agree]

/-- Every column update of `do_conv_csi` keeps the counter relation. -/
theorem respected_agreement (E : Extern V) : Respected E (keeps_agreement (V := V)) where
  refl := fun _ h => h
  trans := fun _ _ _ h1 h2 h => h2 (h1 h)
  own := by
    intro array_id colnum v c h
    rw [counters_agree_iff] at h ⊢
    unfold own_update
    split_ifs <;> (try simp only [advance, store_direct, capture, emit_held, missed]) <;> omega
  time := by
    intro x c h
    rw [counters_agree_iff] at h ⊢
    exact h
  fill := by
    intro c h
    rw [counters_agree_iff] at h ⊢
    simp only [fill_missing]
    omega
  back := by
    intro array_id c h
    rw [counters_agree_iff] at h ⊢
    unfold roll_back
    split_ifs
    · simp only []
      omega
    · exact h
  reset := by
    intro c h
    rw [counters_agree_iff] at h ⊢
    exact h
  finish := by
    intro c h
    rw [counters_agree_iff] at h ⊢
    unfold finish_time
    split_ifs
    · simp only []
      omega
    · exact h
  flushed := by
    intro c _
    rw [counters_agree_iff]
    simp only [flush_reset]
    omega
  back_last := by
    intro c h
    rw [counters_agree_iff] at h ⊢
    unfold roll_back_last
    split_ifs
    · simp only []
      omega
    · exact h

theorem cross_sync_strict_ok {a : Args κ} {i : Nat} {s t : State κ V} (hs : a.sloppy = false)
    (h : cross_sync a i s = Except.ok t) : t = s := by
  unfold cross_sync at h
  split_ifs at h
  · rcases cross_sync_strict a hs (max_counters s.numcoldef s.coldef) s.coldef s.numcoldef with
      ⟨h1, -⟩ | ⟨h1, -⟩
    · rw [h1] at h
      cases h
      rfl
    · rw [h1] at h
      cases h
  · cases h
    rfl

/-! ### The column cursor -1 -/

/-- A case of the switch other than the record start, entered with `colnum = -1` and
`valid_sample` clear: the cursor stays -1, the sample stays invalid and neither the
column table nor the sink changes. -/
theorem dispatch_invalid_cursor {E : Extern V} {O : CondOps κ V} {a : Args κ} {m : ByteType}
    {s u : State κ V} (hm : m ≠ ByteType.START_OUTPUT) (hcol : s.colnum = -1)
    (hv : s.valid_sample = false) (h : dispatch E O a m s = Except.ok u) :
    u.colnum = -1 ∧ u.valid_sample = false ∧ u.coldef = s.coldef ∧ u.sink = s.sink := by
  have hn0 : ¬ s.colnum ≥ 0 := by omega
  have hn1 : ¬ s.colnum > 0 := by omega
  cases m <;> simp only [dispatch] at h
  · cases h
    unfold txt_value
    simp only []
    rw [if_neg hn0]
    repeat' split
    all_goals exact ⟨hcol, hv, rfl, rfl⟩
  · cases h
    unfold two_byte
    simp only []
    rw [if_neg hn1]
    exact ⟨hcol, hv, rfl, rfl⟩
  · unfold four_byte at h
    simp only [] at h
    rw [if_neg hn1] at h
    split_ifs at h <;> cases h <;> exact ⟨hcol, hv, rfl, rfl⟩
  · unfold unknown_unit at h
    split_ifs at h
    cases h
    exact ⟨rfl, hv, rfl, rfl⟩
  · exact absurd rfl hm
  · cases h
    exact ⟨rfl, hv, rfl, rfl⟩
  · unfold unknown_unit at h
    split_ifs at h
    cases h
    exact ⟨rfl, hv, rfl, rfl⟩

/-- A unit other than a record start, decoded with `colnum = -1`, routes nothing and
leaves `colnum = -1`. -/
theorem unit_step_invalid_cursor {E : Extern V} {O : CondOps κ V} {a : Args κ}
    {s t : State κ V} (hm : (classify E a s).1 ≠ ByteType.START_OUTPUT) (hcol : s.colnum = -1)
    (h : unit_step E O a s = Except.ok t) :
    t.colnum = -1 ∧ t.valid_sample = false ∧ t.coldef = s.coldef ∧ t.sink = s.sink := by
  cases hd : dispatch E O a (classify E a s).1 (before_switch E a s) with
  | error e =>
    unfold unit_step at h
    rw [hd] at h
    cases h
  | ok u =>
    obtain ⟨u1, u2, u3, u4⟩ := dispatch_invalid_cursor hm
      ((before_switch_cursor E a s).1.trans hcol) (before_switch_locals E a s).1 hd
    rw [unit_step_not_routed hd u2] at h
    cases h
    refine ⟨?_, ?_, ?_, ?_⟩
    · rw [(feed_conditions_cursor O a u).1]
      exact u1
    · rw [(feed_conditions_frame O a u).2]
      exact u2
    · rw [(feed_conditions_frame O a u).1, u3]
      exact (before_switch_frame E a s).1
    · rw [(feed_conditions_cursor O a u).2.2.1, u4]
      exact (before_switch_frame E a s).2.2.2.1

/-- A run of units without a record start, begun with `colnum = -1`. -/
theorem run_units_invalid_cursor {E : Extern V} {O : CondOps κ V} {a : Args κ} (n : Nat) :
    ∀ {s t : State κ V}, s.colnum = -1 → run_units E O a n s = Except.ok t →
      (∀ (m : Nat) (u : State κ V), m < n → run_units E O a m s = Except.ok u →
        (classify E a u).1 ≠ ByteType.START_OUTPUT) →
      t.colnum = -1 ∧ t.coldef = s.coldef ∧ t.sink = s.sink := by
  induction n with
  | zero =>
    intro s t hcol h _
    cases h
    exact ⟨hcol, rfl, rfl⟩
  | succ n ih =>
    intro s t hcol h hno
    unfold run_units at h
    cases hu : unit_step E O a s with
    | error e => rw [hu] at h; cases h
    | ok u1 =>
      rw [hu] at h
      obtain ⟨a1, -, a3, a4⟩ := unit_step_invalid_cursor (hno 0 s (by omega) rfl) hcol hu
      obtain ⟨b1, b2, b3⟩ := ih a1 h (fun m u hm hr => hno (m + 1) u (by omega) (by
        unfold run_units
        rw [hu]
        exact hr))
      exact ⟨b1, b2.trans a3, b3.trans a4⟩

theorem begin_record_binary (E : Extern V) (O : CondOps κ V) (a : Args κ) (s : State κ V)
    (hbin : a.txtfile = false) : (begin_record E O a s).colnum = 1 := by
  simp [begin_record, hbin]

/-! ### The synchronization checks on tables with regular counters -/

/-- Lines 392-406 abort the session if and only if, in the column table after the
back-fill of lines 375-391, two columns of the completed record's kind differ in `index`
or `curr_index`. With sloppy mode off the back-fill does not run, so this is the table
as the record left it; with sloppy mode on every column of the kind has `got_val` set
before the check, which is made all the same. -/
theorem sync_abort_iff (E : Extern V) (a : Args κ) (s : State κ V) :
    (finalize_record E a s = Except.error Fatal.not_in_sync ↔
      ∃ i j ci cj, i < s.numcoldef ∧ j < s.numcoldef ∧
        (backfill a s.array_id s.numcoldef s.coldef)[i]? = some ci ∧
        (backfill a s.array_id s.numcoldef s.coldef)[j]? = some cj ∧
        ci.array_id = s.array_id ∧ cj.array_id = s.array_id ∧
        (ci.index ≠ cj.index ∨ ci.curr_index ≠ cj.curr_index)) ∧
    (a.sloppy = false → backfill a s.array_id s.numcoldef s.coldef = s.coldef) ∧
    (a.sloppy = true → ∀ i c, i < s.numcoldef →
        (backfill a s.array_id s.numcoldef s.coldef)[i]? = some c →
        c.array_id = s.array_id → c.got_val = true) := by
  refine ⟨?_, backfill_strict a _ _ _, fun h i c hi hc hk => backfill_got_val a _ _ _ h i hi c hc hk⟩
  rw [← sync_check_iff s.array_id s.numcoldef _ (s.l_index, s.l_curr_index)]
  unfold finalize_record
  simp only []
  constructor
  · intro h
    by_contra hb
    rw [if_neg hb] at h
    cases h
  · intro h
    rw [if_pos h]

/-- The check of lines 392-406 at an input: strict mode, two direct columns of kind 1, a
record that delivers only the first of them; the two columns differ and the boundary
aborts. -/
theorem sync_abort_iff_witness :
    text_args.sloppy = false ∧
      fatal_of (finalize_record sample_extern text_args (update_flags sample_cond text_args
        (before_switch sample_extern text_args (second_line_state text_args
          [direct_col 1 2, direct_col 1 3] [1, 5] [1, 6, 7] blank)))) =
        some Fatal.not_in_sync := by
  refine ⟨by decide, ?_⟩
  rw [(sync_abort_iff sample_extern text_args (update_flags sample_cond text_args
    (before_switch sample_extern text_args (second_line_state text_args
      [direct_col 1 2, direct_col 1 3] [1, 5] [1, 6, 7] blank)))).1.mpr
    ⟨0, 1, _, _, by decide, by decide, rfl, rfl, by decide, by decide, by decide⟩]
  rfl

/-- The check of lines 999-1028 before input file `i ≥ 1` in conversion mode, on a
column table whose counters are not negative (`max_index` and `max_curr_index` start at
0, lines 1002-1003). With sloppy mode off it aborts if and
only if two column definitions differ in `index` or in `curr_index`, and otherwise
leaves the state as it is. With sloppy mode on it never aborts, and afterwards the
`index` of every column is the largest `index` and its `curr_index` the largest
`curr_index` of the table before the check. -/
theorem cross_source_sync (a : Args κ) (i : Nat) (s : State κ V) (hconv : a.list_line = 0)
    (hi : i ≥ 1)
    (hnn : ∀ (k : Nat) (c : column_def V), k < s.numcoldef → s.coldef[k]? = some c →
      0 ≤ c.index ∧ 0 ≤ c.curr_index) :
    (a.sloppy = false →
      (cross_sync a i s = Except.error Fatal.last_file_corrupt ↔
        ∃ (j k : Nat) (cj ck : column_def V), j < s.numcoldef ∧ k < s.numcoldef ∧
          s.coldef[j]? = some cj ∧ s.coldef[k]? = some ck ∧
          (cj.index ≠ ck.index ∨ cj.curr_index ≠ ck.curr_index)) ∧
      (cross_sync a i s = Except.error Fatal.last_file_corrupt ∨
        cross_sync a i s = Except.ok s)) ∧
    (a.sloppy = true →
      ∃ t, cross_sync a i s = Except.ok t ∧
        ∀ (k : Nat) (c : column_def V), k < s.numcoldef → s.coldef[k]? = some c →
          ∃ c', t.coldef[k]? = some c' ∧
            (∀ (j : Nat) (cj : column_def V), j < s.numcoldef → s.coldef[j]? = some cj →
              cj.index ≤ c'.index ∧ cj.curr_index ≤ c'.curr_index) ∧
            (∃ (j : Nat) (cj : column_def V), j < s.numcoldef ∧ s.coldef[j]? = some cj ∧
              cj.index = c'.index) ∧
            (∃ (j : Nat) (cj : column_def V), j < s.numcoldef ∧ s.coldef[j]? = some cj ∧
              cj.curr_index = c'.curr_index)) := by
  obtain ⟨m1, m2, m3, m4, m5⟩ := max_counters_spec s.numcoldef s.coldef
  -- with counters that are not negative the maxima are attained as soon as there is a column
  have hatt1 : ∀ (k : Nat) (c : column_def V), k < s.numcoldef → s.coldef[k]? = some c →
      ∃ (j : Nat) (cj : column_def V), j < s.numcoldef ∧ s.coldef[j]? = some cj ∧
        cj.index = (max_counters s.numcoldef s.coldef).1 := by
    intro k c hk hc
    rcases m4 with h | h
    · refine ⟨k, c, hk, hc, ?_⟩
      have := (m3 k c hk hc).1
      have := (hnn k c hk hc).1
      omega
    · exact h
  have hatt2 : ∀ (k : Nat) (c : column_def V), k < s.numcoldef → s.coldef[k]? = some c →
      ∃ (j : Nat) (cj : column_def V), j < s.numcoldef ∧ s.coldef[j]? = some cj ∧
        cj.curr_index = (max_counters s.numcoldef s.coldef).2 := by
    intro k c hk hc
    rcases m5 with h | h
    · refine ⟨k, c, hk, hc, ?_⟩
      have := (m3 k c hk hc).2
      have := (hnn k c hk hc).2
      omega
    · exact h
  rw [cross_sync_eq a i s hconv hi]
  constructor
  · intro hs
    rcases cross_sync_strict a hs (max_counters s.numcoldef s.coldef) s.coldef s.numcoldef with
      ⟨h1, h2⟩ | ⟨h1, k, c, hk, hc, hne⟩
    · rw [h1]
      have hok : Except.map (fun cd => { s with coldef := cd })
          (Except.ok s.coldef : Except Fatal _) = Except.ok s := rfl
      rw [hok]
      refine ⟨⟨fun h => (by cases h), ?_⟩, Or.inr rfl⟩
      rintro ⟨j, k, cj, ck, hj, hk, hcj, hck, hne⟩
      have e1 := h2 j cj hj hcj
      have e2 := h2 k ck hk hck
      rcases hne with hne | hne
      · exact absurd (e1.1.trans e2.1.symm) hne
      · exact absurd (e1.2.trans e2.2.symm) hne
    · rw [h1]
      refine ⟨⟨fun _ => ?_, fun _ => rfl⟩, Or.inl rfl⟩
      rcases hne with hne | hne
      · obtain ⟨j, cj, hj, hcj, hm⟩ := hatt1 k c hk hc
        exact ⟨k, j, c, cj, hk, hj, hc, hcj, Or.inl (by rw [hm]; exact hne)⟩
      · obtain ⟨j, cj, hj, hcj, hm⟩ := hatt2 k c hk hc
        exact ⟨k, j, c, cj, hk, hj, hc, hcj, Or.inr (by rw [hm]; exact hne)⟩
  · intro hs
    obtain ⟨cd', h1, h2⟩ :=
      cross_sync_sloppy a hs (max_counters s.numcoldef s.coldef) s.coldef s.numcoldef
    rw [h1]
    refine ⟨{ s with coldef := cd' }, rfl, ?_⟩
    intro k c hk hc
    have hk' : cd'[k]? = some
        { c with
          index := if c.index ≠ (max_counters s.numcoldef s.coldef).1
            then (max_counters s.numcoldef s.coldef).1 else c.index
          curr_index := if c.curr_index ≠ (max_counters s.numcoldef s.coldef).2
            then (max_counters s.numcoldef s.coldef).2 else c.curr_index } := by
      rw [h2 k, if_pos hk, hc]
      rfl
    refine ⟨_, hk', ?_, ?_, ?_⟩
    · intro j cj hj hcj
      have := m3 j cj hj hcj
      constructor
      · show cj.index ≤ if c.index ≠ _ then _ else c.index
        split_ifs with hx
        · exact this.1
        · simp only [not_not] at hx
          rw [hx]
          exact this.1
      · show cj.curr_index ≤ if c.curr_index ≠ _ then _ else c.curr_index
        split_ifs with hx
        · exact this.2
        · simp only [not_not] at hx
          rw [hx]
          exact this.2
    · obtain ⟨j, cj, hj, hcj, hm⟩ := hatt1 k c hk hc
      refine ⟨j, cj, hj, hcj, ?_⟩
      show cj.index = if c.index ≠ _ then _ else c.index
      split_ifs with hx
      · exact hm
      · simp only [not_not] at hx
        rw [hx]
        exact hm
    · obtain ⟨j, cj, hj, hcj, hm⟩ := hatt2 k c hk hc
      refine ⟨j, cj, hj, hcj, ?_⟩
      show cj.curr_index = if c.curr_index ≠ _ then _ else c.curr_index
      split_ifs with hx
      · exact hm
      · simp only [not_not] at hx
        rw [hx]
        exact hm

/-- The check of lines 999-1028 at an input: two columns, the second one sample ahead of
the first; the strict check before the second input file aborts the session. -/
theorem cross_source_sync_witness :
    binary_args.list_line = 0 ∧ binary_args.sloppy = false ∧
      counters uneven_state = [(0, 0, 0), (1, 1, 0)] ∧
      fatal_of (cross_sync binary_args 1 uneven_state) = some Fatal.last_file_corrupt := by
  refine ⟨by decide, by decide, by decide, ?_⟩
  have hnn : ∀ (k : Nat) (c : column_def Int), k < uneven_state.numcoldef →
      uneven_state.coldef[k]? = some c → 0 ≤ c.index ∧ 0 ≤ c.curr_index := by
    intro k c hk hc
    have hk2 : k < 2 := hk
    interval_cases k
    · cases hc
      exact ⟨by decide, by decide⟩
    · cases hc
      exact ⟨by decide, by decide⟩
  rw [((cross_source_sync binary_args 1 uneven_state (by decide) (by decide) hnn).1
    (by decide)).1.mpr
    ⟨0, 1, _, _, by decide, by decide, rfl, rfl, Or.inl (by decide)⟩]
  rfl

/-! ## The claims -/

/-- C1: at a record-start unit that the inner loop processes in conversion mode
(`list_line = 0`, loop guard true), the rollback loop does not run if and only if the
filter matched, the start latch is set or no start condition is configured, and the
stop flag is clear; the three flags are the ones lines 353-364 compute at this
boundary. The column table the unit leaves behind is the one without rollback exactly
when this retention predicate holds. -/
theorem retention_decision (E : Extern V) (O : CondOps κ V) (a : Args κ) (s : State κ V)
    (hconv : a.list_line = 0) (hloop : inner_guard a s = true)
    (hcls : (classify E a s).1 = ByteType.START_OUTPUT) :
    (rollback_guard a (update_flags O a (before_switch E a s)) = false ↔
      ((update_flags O a (before_switch E a s)).wanted_data = true ∧
        ((update_flags O a (before_switch E a s)).start_data = true ∨ a.have_start = false) ∧
        (update_flags O a (before_switch E a s)).stop_data = false)) ∧
    (∀ t, unit_step E O a s = Except.ok t →
      t.coldef = (flush E s.numcoldef
        (if (classify E a s).2.start_of_line then
          time_coordinate s.numcoldef (reset_got_val s.numcoldef
            (if (update_flags O a (before_switch E a s)).wanted_data = true ∧
                ((update_flags O a (before_switch E a s)).start_data = true ∨
                  a.have_start = false) ∧
                (update_flags O a (before_switch E a s)).stop_data = false then
              backfill a s.array_id s.numcoldef s.coldef
            else rollback s.array_id s.numcoldef (backfill a s.array_id s.numcoldef s.coldef)))
        else
          reset_got_val s.numcoldef
            (if (update_flags O a (before_switch E a s)).wanted_data = true ∧
                ((update_flags O a (before_switch E a s)).start_data = true ∨
                  a.have_start = false) ∧
                (update_flags O a (before_switch E a s)).stop_data = false then
              backfill a s.array_id s.numcoldef s.coldef
            else rollback s.array_id s.numcoldef (backfill a s.array_id s.numcoldef s.coldef)),
         s.sink)).1) := by
  have hstop : a.have_stop = false →
      (update_flags O a (before_switch E a s)).stop_data = false := fun h =>
    update_flags_stop_without_cond O a _ h
      ((before_switch_flags E a s).2.trans (inner_guard_running hloop))
  have hiff : rollback_guard a (update_flags O a (before_switch E a s)) = false ↔
      ((update_flags O a (before_switch E a s)).wanted_data = true ∧
        ((update_flags O a (before_switch E a s)).start_data = true ∨ a.have_start = false) ∧
        (update_flags O a (before_switch E a s)).stop_data = false) := by
    unfold rollback_guard
    cases hw : (update_flags O a (before_switch E a s)).wanted_data <;>
      cases hst : (update_flags O a (before_switch E a s)).start_data <;>
      cases hsp : (update_flags O a (before_switch E a s)).stop_data <;>
      cases hhs : a.have_start <;>
      cases hhp : a.have_stop <;>
      simp_all
  refine ⟨hiff, ?_⟩
  intro t ht
  rw [unit_step_boundary_coldef hcls ht]
  by_cases hg : rollback_guard a (update_flags O a (before_switch E a s)) = true
  · have hk : ¬ ((update_flags O a (before_switch E a s)).wanted_data = true ∧
        ((update_flags O a (before_switch E a s)).start_data = true ∨ a.have_start = false) ∧
        (update_flags O a (before_switch E a s)).stop_data = false) := by
      rw [← hiff, hg]
      simp
    simp only [hg, if_true, hk, if_false]
  · have hk : (update_flags O a (before_switch E a s)).wanted_data = true ∧
        ((update_flags O a (before_switch E a s)).start_data = true ∨ a.have_start = false) ∧
        (update_flags O a (before_switch E a s)).stop_data = false := by
      rw [← hiff]
      simpa using hg
    simp only [hg, if_false, hk, if_true]
    rfl

/-- C1, at an input: the second line of a text file with a start condition that the
first record satisfies; the rollback loop does not run for the first record. -/
theorem retention_decision_witness :
    (start_args 1).list_line = 0 ∧
      inner_guard (start_args 1)
        (second_line_state (start_args 1) [direct_col 1 2] [1, 5] [1, 6] blank) = true ∧
      (classify sample_extern (start_args 1)
        (second_line_state (start_args 1) [direct_col 1 2] [1, 5] [1, 6] blank)).1 =
        ByteType.START_OUTPUT ∧
      rollback_guard (start_args 1) (update_flags sample_cond (start_args 1)
        (before_switch sample_extern (start_args 1)
          (second_line_state (start_args 1) [direct_col 1 2] [1, 5] [1, 6] blank))) = false :=
  ⟨by decide, by decide, by decide,
    (retention_decision sample_extern sample_cond (start_args 1)
      (second_line_state (start_args 1) [direct_col 1 2] [1, 5] [1, 6] blank)
      (by decide) (by decide) (by decide)).1.mpr
      ⟨by decide, Or.inl (by decide), by decide⟩⟩

/-- C2, evaluated at failing inputs: a text file of two records of kind 1 with one
scalar column. With the start condition "column 2 is 5": when the first record
satisfies it both records are counted, when only the last record of the input
satisfies it the column ends with `index = 0` and the sink receives no row. With the
stop condition "column 2 is 5" satisfied by the last record only, the column ends with
`index = 2`. The end-of-stream finalization (lines 634-669) updates neither the start
latch nor the stop flag. -/
theorem last_record_flags_not_updated :
    counters_of (do_conv_csi sample_extern sample_cond (start_args 1) [direct_col 1 2]
        ⟨[], [[1, 5], [1, 4]]⟩ blank) = some [(2, 2, 0)] ∧
      counters_of (do_conv_csi sample_extern sample_cond (start_args 1) [direct_col 1 2]
        ⟨[], [[1, 4], [1, 5]]⟩ blank) = some [(0, 0, 0)] ∧
      sink_of (do_conv_csi sample_extern sample_cond (start_args 1) [direct_col 1 2]
        ⟨[], [[1, 4], [1, 5]]⟩ blank) = some [(2, 0, 0, ([] : List Int))] ∧
      counters_of (do_conv_csi sample_extern sample_cond (stop_args 1) [direct_col 1 2]
        ⟨[], [[1, 4], [1, 5]]⟩ blank) = some [(2, 2, 0)] :=
  ⟨by decide, by decide, by decide, by decide⟩

/-- C3, evaluated at a failing input: a text file whose first record the filter
rejects, with a derived-time column of one component. When the record began all
counters were 0; after the boundary that rejects the record the component column is
back at 0 but the derived-time column has `index = 1`: lines 430-442 finalize it after
the rollback of lines 410-425 has run. -/
theorem rejected_record_advances_time :
    counters (first_line_state text_args [comp_col 1 2 1 60, time_col 7 1] [1, 5]
        { blank with loc_cond := [cond_on 1 6] }) = [(0, 0, 0), (0, 0, 0)] ∧
      (all_cond sample_cond (second_line_state text_args [comp_col 1 2 1 60, time_col 7 1]
        [1, 5] [1, 6] { blank with loc_cond := [cond_on 1 6] }).loc_cond) = false ∧
      counters_of (unit_step sample_extern sample_cond text_args
        (second_line_state text_args [comp_col 1 2 1 60, time_col 7 1] [1, 5] [1, 6]
          { blank with loc_cond := [cond_on 1 6] })) = some [(0, 0, 0), (1, 1, 0)] := by
  decide

/-- C4, evaluated at a failing input: a binary file of one record, the record start
of array 1 followed by the two-byte value 5. The inner loop (line 254) stops at
`curr_byte < num_bytes - 2`, the last two bytes are never decoded and the sink receives
no row; the same record as a text line is written. -/
theorem last_two_byte_value_dropped :
    counters_of (do_conv_csi sample_extern sample_cond binary_args [direct_col 1 2]
        ⟨[252, 1, 0, 5], []⟩ blank) = some [(0, 0, 0)] ∧
      sink_of (do_conv_csi sample_extern sample_cond binary_args [direct_col 1 2]
        ⟨[252, 1, 0, 5], []⟩ blank) = some [(2, 0, 0, ([] : List Int))] ∧
      sink_of (do_conv_csi sample_extern sample_cond text_args [direct_col 1 2]
        ⟨[], [[1, 5]]⟩ blank) = some [(2, 0, 1, [5])] :=
  ⟨by decide, by decide, by decide⟩

/-- C5, evaluated at a failing input: two text files of one record each in one session.
The second call of `do_conv_csi` sets `*numcoldef = 0` (line 178) and does not read
the column table again, so no loop over the columns runs: `index` stays 1 and the value
6 of the second file never reaches the sink. -/
theorem second_file_not_accumulated :
    counters_of (main sample_extern sample_cond text_args [direct_col 1 2]
        [⟨[], [[1, 5]]⟩, ⟨[], [[1, 6]]⟩] blank) = some [(1, 1, 0)] ∧
      sink_of (main sample_extern sample_cond text_args [direct_col 1 2]
        [⟨[], [[1, 5]]⟩, ⟨[], [[1, 6]]⟩] blank) = some [(2, 0, 1, [5])] := by
  decide

/-- C6: the start latch never resets. A unit step that starts with `start_data` set
ends with it set; so does a whole call of `do_conv_csi` for a later file
(`filenum > 0`); the latch is cleared by the entry code for the first file
(`filenum = 0`). -/
theorem start_latch_never_resets (E : Extern V) (O : CondOps κ V) (a : Args κ) :
    (∀ s t : State κ V, unit_step E O a s = Except.ok t → s.start_data = true →
        t.start_data = true) ∧
    (∀ (formfile : List (column_def V)) (infile : InFile V) (s t : State κ V),
        a.filenum > 0 → do_conv_csi E O a formfile infile s = Except.ok t →
        s.start_data = true → t.start_data = true) ∧
    (∀ (formfile : List (column_def V)) (s : State κ V),
        a.filenum = 0 → (initialize_call E a formfile s).start_data = false) := by
  refine ⟨fun s t h hs => unit_step_start_mono h hs, ?_, ?_⟩
  · intro formfile infile s t hf h hs
    unfold do_conv_csi at h
    cases ho : outer_loop E O a (reads E a infile) (initialize_call E a formfile s) with
    | error e => rw [ho] at h; cases h
    | ok u =>
      rw [ho] at h
      cases h
      rw [(end_of_stream_flags E O a u).1]
      refine outer_loop_start_mono _ ho ?_
      rw [(initialize_call_later_file E a formfile s (by omega)).1]
      exact hs
  · intro formfile s hf
    exact (initialize_call_first_file E a formfile s hf).1

/-- C6, at an input: the record start of the second line when the latch is set, a
second file whose only record does not satisfy the start condition, and the entry code
for the first file. -/
theorem start_latch_never_resets_witness :
    start_data_of (unit_step sample_extern sample_cond (start_args 1)
        { second_line_state (start_args 1) [direct_col 1 2] [1, 4] [1, 6] blank with
          start_data := true }) = some true ∧
      start_data_of (do_conv_csi sample_extern sample_cond { start_args 1 with filenum := 1 }
        [direct_col 1 2] ⟨[], [[1, 4]]⟩ { blank with start_data := true }) = some true ∧
      (initialize_call sample_extern (start_args 1) [direct_col 1 2]
        { blank with start_data := true }).start_data = false := by
  refine ⟨?_, ?_, ?_⟩
  · obtain ⟨t, h⟩ := ok_of_fatal_none (r := unit_step sample_extern sample_cond (start_args 1)
      { second_line_state (start_args 1) [direct_col 1 2] [1, 4] [1, 6] blank with
        start_data := true }) (by decide)
    rw [h]
    exact congrArg some
      ((start_latch_never_resets sample_extern sample_cond (start_args 1)).1 _ t h rfl)
  · obtain ⟨t, h⟩ := ok_of_fatal_none (r := do_conv_csi sample_extern sample_cond
      { start_args 1 with filenum := 1 } [direct_col 1 2] ⟨[], [[1, 4]]⟩
      { blank with start_data := true }) (by decide)
    rw [h]
    exact congrArg some ((start_latch_never_resets sample_extern sample_cond
      { start_args 1 with filenum := 1 }).2.1 _ _ _ t (by decide) h rfl)
  · exact (start_latch_never_resets sample_extern sample_cond (start_args 1)).2.2 _ _
      (by decide)

/-- C7 as stated fails for record kind 0: the first record of a text file of kind 0
satisfies the start condition, yet at its boundary the rollback runs, and at the end
of the session the column has `index = 0`. -/
theorem start_not_latched_for_kind_zero :
    (classify sample_extern (start_args 0)
        (second_line_state (start_args 0) [direct_col 0 2] [0, 5] [0, 6] blank)).1 =
        ByteType.START_OUTPUT ∧
      all_cond sample_cond
        (second_line_state (start_args 0) [direct_col 0 2] [0, 5] [0, 6] blank).start_cond.toList =
        true ∧
      rollback_guard (start_args 0) (update_flags sample_cond (start_args 0)
        (before_switch sample_extern (start_args 0)
          (second_line_state (start_args 0) [direct_col 0 2] [0, 5] [0, 6] blank))) = true ∧
      counters_of (do_conv_csi sample_extern sample_cond (start_args 0) [direct_col 0 2]
        ⟨[], [[0, 5], [0, 6]]⟩ blank) = some [(0, 0, 0)] :=
  ⟨by decide, by decide, by decide, by decide⟩

/-- C7 amended: if the start condition's result is true at the record-start unit that
completes a record of kind > 0 (conversion mode), the rollback at this boundary runs
only if the filter is false or the stop flag is set, the record stays in the column
table when the filter matched and the stop flag is clear, and after this unit
`start_data` is true after any number of further units, so that at every later
boundary the rollback again runs only if the filter is false or the stop flag is set,
whatever the start condition evaluates to there. Nothing is said about the record
that is completed by the end of the input. -/
theorem start_latch_retains (E : Extern V) (O : CondOps κ V) (a : Args κ) (s : State κ V)
    (hconv : a.list_line = 0)
    (hcls : (classify E a s).1 = ByteType.START_OUTPUT) (hkind : s.array_id > 0)
    (hmatch : all_cond O s.start_cond.toList = true) :
    (rollback_guard a (update_flags O a (before_switch E a s)) = true ↔
      ((update_flags O a (before_switch E a s)).wanted_data = false ∨
        (a.have_stop = true ∧ (update_flags O a (before_switch E a s)).stop_data = true))) ∧
    (∀ s1, unit_step E O a s = Except.ok s1 →
      ((update_flags O a (before_switch E a s)).wanted_data = true →
        (a.have_stop = true → (update_flags O a (before_switch E a s)).stop_data = false) →
        s1.coldef = (flush E s.numcoldef
          (if (classify E a s).2.start_of_line then
            time_coordinate s.numcoldef (reset_got_val s.numcoldef
              (backfill a s.array_id s.numcoldef s.coldef))
          else
            reset_got_val s.numcoldef (backfill a s.array_id s.numcoldef s.coldef),
           s.sink)).1) ∧
      ∀ n t, run_units E O a n s1 = Except.ok t →
        t.start_data = true ∧
        (rollback_guard a (update_flags O a (before_switch E a t)) = true ↔
          ((update_flags O a (before_switch E a t)).wanted_data = false ∨
            (a.have_stop = true ∧
              (update_flags O a (before_switch E a t)).stop_data = true)))) := by
  have hlatch : (update_flags O a (before_switch E a s)).start_data = true := by
    apply update_flags_start_latched
    · rw [(before_switch_frame E a s).2.2.1]
      exact hkind
    · intro _
      rw [(before_switch_frame E a s).2.2.2.2.1]
      exact hmatch
  have hguard := rollback_guard_latched a _ hconv hlatch
  refine ⟨hguard, ?_⟩
  intro s1 h1
  refine ⟨?_, ?_⟩
  · intro hw hs
    have hno : ¬ rollback_guard a (update_flags O a (before_switch E a s)) = true := by
      rw [hguard]
      rintro (h | ⟨h2, h3⟩)
      · rw [hw] at h
        cases h
      · rw [hs h2] at h3
        cases h3
    rw [unit_step_boundary_coldef hcls h1]
    simp only [hno, if_false]
    rfl
  · intro n t ht
    have hs1 : s1.start_data = true := by
      rw [(unit_step_boundary_flags hcls h1).1]
      exact hlatch
    have htd : t.start_data = true := run_units_start_mono n ht hs1
    refine ⟨htd, ?_⟩
    apply rollback_guard_latched a _ hconv
    apply update_flags_start_mono
    rw [(before_switch_flags E a t).1]
    exact htd

/-- C7 amended, at an input: records of kind 1, the first satisfies the start
condition; it stays in the column table, and the latch is set after the next unit,
whose value 6 does not satisfy the start condition. -/
theorem start_latch_retains_witness :
    (start_args 1).list_line = 0 ∧
      (classify sample_extern (start_args 1)
        (second_line_state (start_args 1) [direct_col 1 2] [1, 5] [1, 6] blank)).1 =
        ByteType.START_OUTPUT ∧
      (second_line_state (start_args 1) [direct_col 1 2] [1, 5] [1, 6] blank).array_id > 0 ∧
      all_cond sample_cond
        (second_line_state (start_args 1) [direct_col 1 2] [1, 5] [1, 6] blank).start_cond.toList =
        true ∧
      counters_of (unit_step sample_extern sample_cond (start_args 1)
        (second_line_state (start_args 1) [direct_col 1 2] [1, 5] [1, 6] blank)) =
        some [(1, 1, 0)] ∧
      start_data_of (run_units sample_extern sample_cond (start_args 1) 2
        (second_line_state (start_args 1) [direct_col 1 2] [1, 5] [1, 6] blank)) =
        some true := by
  refine ⟨by decide, by decide, by decide, by decide, ?_⟩
  obtain ⟨s1, h1⟩ := ok_of_fatal_none (r := unit_step sample_extern sample_cond (start_args 1)
    (second_line_state (start_args 1) [direct_col 1 2] [1, 5] [1, 6] blank)) (by decide)
  have h := (start_latch_retains sample_extern sample_cond (start_args 1)
    (second_line_state (start_args 1) [direct_col 1 2] [1, 5] [1, 6] blank)
    (by decide) (by decide) (by decide) (by decide)).2 s1 h1
  constructor
  · rw [h1, counters_of, h.1 (by decide) (by decide)]
    decide
  · rw [run_units, h1]
    obtain ⟨t, ht⟩ := ok_of_fatal_none
      (r := (Except.ok s1 : Except Fatal _).bind
        (run_units sample_extern sample_cond (start_args 1) 1)) (by
        rw [← h1]
        decide)
    rw [ht]
    exact congrArg some (h.2 1 t ht).1

/-- C8 as stated fails for record kind 0: the first record satisfies the stop
condition, yet both records are counted and both values reach the sink. -/
theorem stop_ignored_for_kind_zero :
    (classify sample_extern (stop_args 0)
        (second_line_state (stop_args 0) [direct_col 0 2] [0, 5] [0, 6] blank)).1 =
        ByteType.START_OUTPUT ∧
      all_cond sample_cond
        (second_line_state (stop_args 0) [direct_col 0 2] [0, 5] [0, 6] blank).stop_cond.toList =
        true ∧
      counters_of (do_conv_csi sample_extern sample_cond (stop_args 0) [direct_col 0 2]
        ⟨[], [[0, 5], [0, 6]]⟩ blank) = some [(2, 2, 0)] ∧
      sink_of (do_conv_csi sample_extern sample_cond (stop_args 0) [direct_col 0 2]
        ⟨[], [[0, 5], [0, 6]]⟩ blank) = some [(2, 0, 2, [5, 6])] :=
  ⟨by decide, by decide, by decide, by decide⟩

/-- C8 amended: if the stop condition's result is true at the record-start unit that
completes a record of kind > 0 (conversion mode), then `stop_data` is true after the
unit, the column table is the one the rollback loop leaves (every column with `got_val`
that is a direct column of this kind or follows this kind has `index` and `curr_index`
one lower), and neither the inner nor the outer loop processes another unit. Nothing
is said about the record that is completed by the end of the input. -/
theorem stop_excludes_and_ends (E : Extern V) (O : CondOps κ V) (a : Args κ) (s : State κ V)
    (hconv : a.list_line = 0) (hstop : a.have_stop = true)
    (hcls : (classify E a s).1 = ByteType.START_OUTPUT) (hkind : s.array_id > 0)
    (hmatch : all_cond O s.stop_cond.toList = true) :
    ∀ t, unit_step E O a s = Except.ok t →
      t.stop_data = true ∧
      t.coldef = (flush E s.numcoldef
        (if (classify E a s).2.start_of_line then
          time_coordinate s.numcoldef (reset_got_val s.numcoldef
            (rollback s.array_id s.numcoldef (backfill a s.array_id s.numcoldef s.coldef)))
        else
          reset_got_val s.numcoldef
            (rollback s.array_id s.numcoldef (backfill a s.array_id s.numcoldef s.coldef)),
         s.sink)).1 ∧
      (∀ i c, i < s.numcoldef →
        (backfill a s.array_id s.numcoldef s.coldef)[i]? = some c →
        (rollback s.array_id s.numcoldef (backfill a s.array_id s.numcoldef s.coldef))[i]? =
          some (roll_back s.array_id c)) ∧
      (∀ c : column_def V, c.got_val = true →
        ((c.follow_id = -1 ∧ c.array_id = s.array_id) ∨ c.follow_id = s.array_id) →
        (roll_back s.array_id c).index = c.index - 1 ∧
          (roll_back s.array_id c).curr_index = c.curr_index - 1) ∧
      (∀ n, inner_loop E O a n t = Except.ok t) ∧
      (∀ rs, outer_loop E O a rs t = Except.ok t) := by
  intro t ht
  have hsd : (update_flags O a (before_switch E a s)).stop_data = true := by
    rw [update_flags_stop_assigned O a _ hstop (by
      rw [(before_switch_frame E a s).2.2.1]; exact hkind),
      (before_switch_frame E a s).2.2.2.2.2.1]
    exact hmatch
  have hg : rollback_guard a (update_flags O a (before_switch E a s)) = true := by
    unfold rollback_guard
    simp [hconv, hstop, hsd]
  have hts : t.stop_data = true := by
    rw [(unit_step_boundary_flags hcls ht).2]
    exact hsd
  refine ⟨hts, ?_, ?_, ?_, fun n => inner_loop_stopped E O a n t hts,
    fun rs => outer_loop_stopped E O a rs t hts⟩
  · rw [unit_step_boundary_coldef hcls ht]
    simp only [hg, if_true]
  · intro i c hi hc
    rw [rollback_get, if_pos hi, hc]
    rfl
  · intro c hgv hk
    unfold roll_back
    rw [if_pos ⟨hgv, hk⟩]
    exact ⟨rfl, rfl⟩

/-- C8 amended, at an input: records of kind 1, the first satisfies the stop
condition; it is rolled back, the stop flag is set and the inner loop processes no
further unit. -/
theorem stop_excludes_and_ends_witness :
    (stop_args 1).list_line = 0 ∧ (stop_args 1).have_stop = true ∧
      (classify sample_extern (stop_args 1)
        (second_line_state (stop_args 1) [direct_col 1 2] [1, 5] [1, 6] blank)).1 =
        ByteType.START_OUTPUT ∧
      (second_line_state (stop_args 1) [direct_col 1 2] [1, 5] [1, 6] blank).array_id > 0 ∧
      all_cond sample_cond
        (second_line_state (stop_args 1) [direct_col 1 2] [1, 5] [1, 6] blank).stop_cond.toList =
        true ∧
      stop_data_of ((unit_step sample_extern sample_cond (stop_args 1)
        (second_line_state (stop_args 1) [direct_col 1 2] [1, 5] [1, 6] blank)).bind
          (inner_loop sample_extern sample_cond (stop_args 1) 5)) = some true ∧
      counters_of ((unit_step sample_extern sample_cond (stop_args 1)
        (second_line_state (stop_args 1) [direct_col 1 2] [1, 5] [1, 6] blank)).bind
          (inner_loop sample_extern sample_cond (stop_args 1) 5)) = some [(0, 0, 0)] := by
  refine ⟨by decide, by decide, by decide, by decide, by decide, ?_⟩
  obtain ⟨t, h1⟩ := ok_of_fatal_none (r := unit_step sample_extern sample_cond (stop_args 1)
    (second_line_state (stop_args 1) [direct_col 1 2] [1, 5] [1, 6] blank)) (by decide)
  have h := stop_excludes_and_ends sample_extern sample_cond (stop_args 1)
    (second_line_state (stop_args 1) [direct_col 1 2] [1, 5] [1, 6] blank)
    (by decide) (by decide) (by decide) (by decide) (by decide) t h1
  have hb : (Except.ok t : Except Fatal _).bind
      (inner_loop sample_extern sample_cond (stop_args 1) 5) = Except.ok t := h.2.2.2.2.1 5
  rw [h1, hb]
  constructor
  · exact congrArg some h.1
  · rw [counters_of, h.2.1]
    decide

/-- C9 as stated fails for record kind 0: the stop condition's result for the completed
record is true and `stop_data` is false after the boundary. -/
theorem stop_flag_cleared_for_kind_zero :
    (stop_args 0).have_stop = true ∧
      (before_switch sample_extern (stop_args 0)
        (second_line_state (stop_args 0) [direct_col 0 2] [0, 5] [0, 6] blank)).array_id = 0 ∧
      all_cond sample_cond (before_switch sample_extern (stop_args 0)
        (second_line_state (stop_args 0) [direct_col 0 2] [0, 5] [0, 6] blank)).stop_cond.toList =
        true ∧
      (update_flags sample_cond (stop_args 0) (before_switch sample_extern (stop_args 0)
        (second_line_state (stop_args 0) [direct_col 0 2] [0, 5] [0, 6] blank))).stop_data =
        false :=
  ⟨by decide, by decide, by decide, by decide⟩

/-- C9 amended: at a record boundary with a stop condition configured and a completed
record of kind > 0, `stop_data` is assigned the stop condition's result; for a record
kind <= 0 (the placeholder -1 included) it is false after the boundary; without a stop
condition it stays false over every unit step, and over a whole call of `do_conv_csi`
for the first file. -/
theorem stop_flag_assigned (E : Extern V) (O : CondOps κ V) (a : Args κ) :
    (∀ s : State κ V, a.have_stop = true → s.array_id > 0 →
        (update_flags O a s).stop_data = all_cond O s.stop_cond.toList) ∧
    (∀ s : State κ V, s.array_id ≤ 0 → (update_flags O a s).stop_data = false) ∧
    (∀ s t : State κ V, a.have_stop = false → s.stop_data = false →
        unit_step E O a s = Except.ok t → t.stop_data = false) ∧
    (∀ (formfile : List (column_def V)) (infile : InFile V) (s t : State κ V),
        a.have_stop = false → a.filenum = 0 →
        do_conv_csi E O a formfile infile s = Except.ok t → t.stop_data = false) := by
  refine ⟨fun s h1 h2 => update_flags_stop_assigned O a s h1 h2,
    fun s h => update_flags_stop_placeholder O a s h,
    fun _ _ h1 h2 h3 => unit_step_stop_without_cond h3 h1 h2, ?_⟩
  intro formfile infile s t hc hf h
  unfold do_conv_csi at h
  cases ho : outer_loop E O a (reads E a infile) (initialize_call E a formfile s) with
  | error e => rw [ho] at h; cases h
  | ok u =>
    rw [ho] at h
    cases h
    rw [(end_of_stream_flags E O a u).2]
    exact outer_loop_stop_without_cond _ hc ho (initialize_call_first_file E a formfile s hf).2

/-- C9 amended, at an input: a boundary of kind 1 with the stop condition satisfied, the
boundary before the first record, and a session without stop condition. -/
theorem stop_flag_assigned_witness :
    (update_flags sample_cond (stop_args 1) (before_switch sample_extern (stop_args 1)
        (second_line_state (stop_args 1) [direct_col 1 2] [1, 5] [1, 6] blank))).stop_data =
        true ∧
      (update_flags sample_cond (stop_args 1) (before_switch sample_extern (stop_args 1)
        (first_line_state (stop_args 1) [direct_col 1 2] [1, 5] blank))).stop_data = false ∧
      stop_data_of (do_conv_csi sample_extern sample_cond text_args [direct_col 1 2]
        ⟨[], [[1, 5], [1, 6]]⟩ blank) = some false := by
  refine ⟨?_, ?_, ?_⟩
  · rw [(stop_flag_assigned sample_extern sample_cond (stop_args 1)).1 _ (by decide)
      (by decide)]
    decide
  · exact (stop_flag_assigned sample_extern sample_cond (stop_args 1)).2.1 _ (by decide)
  · obtain ⟨t, h⟩ := ok_of_fatal_none (r := do_conv_csi sample_extern sample_cond text_args
      [direct_col 1 2] ⟨[], [[1, 5], [1, 6]]⟩ blank) (by decide)
    rw [h]
    exact congrArg some ((stop_flag_assigned sample_extern sample_cond text_args).2.2.2
      _ _ _ t (by decide) (by decide) h)

/-- C10 on the text file with the records `1,5` and `1,6`, in sloppy mode, with a direct
column and a following variable of the same record kind 1 on input column 2: at the
boundary after the first record the direct column stands at 1 and the following
variable, which only captured, at 0; the check of lines 392-406 counts both and the
session aborts with the synchronization error although sloppy mode is on (it aborts
on this file with sloppy mode off as well). Where the mismatch is a missing value
(two direct columns, the first record `1,5` has no input column 3) the strict run aborts
and the sloppy run back-fills and goes on: both columns end at 2 and the sink receives
the fill value -1. -/
theorem sloppy_session_aborts :
    fatal_of (do_conv_csi sample_extern sample_cond { text_args with sloppy := true }
        [direct_col 1 2, follow_col 1 2 2] ⟨[], [[1, 5], [1, 6]]⟩ blank) =
        some Fatal.not_in_sync ∧
      counters (second_line_state { text_args with sloppy := true }
        [direct_col 1 2, follow_col 1 2 2] [1, 5] [1, 6] blank) = [(1, 1, 0), (0, 0, 0)] ∧
      fatal_of (do_conv_csi sample_extern sample_cond text_args
        [direct_col 1 2, follow_col 1 2 2] ⟨[], [[1, 5], [1, 6]]⟩ blank) =
        some Fatal.not_in_sync ∧
      fatal_of (do_conv_csi sample_extern sample_cond text_args
        [direct_col 1 2, direct_col 1 3] ⟨[], [[1, 5], [1, 6, 7]]⟩ blank) =
        some Fatal.not_in_sync ∧
      counters_of (do_conv_csi sample_extern sample_cond { text_args with sloppy := true }
        [direct_col 1 2, direct_col 1 3] ⟨[], [[1, 5], [1, 6, 7]]⟩ blank) =
        some [(2, 2, 0), (2, 2, 0)] ∧
      sink_of (do_conv_csi sample_extern sample_cond { text_args with sloppy := true }
        [direct_col 1 2, direct_col 1 3] ⟨[], [[1, 5], [1, 6, 7]]⟩ blank) =
        some [(2, 0, 2, [5, 6]), (3, 0, 2, [-1, 7])] :=
  ⟨by decide, by decide, by decide, by decide, by decide, by decide⟩

/-- C11: a desynchronized four-byte pair (the unit at the cursor classifies as
`FOUR_BYTE_1`, the pair at cursor + 2 is not `FOUR_BYTE_2`). With sloppy mode off the
unit fails with the fatal error of line 345 and so does the inner loop: no further unit
is processed. With sloppy mode on the unit returns, the byte cursor has advanced by
exactly one, nothing was routed (`valid_sample` is clear, the column table with all its
counters and the sink are unchanged), `colnum` is unchanged, and the inner loop goes on
with the next unit from that state. -/
theorem desynchronized_four_byte (E : Extern V) (O : CondOps κ V) (a : Args κ)
    (s : State κ V) (hbin : a.txtfile = false)
    (h1 : E.bytetype (s.data s.curr_byte) (s.data (s.curr_byte + 1)) = ByteType.FOUR_BYTE_1)
    (h2 : E.bytetype (s.data (s.curr_byte + 2)) (s.data (s.curr_byte + 3)) ≠
      ByteType.FOUR_BYTE_2) :
    (a.sloppy = false →
      unit_step E O a s = Except.error Fatal.unexpected_byte_pair ∧
      ∀ n, inner_guard a s = true →
        inner_loop E O a (n + 1) s = Except.error Fatal.unexpected_byte_pair) ∧
    (a.sloppy = true →
      ∃ t, unit_step E O a s = Except.ok t ∧ t.curr_byte = s.curr_byte + 1 ∧
        t.colnum = s.colnum ∧ t.coldef = s.coldef ∧ t.sink = s.sink ∧
        t.valid_sample = false ∧
        ∀ n, inner_guard a s = true →
          inner_loop E O a (n + 1) s = inner_loop E O a n t) := by
  obtain ⟨c1, c2, c3, -, -⟩ := before_switch_cursor E a s
  have hcls : (classify E a s).1 = ByteType.FOUR_BYTE_1 := by
    rw [(classify_binary E a s hbin).1]
    exact h1
  have h2' : ¬ E.bytetype ((before_switch E a s).data ((before_switch E a s).curr_byte + 2))
      ((before_switch E a s).data ((before_switch E a s).curr_byte + 3)) =
      ByteType.FOUR_BYTE_2 := by
    rw [c2, c3]
    exact h2
  constructor
  · intro hs
    have hu : unit_step E O a s = Except.error Fatal.unexpected_byte_pair := by
      unfold unit_step
      rw [hcls]
      simp only [dispatch, four_byte]
      rw [if_neg h2']
      simp [hs]
      rfl
    refine ⟨hu, fun n hg => ?_⟩
    rw [inner_loop_step n hg, hu]
    rfl
  · intro hs
    have hd : dispatch E O a (classify E a s).1 (before_switch E a s) =
        Except.ok { before_switch E a s with curr_byte := (before_switch E a s).curr_byte + 1 } := by
      rw [hcls]
      simp only [dispatch, four_byte]
      rw [if_neg h2']
      simp [hs]
    have hu := unit_step_not_routed hd (before_switch_locals E a s).1
    refine ⟨_, hu, ?_, ?_, ?_, ?_, ?_, fun n hg => ?_⟩
    · rw [(feed_conditions_cursor O a _).2.1]
      show (before_switch E a s).curr_byte + 1 = _
      rw [c2]
    · rw [(feed_conditions_cursor O a _).1]
      exact c1
    · rw [(feed_conditions_frame O a _).1]
      exact (before_switch_frame E a s).1
    · rw [(feed_conditions_cursor O a _).2.2.1]
      exact (before_switch_frame E a s).2.2.2.1
    · rw [(feed_conditions_frame O a _).2]
      exact (before_switch_locals E a s).1
    · rw [inner_loop_step n hg, hu]
      rfl

/-- C11 at an input: the record `FC 01` of kind 1 is followed by `1C 00`, the first half
of a four-byte value, and `05 05`, a two-byte value. Strict mode aborts; sloppy mode
moves the cursor from byte 2 to byte 3 and keeps `colnum = 1`. -/
theorem desynchronized_four_byte_witness :
    binary_args.txtfile = false ∧
      sample_extern.bytetype
        ((second_unit_state binary_args desync_bytes).data
          (second_unit_state binary_args desync_bytes).curr_byte)
        ((second_unit_state binary_args desync_bytes).data
          ((second_unit_state binary_args desync_bytes).curr_byte + 1)) =
        ByteType.FOUR_BYTE_1 ∧
      fatal_of (unit_step sample_extern sample_cond binary_args
        (second_unit_state binary_args desync_bytes)) = some Fatal.unexpected_byte_pair ∧
      cursor_of (unit_step sample_extern sample_cond sloppy_args
        (second_unit_state sloppy_args desync_bytes)) = some (3, 1) := by
  refine ⟨by decide, by decide, ?_, ?_⟩
  · rw [((desynchronized_four_byte sample_extern sample_cond binary_args
      (second_unit_state binary_args desync_bytes) (by decide) (by decide) (by decide)).1
      (by decide)).1]
    rfl
  · obtain ⟨t, h, hc, hn, -⟩ := (desynchronized_four_byte sample_extern sample_cond sloppy_args
      (second_unit_state sloppy_args desync_bytes) (by decide) (by decide) (by decide)).2
      (by decide)
    rw [h, cursor_of, hc, hn]
    decide

/-- C12: a unit that is none of `TXT_VALUE`, `TWO_BYTE`, `FOUR_BYTE_1`, `START_OUTPUT`
and `DUMMY_WORD` (lines 511-523). With sloppy mode off the unit and the inner loop fail
with the fatal error of line 520. With sloppy mode on the unit returns, the byte cursor
has advanced by exactly one, `colnum` is the sentinel -1, nothing was routed and the
inner loop goes on with the next unit. -/
theorem unknown_unit_policy (E : Extern V) (O : CondOps κ V) (a : Args κ)
    (s : State κ V) (hbin : a.txtfile = false)
    (h1 : E.bytetype (s.data s.curr_byte) (s.data (s.curr_byte + 1)) ≠ ByteType.TXT_VALUE)
    (h2 : E.bytetype (s.data s.curr_byte) (s.data (s.curr_byte + 1)) ≠ ByteType.TWO_BYTE)
    (h3 : E.bytetype (s.data s.curr_byte) (s.data (s.curr_byte + 1)) ≠ ByteType.FOUR_BYTE_1)
    (h4 : E.bytetype (s.data s.curr_byte) (s.data (s.curr_byte + 1)) ≠ ByteType.START_OUTPUT)
    (h5 : E.bytetype (s.data s.curr_byte) (s.data (s.curr_byte + 1)) ≠ ByteType.DUMMY_WORD) :
    (a.sloppy = false →
      unit_step E O a s = Except.error Fatal.unknown_byte_type ∧
      ∀ n, inner_guard a s = true →
        inner_loop E O a (n + 1) s = Except.error Fatal.unknown_byte_type) ∧
    (a.sloppy = true →
      ∃ t, unit_step E O a s = Except.ok t ∧ t.curr_byte = s.curr_byte + 1 ∧
        t.colnum = -1 ∧ t.coldef = s.coldef ∧ t.sink = s.sink ∧ t.valid_sample = false ∧
        ∀ n, inner_guard a s = true →
          inner_loop E O a (n + 1) s = inner_loop E O a n t) := by
  obtain ⟨-, c2, -, -, -⟩ := before_switch_cursor E a s
  have hdisp : dispatch E O a (classify E a s).1 (before_switch E a s) =
      unknown_unit a (before_switch E a s) := by
    rw [(classify_binary E a s hbin).1]
    cases hb : E.bytetype (s.data s.curr_byte) (s.data (s.curr_byte + 1)) <;>
      first
      | rfl
      | exact absurd hb h1
      | exact absurd hb h2
      | exact absurd hb h3
      | exact absurd hb h4
      | exact absurd hb h5
  constructor
  · intro hs
    have hu : unit_step E O a s = Except.error Fatal.unknown_byte_type := by
      unfold unit_step
      rw [hdisp]
      simp [unknown_unit, hs]
      rfl
    refine ⟨hu, fun n hg => ?_⟩
    rw [inner_loop_step n hg, hu]
    rfl
  · intro hs
    have hd : dispatch E O a (classify E a s).1 (before_switch E a s) =
        Except.ok { before_switch E a s with
          curr_byte := (before_switch E a s).curr_byte + 1, colnum := -1 } := by
      rw [hdisp]
      simp [unknown_unit, hs]
    have hu := unit_step_not_routed hd (before_switch_locals E a s).1
    refine ⟨_, hu, ?_, ?_, ?_, ?_, ?_, fun n hg => ?_⟩
    · rw [(feed_conditions_cursor O a _).2.1]
      show (before_switch E a s).curr_byte + 1 = _
      rw [c2]
    · rw [(feed_conditions_cursor O a _).1]
    · rw [(feed_conditions_frame O a _).1]
      exact (before_switch_frame E a s).1
    · rw [(feed_conditions_cursor O a _).2.2.1]
      exact (before_switch_frame E a s).2.2.2.1
    · rw [(feed_conditions_frame O a _).2]
      exact (before_switch_locals E a s).1
    · rw [inner_loop_step n hg, hu]
      rfl

/-- C12 at an input: the record `FC 01` of kind 1 is followed by `64 00`, which is no
unit of the format. Strict mode aborts; sloppy mode moves the cursor from byte 2 to
byte 3 and sets `colnum = -1`. -/
theorem unknown_unit_policy_witness :
    binary_args.txtfile = false ∧
      sample_extern.bytetype
        ((second_unit_state binary_args unknown_bytes).data
          (second_unit_state binary_args unknown_bytes).curr_byte)
        ((second_unit_state binary_args unknown_bytes).data
          ((second_unit_state binary_args unknown_bytes).curr_byte + 1)) =
        ByteType.UNKNOWN ∧
      fatal_of (unit_step sample_extern sample_cond binary_args
        (second_unit_state binary_args unknown_bytes)) = some Fatal.unknown_byte_type ∧
      cursor_of (unit_step sample_extern sample_cond sloppy_args
        (second_unit_state sloppy_args unknown_bytes)) = some (3, -1) := by
  refine ⟨by decide, by decide, ?_, ?_⟩
  · rw [((unknown_unit_policy sample_extern sample_cond binary_args
      (second_unit_state binary_args unknown_bytes) (by decide) (by decide) (by decide)
      (by decide) (by decide) (by decide)).1 (by decide)).1]
    rfl
  · obtain ⟨t, h, hc, hn, -⟩ := (unknown_unit_policy sample_extern sample_cond sloppy_args
      (second_unit_state sloppy_args unknown_bytes) (by decide) (by decide) (by decide)
      (by decide) (by decide) (by decide)).2 (by decide)
    rw [h, cursor_of, hc, hn]
    decide

/-- C13 on two text files with the filter "column 2 of kind 1 is 5" and a single column,
a following variable that captures under kind 1: the first file `1,7` leaves the column
at `index = curr_index = -1` (the end-of-stream rollback of a column that was not
advanced). Before the second file the maxima of lines 1002-1008 are 0, not -1: with
sloppy mode off the session aborts although no two columns differ (there is one
column), with sloppy mode on the column is set to 0, which is not the maximum -1 over
the columns. A single direct column that stands at 0 after the first file passes the
same check. -/
theorem file_check_fails_on_single_column :
    counters_of (main sample_extern sample_cond text_args [follow_col 1 2 2]
        [⟨[], [[1, 7]]⟩] filtered) = some [(-1, -1, 0)] ∧
      fatal_of (main sample_extern sample_cond text_args [follow_col 1 2 2]
        [⟨[], [[1, 7]]⟩, ⟨[], [[1, 8]]⟩] filtered) = some Fatal.last_file_corrupt ∧
      counters_of ((main sample_extern sample_cond { text_args with sloppy := true }
        [follow_col 1 2 2] [⟨[], [[1, 7]]⟩] filtered).bind
          (cross_sync { text_args with sloppy := true } 1)) = some [(0, 0, 0)] ∧
      fatal_of (main sample_extern sample_cond text_args [direct_col 1 2]
        [⟨[], [[1, 7]]⟩, ⟨[], [[1, 8]]⟩] filtered) = none :=
  ⟨by decide, by decide, by decide, by decide⟩

/-- C14 on a text file: the follow column (captured under kind 1, written when kind 2
arrives) holds 7 when the record of kind 2 arrives, the unit that delivers the first
value of that record does not carry the start-of-line flag, and the column never gets
a sample: its counters stay 0 and the sink receives an empty write. The same records in
a binary file give one sample with the value 7. -/
theorem follow_not_emitted_in_text_mode :
    (state_after text_args 1 (second_line_state text_args [follow_col 1 2 2] [1, 7] [2, 9]
        blank)).array_id = 2 ∧
      (state_after text_args 1 (second_line_state text_args [follow_col 1 2 2] [1, 7] [2, 9]
        blank)).coldef.map (fun c => (c.got_follow_val, c.follow_val 0)) = [(true, 7)] ∧
      (classify sample_extern text_args (state_after text_args 1 (second_line_state text_args
        [follow_col 1 2 2] [1, 7] [2, 9] blank))).1 = ByteType.TXT_VALUE ∧
      (classify sample_extern text_args (state_after text_args 1 (second_line_state text_args
        [follow_col 1 2 2] [1, 7] [2, 9] blank))).2.start_of_line = false ∧
      counters_of (unit_step sample_extern sample_cond text_args (state_after text_args 1
        (second_line_state text_args [follow_col 1 2 2] [1, 7] [2, 9] blank))) =
        some [(0, 0, 0)] ∧
      counters_of (do_conv_csi sample_extern sample_cond text_args [follow_col 1 2 2]
        ⟨[], [[1, 7], [2, 9]]⟩ blank) = some [(0, 0, 0)] ∧
      sink_of (do_conv_csi sample_extern sample_cond text_args [follow_col 1 2 2]
        ⟨[], [[1, 7], [2, 9]]⟩ blank) = some [(2, 0, 0, [])] ∧
      counters_of (do_conv_csi sample_extern sample_cond binary_args [follow_col 1 2 2]
        ⟨[252, 1, 0, 7, 252, 2, 0, 9, 127, 255], []⟩ blank) = some [(1, 1, 0)] ∧
      sink_of (do_conv_csi sample_extern sample_cond binary_args [follow_col 1 2 2]
        ⟨[252, 1, 0, 7, 252, 2, 0, 9, 127, 255], []⟩ blank) = some [(2, 0, 1, [7])] :=
  ⟨by decide, by decide, by decide, by decide, by decide, by decide, by decide, by decide,
    by decide⟩

/-- C15 on a text file: two records of kind 2 arrive and the follow column holds no
captured value, yet `follow_missed` is still 0 after the first value unit of the first
record and after the whole file. The same records in a binary file are counted: 2. -/
theorem follow_miss_not_counted_in_text_mode :
    (state_after text_args 1 (first_line_state text_args [follow_col 1 2 2] [2, 9]
        blank)).array_id = 2 ∧
      (state_after text_args 1 (first_line_state text_args [follow_col 1 2 2] [2, 9]
        blank)).coldef.map (fun c => c.got_follow_val) = [false] ∧
      (classify sample_extern text_args (state_after text_args 1 (first_line_state text_args
        [follow_col 1 2 2] [2, 9] blank))).1 = ByteType.TXT_VALUE ∧
      missed_of (unit_step sample_extern sample_cond text_args (state_after text_args 1
        (first_line_state text_args [follow_col 1 2 2] [2, 9] blank))) = some [0] ∧
      missed_of (do_conv_csi sample_extern sample_cond text_args [follow_col 1 2 2]
        ⟨[], [[2, 9], [2, 8]]⟩ blank) = some [0] ∧
      missed_of (do_conv_csi sample_extern sample_cond binary_args [follow_col 1 2 2]
        ⟨[252, 2, 0, 9, 252, 2, 0, 8, 127, 255], []⟩ blank) = some [2] :=
  ⟨by decide, by decide, by decide, by decide, by decide, by decide⟩

/-- C16: a derived-time column `T = coldef[t]` with `time_got_comp = 0`, two direct
component columns `d1` and `d2` of the record kind that end in different input columns
and are the only components of `T`, and no hour-minute conversion in the table. After
the routing loop of the value unit that completes `d1` (value `v1`) and the routing loop
of the value unit that completes `d2` (value `v2`), the current slot of `T` holds
`0 + (v1 - o1) * m1 + (v2 - o2) * m2`, whatever it held before, `time_got_comp` is 2 and
the counters of `T` have not moved. Where `0 + x = x` this is
`(v1 - o1) * m1 + (v2 - o2) * m2`. -/
theorem derived_time_value (E : Extern V) (array_id : Int) (sol1 sol2 : Bool) (n : Nat)
    (cd : List (column_def V)) (v1 v2 : V) (t j1 j2 : Nat) (T d1 d2 : column_def V)
    (hT : cd[t]? = some T) (hTt : T.i_am_time = true) (hT0 : T.time_got_comp = 0)
    (hj1 : j1 < n) (hj2 : j2 < n) (h1 : cd[j1]? = some d1) (h2 : cd[j2]? = some d2)
    (hk1 : d1.array_id = array_id) (hk2 : d2.array_id = array_id)
    (hf1 : d1.follow_id = -1) (hf2 : d2.follow_id = -1)
    (hn1 : d1.i_am_time = false) (hn2 : d2.i_am_time = false)
    (hc1 : d1.time_comp = true) (hc2 : d2.time_comp = true)
    (ht1 : d1.time_colnum = (t : Int)) (ht2 : d2.time_colnum = (t : Int))
    (hs1 : 1 ≤ d1.ncol) (hs2 : 1 ≤ d2.ncol)
    (hdiff : d1.col_num + d1.ncol - 1 ≠ d2.col_num + d2.ncol - 1)
    (honly : ∀ (j : Nat) (d : column_def V), j < n → cd[j]? = some d → d.time_comp = true →
      d.time_colnum = (t : Int) → j = j1 ∨ j = j2)
    (hhm : ∀ (j : Nat) (d : column_def V), j < n → cd[j]? = some d → d.time_csi_hm = false) :
    ∃ T2, (for_loop n (route_col E array_id (d2.col_num + d2.ncol - 1) sol2)
        ((for_loop n (route_col E array_id (d1.col_num + d1.ncol - 1) sol1) (cd, v1)).1,
          v2)).1[t]? = some T2 ∧
      T2.time_got_comp = 2 ∧ T2.index = T.index ∧ T2.curr_index = T.curr_index ∧
      T2.values T.curr_index =
        E.add (E.add E.zero (E.mul (E.sub v1 d1.time_offset) d1.time_mult))
          (E.mul (E.sub v2 d2.time_offset) d2.time_mult) ∧
      ((∀ x, E.add E.zero x = x) →
        T2.values T.curr_index =
          E.add (E.mul (E.sub v1 d1.time_offset) d1.time_mult)
            (E.mul (E.sub v2 d2.time_offset) d2.time_mult)) := by
  have hj12 : j1 ≠ j2 := by
    intro h
    subst h
    rw [h1] at h2
    cases h2
    exact hdiff rfl
  -- the first unit: only `d1` adds a component to `T`
  have hfirst := route_loop_time E array_id (d1.col_num + d1.ncol - 1) sol1 n cd v1 t j1 T d1
    hT hTt hj1 h1 (adds_time_direct array_id sol1 d1 hk1 hf1 hn1 hc1 hs1) ht1 hf1
    (fun j d hj hd ha htc => by
      rcases honly j d hj hd (adds_time_comp _ _ _ d ha) htc with h | h
      · exact h
      · subst h
        rw [h2] at hd
        cases hd
        exact absurd (adds_time_direct_only _ _ _ d2 hf2 ha).1.symm hdiff)
  rw [route_loop_value E array_id _ sol1 j1 cd v1
    (fun j d hj hd => converts_hm _ _ _ d (hhm j d (by omega) hd))] at hfirst
  have hterm1 : time_term E v1 d1 = E.mul (E.sub v1 d1.time_offset) d1.time_mult := by
    simp [time_term, hf1, hhm j1 d1 hj1 h1]
  rw [hterm1] at hfirst
  obtain ⟨a1, a2, a3, a4, a5⟩ := add_time_component_first E
    (E.mul (E.sub v1 d1.time_offset) d1.time_mult) T hT0
  -- the second unit runs on the table the first unit left
  obtain ⟨d2', hd2', hst2⟩ : ∃ d2', (for_loop n (route_col E array_id
      (d1.col_num + d1.ncol - 1) sol1) (cd, v1)).1[j2]? = some d2' ∧
      static_of d2 = static_of d2' := by
    have h := route_loop_static E array_id (d1.col_num + d1.ncol - 1) sol1 n (cd, v1) j2
    simp only [] at h
    rw [h2] at h
    cases hx : (for_loop n (route_col E array_id (d1.col_num + d1.ncol - 1) sol1)
        (cd, v1)).1[j2]? with
    | none =>
      rw [hx] at h
      cases h
    | some d =>
      rw [hx] at h
      simp only [Option.map_some', Option.some.injEq] at h
      exact ⟨d, rfl, h.symm⟩
  have hf2' : d2'.follow_id = -1 := by
    simp only [static_of, Prod.mk.injEq] at hst2
    rw [← hst2.2.1]
    exact hf2
  have htc2' : d2'.time_colnum = (t : Int) := by
    simp only [static_of, Prod.mk.injEq] at hst2
    rw [← hst2.2.2.2.2.2.2.2.1]
    exact ht2
  have hsecond := route_loop_time E array_id (d2.col_num + d2.ncol - 1) sol2 n
    (for_loop n (route_col E array_id (d1.col_num + d1.ncol - 1) sol1) (cd, v1)).1 v2 t j2
    _ d2' hfirst (by rw [a5]; exact hTt) hj2 hd2'
    (by
      rw [← adds_time_static array_id _ sol2 d2 d2' hst2]
      exact adds_time_direct array_id sol2 d2 hk2 hf2 hn2 hc2 hs2)
    htc2' hf2'
    (fun j d hj hd ha htc => by
      obtain ⟨d0, hd0, hs0⟩ := route_loop_entry E array_id _ sol1 n cd v1 j d hd
      have ha0 : adds_time array_id (d2.col_num + d2.ncol - 1) sol2 d0 = true := by
        rw [adds_time_static array_id _ sol2 d0 d hs0]
        exact ha
      have htc0 : d0.time_colnum = (t : Int) := by
        simp only [static_of, Prod.mk.injEq] at hs0
        rw [hs0.2.2.2.2.2.2.2.1]
        exact htc
      rcases honly j d0 hj hd0 (adds_time_comp _ _ _ d0 ha0) htc0 with h | h
      · subst h
        rw [h1] at hd0
        cases hd0
        exact absurd (adds_time_direct_only _ _ _ d1 hf1 ha0).1 hdiff
      · exact h)
  rw [route_loop_value E array_id _ sol2 j2 _ v2
    (fun j d hj hd => by
      obtain ⟨d0, hd0, hs0⟩ := route_loop_entry E array_id _ sol1 n cd v1 j d hd
      rw [← converts_static array_id _ sol2 d0 d hs0]
      exact converts_hm _ _ _ d0 (hhm j d0 (by omega) hd0))] at hsecond
  have hterm2 : time_term E v2 d2' = E.mul (E.sub v2 d2.time_offset) d2.time_mult := by
    rw [← time_term_static E v2 d2 d2' hst2 hf2]
    simp [time_term, hf2, hhm j2 d2 hj2 h2]
  rw [hterm2] at hsecond
  obtain ⟨b1, b2, b3, b4⟩ := add_time_component_next E
    (E.mul (E.sub v2 d2.time_offset) d2.time_mult)
    (add_time_component E (E.mul (E.sub v1 d1.time_offset) d1.time_mult) T)
    (by rw [a2]; decide)
  rw [a3] at b1
  have hval : (add_time_component E (E.mul (E.sub v2 d2.time_offset) d2.time_mult)
      (add_time_component E (E.mul (E.sub v1 d1.time_offset) d1.time_mult) T)).values
      T.curr_index =
      E.add (E.add E.zero (E.mul (E.sub v1 d1.time_offset) d1.time_mult))
        (E.mul (E.sub v2 d2.time_offset) d2.time_mult) := by
    rw [b1, a1]
  refine ⟨_, hsecond, ?_, ?_, ?_, hval, fun hz => ?_⟩
  · rw [b2, a2]
    rfl
  · rw [b4, a4]
  · rw [b3, a3]
  · rw [hval, hz]

/-- C16 at an input: hours 13 and minutes 45 with multipliers 3600 and 60 and offsets 0
give 49500 in the slot of the time column, and that is the value the sink receives
for the record `1,13,45`. -/
theorem derived_time_value_witness :
    (time_col 7 2).time_got_comp = 0 ∧
      Option.map (fun T => (T.values 0, T.time_got_comp))
        ((for_loop 3 (route_col sample_extern 1 3 false)
          ((for_loop 3 (route_col sample_extern 1 2 false) (time_table, 13)).1, 45)).1[2]?) =
        some (49500, 2) ∧
      sink_of (do_conv_csi sample_extern sample_cond text_args time_table
        ⟨[], [[1, 13, 45]]⟩ blank) =
        some [(2, 0, 1, [13]), (3, 0, 1, [45]), (99, 0, 1, [49500])] := by
  refine ⟨by decide, ?_, by decide⟩
  have hcols : ∀ (j : Nat) (d : column_def Int), j < 3 → time_table[j]? = some d →
      (d.time_comp = true → d.time_colnum = ((2 : Nat) : Int) → j = 0 ∨ j = 1) ∧
      d.time_csi_hm = false := by
    intro j d hj hd
    interval_cases j
    · cases hd
      exact ⟨fun _ _ => Or.inl rfl, rfl⟩
    · cases hd
      exact ⟨fun _ _ => Or.inr rfl, rfl⟩
    · cases hd
      exact ⟨fun h _ => (by cases h), rfl⟩
  obtain ⟨T2, h, g, -, -, -, hz⟩ := derived_time_value sample_extern 1 false false 3 time_table
    13 45 2 0 1 (time_col 7 2) (comp_col 1 2 2 3600) (comp_col 1 3 2 60)
    rfl rfl rfl (by decide) (by decide) rfl rfl rfl rfl rfl rfl rfl rfl rfl rfl rfl rfl
    (by decide) (by decide) (by decide)
    (fun j d hj hd => (hcols j d hj hd).1) (fun j d hj hd => (hcols j d hj hd).2)
  have h3 : (for_loop 3 (route_col sample_extern 1 3 false)
      ((for_loop 3 (route_col sample_extern 1 2 false) (time_table, 13)).1, 45)).1[2]? =
      some T2 := h
  have hv : T2.values 0 = 49500 := hz (fun x => Int.zero_add x)
  rw [h3, Option.map_some', hv, g]

set_option maxHeartbeats 1000000 in
/-- C17 on a binary file: two records of kind 1, each delivers the one component of the
time column. The time column is not finalized at the record boundary, the second
component is added to the slot of the first, and after the session the time column has
`index = 0` and nothing of it reaches the sink. The same records in a text file give
`index = 2` and the time values 420 and 540. -/
theorem binary_time_not_finalized :
    counters_of (do_conv_csi sample_extern sample_cond binary_args
        [comp_col 1 2 1 60, time_col 7 1]
        ⟨[252, 1, 0, 7, 252, 1, 0, 9, 127, 255], []⟩ blank) = some [(2, 2, 0), (0, 0, 0)] ∧
      sink_of (do_conv_csi sample_extern sample_cond binary_args
        [comp_col 1 2 1 60, time_col 7 1]
        ⟨[252, 1, 0, 7, 252, 1, 0, 9, 127, 255], []⟩ blank) =
        some [(2, 0, 2, [7, 9]), (99, 0, 0, [])] ∧
      counters_of (do_conv_csi sample_extern sample_cond text_args
        [comp_col 1 2 1 60, time_col 7 1] ⟨[], [[1, 7], [1, 9]]⟩ blank) =
        some [(2, 2, 0), (2, 2, 0)] ∧
      sink_of (do_conv_csi sample_extern sample_cond text_args
        [comp_col 1 2 1 60, time_col 7 1] ⟨[], [[1, 7], [1, 9]]⟩ blank) =
        some [(2, 0, 2, [7, 9]), (99, 0, 2, [420, 540])] :=
  ⟨by decide, by decide, by decide, by decide⟩

/-- C18: the flush loop of a record boundary (lines 446-462). The sink receives, in
table order, exactly one write for every column whose `curr_index` equals
`MAX_SAMPLES`; such a column keeps `index`, its `curr_index` becomes 0 and, for counters
with `index - first_index = curr_index`, its `first_index` grows by the old
`curr_index` and the write covers the rows `first_index .. first_index + curr_index`
with `ncol` as second dimension and the column buffer as data. A column whose
`curr_index` differs from `MAX_SAMPLES` is unchanged, and no write is issued for it. -/
theorem flush_at_boundary (E : Extern V) (n : Nat) (cd : List (column_def V))
    (sk : List (nc_write V)) :
    (flush E n (cd, sk)).2 = sk ++ flush_writes E n cd ∧
    (∀ (i : Nat) (c : column_def V), i < n → cd[i]? = some c →
      c.curr_index = E.MAX_SAMPLES →
      (flush E n (cd, sk)).1[i]? = some (flush_reset c) ∧
      (flush_reset c).index = c.index ∧ (flush_reset c).curr_index = 0 ∧
      (c.index - c.first_index = c.curr_index →
        (flush_reset c).first_index = c.first_index + c.curr_index ∧
        (0 ≤ c.first_index → c.first_index < E.size_t_modulus →
          0 ≤ c.curr_index → c.curr_index < E.size_t_modulus →
          0 ≤ c.ncol → c.ncol < E.size_t_modulus →
          (flush_write E c).nc_var = c.nc_var ∧
          (flush_write E c).start0 = c.first_index ∧
          (flush_write E c).count0 = c.curr_index ∧
          (flush_write E c).start1 = 0 ∧
          (flush_write E c).count1 = c.ncol ∧
          (flush_write E c).values = c.values))) ∧
    (∀ (i : Nat) (c : column_def V), cd[i]? = some c → c.curr_index ≠ E.MAX_SAMPLES →
      (flush E n (cd, sk)).1[i]? = some c) := by
  obtain ⟨h1, h2⟩ := flush_spec E n cd sk
  refine ⟨h2, ?_, ?_⟩
  · intro i c hi hc hfull
    refine ⟨?_, rfl, rfl, ?_⟩
    · rw [h1 i, if_pos hi, hc]
      simp [hfull]
    · intro hinv
      refine ⟨?_, ?_⟩
      · show c.index = _
        omega
      · intro a0 a1 b0 b1 c0 c1
        refine ⟨rfl, to_size_t_id E _ a0 a1, ?_, rfl, to_size_t_id E _ c0 c1, rfl⟩
        show to_size_t E (c.index - c.first_index) = _
        rw [hinv]
        exact to_size_t_id E _ b0 b1
  · intro i c hc hne
    rw [h1 i]
    by_cases hi : i < n
    · rw [if_pos hi, hc]
      simp [hne]
    · rw [if_neg hi, hc]

/-- C18 at an input: with `MAX_SAMPLES = 3` a column with three buffered samples is
written as rows 0 to 2 and reset, the column next to it with one sample is left. -/
theorem flush_at_boundary_witness :
    full_col.curr_index = sample_extern.MAX_SAMPLES ∧
      (flush sample_extern 2 ([full_col, direct_col 1 3], [])).1[0]? =
        some (flush_reset full_col) ∧
      ((flush sample_extern 2 ([full_col, direct_col 1 3], [])).2.map
        (fun w => (w.nc_var, w.start0, w.count0, w.count1))) = [(2, 0, 3, 1)] ∧
      ((flush sample_extern 2 ([full_col, direct_col 1 3], [])).1.map
        (fun c => (c.index, c.curr_index, c.first_index))) = [(3, 0, 3), (0, 0, 0)] :=
  ⟨by decide,
    ((flush_at_boundary sample_extern 2 [full_col, direct_col 1 3] []).2.1 0 full_col
      (by decide) rfl (by decide)).1,
    by decide, by decide⟩

/-- C19: the back-fill loop of a record boundary in sloppy mode (lines 375-391). A
column of the completed record's kind without `got_val` gets `FillValue` in the `ncol`
slots of its current sample and no other slot changes, `index` and `curr_index` grow by
exactly one and `got_val` is set. A column that has `got_val`, or is of another record
kind, is unchanged. -/
theorem sloppy_backfill (a : Args κ) (array_id : Int) (n : Nat) (cd : List (column_def V))
    (hs : a.sloppy = true) :
    (∀ (i : Nat) (c : column_def V), i < n → cd[i]? = some c → c.array_id = array_id →
      c.got_val = false →
      (backfill a array_id n cd)[i]? = some (fill_missing c) ∧
      (fill_missing c).index = c.index + 1 ∧
      (fill_missing c).curr_index = c.curr_index + 1 ∧
      (fill_missing c).got_val = true ∧
      (∀ j : Int, 0 ≤ j → j < c.ncol →
        (fill_missing c).values (c.ncol * c.curr_index + j) = c.FillValue) ∧
      (∀ k : Int, k < c.ncol * c.curr_index ∨ c.ncol * c.curr_index + c.ncol ≤ k →
        (fill_missing c).values k = c.values k)) ∧
    (∀ (i : Nat) (c : column_def V), cd[i]? = some c →
      c.got_val = true ∨ c.array_id ≠ array_id →
      (backfill a array_id n cd)[i]? = some c) := by
  have hget : ∀ i, (backfill a array_id n cd)[i]? =
      if i < n then cd[i]?.map (fun c =>
        if c.array_id = array_id then
          if !c.got_val then fill_missing c else c
        else c) else cd[i]? := by
    intro i
    simp only [backfill, hs, if_true]
    exact for_loop_modify_get _ n cd i
  constructor
  · intro i c hi hc hk hg
    refine ⟨?_, rfl, rfl, rfl, ?_, ?_⟩
    · rw [hget, if_pos hi, hc]
      simp [hk, hg]
    · intro j hj0 hj1
      show for_loop c.ncol.toNat
        (fun j vals => poke vals (c.ncol * c.curr_index + (j : Int)) c.FillValue) c.values _ = _
      rw [poke_range c.ncol.toNat (c.ncol * c.curr_index) (fun _ => c.FillValue), if_pos]
      constructor
      · omega
      · have : ((c.ncol.toNat : Nat) : Int) = c.ncol := Int.toNat_of_nonneg (by omega)
        omega
    · intro k hk'
      show for_loop c.ncol.toNat
        (fun j vals => poke vals (c.ncol * c.curr_index + (j : Int)) c.FillValue) c.values _ = _
      rw [poke_range c.ncol.toNat (c.ncol * c.curr_index) (fun _ => c.FillValue), if_neg]
      intro h
      have h3 : ((c.ncol.toNat : Nat) : Int) ≤ max c.ncol 0 := by
        rcases le_total 0 c.ncol with h0 | h0
        · rw [Int.toNat_of_nonneg h0]
          exact le_max_left _ _
        · rw [Int.toNat_eq_zero.mpr h0]
          exact le_max_right _ _
      rcases hk' with hk' | hk'
      · omega
      · rcases le_total 0 c.ncol with h0 | h0
        · rw [max_eq_left h0] at h3
          omega
        · rw [max_eq_right h0] at h3
          omega
  · intro i c hc hor
    rw [hget]
    by_cases hi : i < n
    · rw [if_pos hi, hc]
      rcases hor with hg | hk
      · simp [hg]
      · simp [hk]
    · rw [if_neg hi, hc]

/-- C19 at an input: sloppy mode, two columns of kind 1 of which only the first has a
value; the second is filled and advanced, the first is left. -/
theorem sloppy_backfill_witness :
    sloppy_args.sloppy = true ∧
      (backfill sloppy_args 1 2 [{ direct_col 1 2 with got_val := true }, direct_col 1 3])[1]? =
        some (fill_missing (direct_col 1 3)) ∧
      (fill_missing (direct_col 1 3)).values 0 = -1 ∧
      ((backfill sloppy_args 1 2 [{ direct_col 1 2 with got_val := true }, direct_col 1 3]).map
        (fun c => (c.index, c.curr_index, c.got_val))) = [(0, 0, true), (1, 1, true)] :=
  ⟨by decide,
    ((sloppy_backfill sloppy_args 1 2 [{ direct_col 1 2 with got_val := true }, direct_col 1 3]
      (by decide)).1 1 (direct_col 1 3) (by decide) rfl (by decide) (by decide)).1,
    by decide, by decide⟩

/-- C20 on the record `1,1345`: the first column of the table is a time component in
hour-minute notation on input column 2, the second a plain direct column on the same
input column (variable 5). The direct column stores 49500, the converted value that
line 570 left in `value`, not the decoded 1345. -/
theorem direct_column_stores_converted_value :
    sink_of (do_conv_csi sample_extern sample_cond text_args hm_table
        ⟨[], [[1, 1345]]⟩ blank) =
        some [(2, 0, 1, [1345]), (5, 0, 1, [49500]), (99, 0, 1, [49500])] ∧
      counters_of (do_conv_csi sample_extern sample_cond text_args hm_table
        ⟨[], [[1, 1345]]⟩ blank) = some [(1, 1, 0), (1, 1, 0), (1, 1, 0)] :=
  ⟨by decide, by decide⟩

/-- C21 on the text file with the single record `1,7,8`, rejected by the filter "column 2
of kind 1 is 5": the direct column on input column 3 was advanced by the record and is
rolled back to 0, the follow column on input column 2 only captured the value 7 (its
counters were not advanced) and is decremented all the same, to -1. The rollback at a
record boundary inside the file (lines 414-425) leaves such a column alone: with the
rejected record `1,7` followed by the accepted record `1,5` the counters stay 0. -/
theorem last_rollback_hits_captured_column :
    counters_of (do_conv_csi sample_extern sample_cond text_args
        [direct_col 1 3, follow_col 1 2 2] ⟨[], [[1, 7, 8]]⟩ filtered) =
        some [(0, 0, 0), (-1, -1, 0)] ∧
      counters_of (do_conv_csi sample_extern sample_cond text_args
        [follow_col 1 2 2] ⟨[], [[1, 7], [1, 5]]⟩ filtered) = some [(0, 0, 0)] :=
  ⟨by decide, by decide⟩

/-- C22 as stated fails: the dummy word `7F FF` after the record start `FC 01` is
decoded with `colnum = 1` and leaves `colnum = -1`. -/
theorem dummy_word_resets_column_cursor :
    sample_extern.bytetype
        ((second_unit_state binary_args [252, 1, 127, 255, 0, 7, 0, 8]).data
          (second_unit_state binary_args [252, 1, 127, 255, 0, 7, 0, 8]).curr_byte)
        ((second_unit_state binary_args [252, 1, 127, 255, 0, 7, 0, 8]).data
          ((second_unit_state binary_args [252, 1, 127, 255, 0, 7, 0, 8]).curr_byte + 1)) =
        ByteType.DUMMY_WORD ∧
      (second_unit_state binary_args [252, 1, 127, 255, 0, 7, 0, 8]).colnum = 1 ∧
      cursor_of (unit_step sample_extern sample_cond binary_args
        (second_unit_state binary_args [252, 1, 127, 255, 0, 7, 0, 8])) = some (4, -1) :=
  ⟨by decide, by decide, by decide⟩

/-- C22 amended: a dummy word (lines 502-510) advances the byte cursor by exactly two
and the count of dummy words by exactly one, routes nothing (`valid_sample` stays
clear, the column table and the sink are unchanged) and sets `colnum` to -1, whatever
it was. -/
theorem dummy_word_unit (E : Extern V) (O : CondOps κ V) (a : Args κ) (s : State κ V)
    (hbin : a.txtfile = false)
    (h1 : E.bytetype (s.data s.curr_byte) (s.data (s.curr_byte + 1)) = ByteType.DUMMY_WORD) :
    ∃ t, unit_step E O a s = Except.ok t ∧ t.curr_byte = s.curr_byte + 2 ∧
      t.ndummy = s.ndummy + 1 ∧ t.colnum = -1 ∧ t.coldef = s.coldef ∧ t.sink = s.sink ∧
      t.valid_sample = false := by
  have hcls : (classify E a s).1 = ByteType.DUMMY_WORD := by
    rw [(classify_binary E a s hbin).1]
    exact h1
  have hd : dispatch E O a (classify E a s).1 (before_switch E a s) =
      Except.ok (dummy_word (before_switch E a s)) := by
    rw [hcls]
    rfl
  have hv : (dummy_word (before_switch E a s)).valid_sample = false :=
    (before_switch_locals E a s).1
  refine ⟨_, unit_step_not_routed hd hv, ?_, ?_, ?_, ?_, ?_, ?_⟩
  · rw [(feed_conditions_cursor O a _).2.1]
    show (before_switch E a s).curr_byte + 2 = _
    rw [(before_switch_cursor E a s).2.1]
  · rw [(feed_conditions_locals O a _).1]
    show (before_switch E a s).ndummy + 1 = _
    rw [before_switch_ndummy E a s hcls]
  · rw [(feed_conditions_cursor O a _).1]
    rfl
  · rw [(feed_conditions_frame O a _).1]
    exact (before_switch_frame E a s).1
  · rw [(feed_conditions_cursor O a _).2.2.1]
    exact (before_switch_frame E a s).2.2.2.1
  · rw [(feed_conditions_frame O a _).2]
    exact hv

/-- C22 amended, at an input: the dummy word `7F FF` after the record start `FC 01`
moves the cursor from byte 2 to byte 4 and `colnum` from 1 to -1. -/
theorem dummy_word_unit_witness :
    binary_args.txtfile = false ∧
      (second_unit_state binary_args [252, 1, 127, 255, 0, 7, 0, 8]).curr_byte = 2 ∧
      cursor_of (unit_step sample_extern sample_cond binary_args
        (second_unit_state binary_args [252, 1, 127, 255, 0, 7, 0, 8])) = some (4, -1) := by
  refine ⟨by decide, by decide, ?_⟩
  obtain ⟨t, h, hc, -, hn, -⟩ := dummy_word_unit sample_extern sample_cond binary_args
    (second_unit_state binary_args [252, 1, 127, 255, 0, 7, 0, 8]) (by decide) (by decide)
  rw [h, cursor_of, hc, hn]
  decide

/-- C23 on two binary inputs. After the inner loop over `FC 01 00 05` two bytes are
left, the complete two-byte value `00 05`. After the inner loop over
`FC 01 1C 00 3C` the cursor is one byte beyond the bytes read: the four-byte value that
starts at byte 2 was consumed with three bytes available. -/
theorem carry_over_out_of_range :
    remainder_of (first_chunk_run [252, 1, 0, 5]) = some 2 ∧
      remainder_of (first_chunk_run [252, 1, 28, 0, 60]) = some (-1) :=
  ⟨by decide, by decide⟩

/-- C24 on the text line with the single token `1`: after the record start the cursor
is 1 = `ncol`, the next value unit moves it to 2 without ending the line, and the inner
loop does not end: five units later the cursor is 5, and for every bound on the number
of passes the loop is still running at the bound. The line `1,7,8` ends after the
record start and two value units with the cursor at 3 = `ncol`. -/
theorem single_token_line_never_ends :
    (first_line_state text_args [direct_col 1 2] [1] blank).ncol = 1 ∧
      cursor_of (run_units sample_extern sample_cond text_args 5
        (first_line_state text_args [direct_col 1 2] [1] blank)) = some (0, 5) ∧
      (∀ n, inner_loop sample_extern sample_cond text_args n
        (first_line_state text_args [direct_col 1 2] [1] blank) =
        Except.error Fatal.out_of_fuel) ∧
      cursor_of (read_and_process sample_extern sample_cond text_args (Read.line [1, 7, 8])
        (initialize_call sample_extern text_args [direct_col 1 2] blank)) = some (0, 3) := by
  refine ⟨by decide, by decide, fun n => ?_, by decide⟩
  cases n with
  | zero =>
    unfold inner_loop
    rw [if_pos (by decide)]
  | succ n =>
    obtain ⟨t, ht⟩ := ok_of_fatal_none (r := unit_step sample_extern sample_cond text_args
      (first_line_state text_args [direct_col 1 2] [1] blank)) (by decide)
    have hst : state_after text_args 1 (first_line_state text_args [direct_col 1 2] [1] blank) =
        t := by
      simp only [state_after, run_units, ht]
      rfl
    rw [inner_loop_step n (by decide), ht]
    show inner_loop sample_extern sample_cond text_args n t = _
    rw [← hst]
    exact text_line_overrun sample_extern sample_cond text_args rfl n _ (by decide) (by decide)
      (by decide) (by decide)

/-- C25: a value token of a text file (lines 284-295) with a column cursor that is not
negative. The cursor advances to the 1-based position `c = colnum + 1` of the token,
the sample is valid, and the decoded value, which is what the conditions and the routing
loop receive, is `FillValue` of `coldef[col2vardef[c-1]]` when token `c-1` is the
no-value sentinel and the token itself otherwise. -/
theorem text_value_decoded (E : Extern V) (O : CondOps κ V) (a : Args κ) (s : State κ V)
    (hcls : (classify E a s).1 = ByteType.TXT_VALUE) (hcol : 0 ≤ s.colnum) :
    ∃ u, dispatch E O a (classify E a s).1 (before_switch E a s) = Except.ok u ∧
      unit_step E O a s = Except.ok (route E a (feed_conditions O a u)) ∧
      u.colnum = s.colnum + 1 ∧ u.valid_sample = true ∧ u.coldef = s.coldef ∧
      (feed_conditions O a u).value = u.value ∧
      (E.is_no_value (s.txtdata s.colnum) = true →
        ∀ d, s.coldef[E.col2vardef s.colnum]? = some d → u.value = d.FillValue) ∧
      (E.is_no_value (s.txtdata s.colnum) = false → u.value = s.txtdata s.colnum) := by
  obtain ⟨c1, -, -, -, -⟩ := before_switch_cursor E a s
  obtain ⟨-, -, t3⟩ := before_switch_text E a s
  obtain ⟨f1, -⟩ := before_switch_frame E a s
  have hpos : (before_switch E a s).colnum ≥ 0 := by
    rw [c1]
    exact hcol
  have hd : dispatch E O a (classify E a s).1 (before_switch E a s) =
      Except.ok (txt_value E (before_switch E a s)) := by
    rw [hcls]
    rfl
  have hu : unit_step E O a s =
      Except.ok (route E a (feed_conditions O a (txt_value E (before_switch E a s)))) := by
    unfold unit_step
    rw [hd]
    rfl
  obtain ⟨k1, k2, k3, -, k5, k6⟩ := txt_value_spec E (before_switch E a s) hpos
  rw [c1] at k1
  rw [f1] at k3
  rw [c1, t3, f1] at k5
  rw [c1, t3] at k6
  have key := And.intro k1 (And.intro k2 (And.intro k3 (And.intro k5 k6)))
  exact ⟨_, hd, hu, key.1, key.2.1, key.2.2.1, (feed_conditions_cursor O a _).2.2.2.2.2.1,
    key.2.2.2.1, key.2.2.2.2⟩

/-- C25 at an input: the second token of the line `1,-9999` is the no-value sentinel of
`sample_extern`; the unit is decoded as position 2 with the value -1, the `FillValue`
of the column that owns the position, and that is what the sink receives. -/
theorem text_value_decoded_witness :
    (classify sample_extern text_args (state_after text_args 1
        (first_line_state text_args [direct_col 1 2] [1, -9999] blank))).1 =
        ByteType.TXT_VALUE ∧
      sample_extern.is_no_value ((state_after text_args 1
        (first_line_state text_args [direct_col 1 2] [1, -9999] blank)).txtdata 1) = true ∧
      decoded_of (dispatch sample_extern sample_cond text_args
        (classify sample_extern text_args (state_after text_args 1
          (first_line_state text_args [direct_col 1 2] [1, -9999] blank))).1
        (before_switch sample_extern text_args (state_after text_args 1
          (first_line_state text_args [direct_col 1 2] [1, -9999] blank)))) = some (2, -1) ∧
      sink_of (do_conv_csi sample_extern sample_cond text_args [direct_col 1 2]
        ⟨[], [[1, -9999]]⟩ blank) = some [(2, 0, 1, [-1])] := by
  refine ⟨by decide, by decide, ?_, by decide⟩
  obtain ⟨u, hd, -, hc, -, -, -, hfill, -⟩ := text_value_decoded sample_extern sample_cond
    text_args (state_after text_args 1
      (first_line_state text_args [direct_col 1 2] [1, -9999] blank)) (by decide) (by decide)
  rw [hd, decoded_of, hc, hfill (by decide) (direct_col 1 2) rfl]
  decide

/-- C26 as stated fails for the check between input files in sloppy mode: after the
first file (four records of kind 1, one of kind 2, `MAX_SAMPLES = 3`) the counters are
`(4, 1, 3)` and `(1, 1, 0)` and both columns satisfy `index - first_index = curr_index`;
the check before the second file moves the second column to `index = 4` with
`curr_index = 1` and `first_index = 0`. -/
theorem sloppy_file_check_breaks_counters :
    counters_of (main sample_extern sample_cond { text_args with sloppy := true }
        [direct_col 1 2, direct_col 2 2] [uneven_file] blank) =
        some [(4, 1, 3), (1, 1, 0)] ∧
      agrees_of (main sample_extern sample_cond { text_args with sloppy := true }
        [direct_col 1 2, direct_col 2 2] [uneven_file] blank) = some true ∧
      counters_of (main sample_extern sample_cond { text_args with sloppy := true }
        [direct_col 1 2, direct_col 2 2] [uneven_file, ⟨[], []⟩] blank) =
        some [(4, 1, 3), (4, 1, 0)] ∧
      agrees_of (main sample_extern sample_cond { text_args with sloppy := true }
        [direct_col 1 2, direct_col 2 2] [uneven_file, ⟨[], []⟩] blank) = some false :=
  ⟨by decide, by decide, by decide, by decide⟩

/-- C26 amended: the relation `index - first_index = curr_index`, once it holds for
every column, is kept by the routing loop of a value unit (direct storage and follow
emission), by the sloppy back-fill, the rollback, the finalization of the time
coordinate and the flush of a record boundary, by the end-of-stream finalization, by
every unit and every whole call of `do_conv_csi`, and by the check between input files
in strict mode, which changes nothing. In sloppy mode that check sets `index` and
`curr_index` of every column to the two maxima of the table and leaves `first_index`. -/
theorem counter_invariant (E : Extern V) (O : CondOps κ V) (a : Args κ) :
    (∀ (array_id colnum : Int) (sol : Bool) (n : Nat) (cd : List (column_def V)) (v : V),
      table_agrees cd = true →
      table_agrees (for_loop n (route_col E array_id colnum sol) (cd, v)).1 = true) ∧
    (∀ (array_id : Int) (n : Nat) (cd : List (column_def V)), table_agrees cd = true →
      table_agrees (backfill a array_id n cd) = true ∧
      table_agrees (rollback array_id n cd) = true ∧
      table_agrees (time_coordinate n cd) = true ∧
      ∀ sk : List (nc_write V), table_agrees (flush E n (cd, sk)).1 = true) ∧
    (∀ s : State κ V, table_agrees s.coldef = true →
      table_agrees (end_of_stream E O a s).coldef = true) ∧
    (∀ s t : State κ V, unit_step E O a s = Except.ok t → table_agrees s.coldef = true →
      table_agrees t.coldef = true) ∧
    (∀ (formfile : List (column_def V)) (infile : InFile V) (s t : State κ V),
      do_conv_csi E O a formfile infile s = Except.ok t →
      table_agrees (if a.list_line = 0 ∧ a.filenum = 0 then formfile else s.coldef) = true →
      table_agrees t.coldef = true) ∧
    (∀ (i : Nat) (s t : State κ V), a.sloppy = false → cross_sync a i s = Except.ok t →
      table_agrees s.coldef = true → table_agrees t.coldef = true) ∧
    (∀ (i : Nat) (s : State κ V), a.sloppy = true → a.list_line = 0 → i ≥ 1 →
      ∃ t, cross_sync a i s = Except.ok t ∧
        ∀ (k : Nat) (c : column_def V), k < s.numcoldef → s.coldef[k]? = some c →
          ∃ c', t.coldef[k]? = some c' ∧
            c'.index = (max_counters s.numcoldef s.coldef).1 ∧
            c'.curr_index = (max_counters s.numcoldef s.coldef).2 ∧
            c'.first_index = c.first_index) := by
  have hR := respected_agreement E
  refine ⟨?_, ?_, ?_, ?_, ?_, ?_, ?_⟩
  · intro array_id colnum sol n cd v h
    exact table_agrees_of_rel (for_loop_rel hR.refl hR.trans
      (fun st : List (column_def V) × V => st.1) _
      (fun i st => route_col_rel hR array_id colnum sol i st) n (cd, v)) h
  · intro array_id n cd h
    exact ⟨table_agrees_of_rel (backfill_rel hR a array_id n cd) h,
      table_agrees_of_rel (rollback_rel hR array_id n cd) h,
      table_agrees_of_rel (time_coordinate_rel hR n cd) h,
      fun sk => table_agrees_of_rel (flush_rel hR n (cd, sk)) h⟩
  · intro s h
    exact table_agrees_of_rel (end_of_stream_rel hR O a s) h
  · intro s t hu h
    exact table_agrees_of_rel (unit_step_rel hR hu) h
  · intro formfile infile s t hd h
    exact table_agrees_of_rel (do_conv_csi_rel hR hd) h
  · intro i s t hs hc h
    rw [cross_sync_strict_ok hs hc]
    exact h
  · intro i s hs hconv hi
    obtain ⟨cd', h1, h2⟩ := cross_sync_sloppy a hs (max_counters s.numcoldef s.coldef)
      s.coldef s.numcoldef
    refine ⟨{ s with coldef := cd' }, ?_, ?_⟩
    · rw [cross_sync_eq a i s hconv hi, h1]
      rfl
    · intro k c hk hc
      have hk' : cd'[k]? = some
          { c with
            index := if c.index ≠ (max_counters s.numcoldef s.coldef).1
              then (max_counters s.numcoldef s.coldef).1 else c.index
            curr_index := if c.curr_index ≠ (max_counters s.numcoldef s.coldef).2
              then (max_counters s.numcoldef s.coldef).2 else c.curr_index } := by
        rw [h2 k, if_pos hk, hc]
        rfl
      refine ⟨_, hk', ?_, ?_, rfl⟩
      · show (if c.index ≠ _ then _ else c.index) = _
        by_cases hx : c.index = (max_counters s.numcoldef s.coldef).1
        · simp [hx]
        · simp [hx]
      · show (if c.curr_index ≠ _ then _ else c.curr_index) = _
        by_cases hx : c.curr_index = (max_counters s.numcoldef s.coldef).2
        · simp [hx]
        · simp [hx]

/-- C26 amended, at an input: the first file of the counterexample, with a flush of the
first column after three samples, leaves both columns with
`index - first_index = curr_index`. -/
theorem counter_invariant_witness :
    table_agrees [direct_col 1 2, direct_col 2 2] = true ∧
      counters_of (do_conv_csi sample_extern sample_cond { text_args with sloppy := true }
        [direct_col 1 2, direct_col 2 2] uneven_file blank) = some [(4, 1, 3), (1, 1, 0)] ∧
      agrees_of (do_conv_csi sample_extern sample_cond { text_args with sloppy := true }
        [direct_col 1 2, direct_col 2 2] uneven_file blank) = some true := by
  refine ⟨by decide, by decide, ?_⟩
  obtain ⟨t, ht⟩ := ok_of_fatal_none (r := do_conv_csi sample_extern sample_cond
    { text_args with sloppy := true } [direct_col 1 2, direct_col 2 2] uneven_file blank)
    (by decide)
  rw [ht]
  exact congrArg some ((counter_invariant sample_extern sample_cond
    { text_args with sloppy := true }).2.2.2.2.1 _ _ _ t ht (by decide))

/-- C27 on a faked text file of four lines with one token each and `MAX_SAMPLES = 3`:
only the first line gets a record start, so the flush of lines 446-462 never runs, the
fourth value is stored with `curr_index = 3 = MAX_SAMPLES` and the column ends with
`curr_index = 4`. With two tokens per line the buffer is flushed after three samples. -/
theorem faked_single_column_overruns_buffer :
    sample_extern.MAX_SAMPLES = 3 ∧
      counters_of (do_conv_csi sample_extern sample_cond fake_args [direct_col 1 1]
        ⟨[], [[5], [6], [7]]⟩ blank) = some [(3, 3, 0)] ∧
      counters_of (do_conv_csi sample_extern sample_cond fake_args [direct_col 1 1]
        ⟨[], [[5], [6], [7], [8]]⟩ blank) = some [(4, 4, 0)] ∧
      sink_of (do_conv_csi sample_extern sample_cond fake_args [direct_col 1 1]
        ⟨[], [[5], [6], [7], [8]]⟩ blank) = some [(1, 0, 4, [5, 6, 7, 8])] ∧
      counters_of (do_conv_csi sample_extern sample_cond fake_args
        [direct_col 1 1, direct_col 1 2] ⟨[], [[5, 1], [6, 1], [7, 1], [8, 1]]⟩ blank) =
        some [(4, 1, 3), (4, 1, 3)] :=
  ⟨by decide, by decide, by decide, by decide, by decide⟩

/-- C28 on the text file with the single record `1,7`, rejected by the filter: the
follow column only captured, the rollback of lines 664-669 leaves it with
`index = -1 < first_index = 0`, and the row count of its final write is the wrap-around
`2^64 - 1` of the difference -1. -/
theorem final_drain_count_wraps :
    sample_extern.size_t_modulus = 2 ^ 64 ∧
      counters_of (do_conv_csi sample_extern sample_cond text_args [follow_col 1 2 2]
        ⟨[], [[1, 7]]⟩ filtered) = some [(-1, -1, 0)] ∧
      writes_of (do_conv_csi sample_extern sample_cond text_args [follow_col 1 2 2]
        ⟨[], [[1, 7]]⟩ filtered) = some [(2, 0, 2 ^ 64 - 1)] :=
  ⟨by decide, by decide, by decide⟩

/-- C29 on the value unit 1345 at input column 2 of kind 1: with the hour-minute time
component in front of the plain direct column on the same input column the direct
column stores 49500, with the direct column in front it stores 1345, and with the
hour-minute setting of the other column cleared it stores 1345 in either position. -/
theorem stored_value_depends_on_order :
    ((for_loop 3 (route_col sample_extern 1 2 false) (hm_table, 1345)).1.map
        (fun c => (c.nc_var, c.values 0))) = [(2, 1345), (5, 49500), (99, 49500)] ∧
      ((for_loop 3 (route_col sample_extern 1 2 false) (hm_table_swapped, 1345)).1.map
        (fun c => (c.nc_var, c.values 0))) = [(5, 1345), (2, 1345), (99, 49500)] ∧
      ((for_loop 3 (route_col sample_extern 1 2 false)
        ([comp_col 1 2 2 1, { direct_col 1 2 with nc_var := 5 }, time_col 7 1], 1345)).1.map
        (fun c => (c.nc_var, c.values 0))) = [(2, 1345), (5, 1345), (99, 1345)] :=
  ⟨by decide, by decide, by decide⟩

/-- C31: a binary file and a unit decoded with `colnum = -1`. A two-byte value and a
complete four-byte value are consumed (the byte cursor advances by 2 and by 4) with
`colnum` still -1, `valid_sample` clear and the column table and the sink unchanged:
nothing is routed. The same holds after every run of units that contains no record
start, whatever their kinds. A record start that returns sets `colnum` to 1. -/
theorem invalid_cursor_persists (E : Extern V) (O : CondOps κ V) (a : Args κ) (s : State κ V)
    (hbin : a.txtfile = false) (hcol : s.colnum = -1) :
    (E.bytetype (s.data s.curr_byte) (s.data (s.curr_byte + 1)) = ByteType.TWO_BYTE →
      ∃ t, unit_step E O a s = Except.ok t ∧ t.curr_byte = s.curr_byte + 2 ∧ t.colnum = -1 ∧
        t.valid_sample = false ∧ t.coldef = s.coldef ∧ t.sink = s.sink) ∧
    (E.bytetype (s.data s.curr_byte) (s.data (s.curr_byte + 1)) = ByteType.FOUR_BYTE_1 →
      E.bytetype (s.data (s.curr_byte + 2)) (s.data (s.curr_byte + 3)) = ByteType.FOUR_BYTE_2 →
      ∃ t, unit_step E O a s = Except.ok t ∧ t.curr_byte = s.curr_byte + 4 ∧ t.colnum = -1 ∧
        t.valid_sample = false ∧ t.coldef = s.coldef ∧ t.sink = s.sink) ∧
    (∀ (n : Nat) (t : State κ V), run_units E O a n s = Except.ok t →
      (∀ (m : Nat) (u : State κ V), m < n → run_units E O a m s = Except.ok u →
        E.bytetype (u.data u.curr_byte) (u.data (u.curr_byte + 1)) ≠ ByteType.START_OUTPUT) →
      t.colnum = -1 ∧ t.coldef = s.coldef ∧ t.sink = s.sink) ∧
    (E.bytetype (s.data s.curr_byte) (s.data (s.curr_byte + 1)) = ByteType.START_OUTPUT →
      ∀ t, unit_step E O a s = Except.ok t → t.colnum = 1) := by
  obtain ⟨c1, c2, c3, -, -⟩ := before_switch_cursor E a s
  have hn1 : ¬ (before_switch E a s).colnum > 0 := by
    rw [c1, hcol]
    decide
  refine ⟨?_, ?_, ?_, ?_⟩
  · intro h1
    have hcls : (classify E a s).1 = ByteType.TWO_BYTE := by
      rw [(classify_binary E a s hbin).1]
      exact h1
    have hd : dispatch E O a (classify E a s).1 (before_switch E a s) =
        Except.ok (two_byte E (before_switch E a s)) := by
      rw [hcls]
      rfl
    have hcur : (two_byte E (before_switch E a s)).curr_byte = s.curr_byte + 2 := by
      unfold two_byte
      simp only []
      rw [if_neg hn1, c2]
    obtain ⟨u1, u2, -, -⟩ := dispatch_invalid_cursor (by rw [hcls]; decide)
      (c1.trans hcol) (before_switch_locals E a s).1 hd
    have hu := unit_step_not_routed hd u2
    obtain ⟨t1, t2, t3, t4⟩ := unit_step_invalid_cursor (by rw [hcls]; decide) hcol hu
    exact ⟨_, hu, by rw [(feed_conditions_cursor O a _).2.1, hcur], t1, t2, t3, t4⟩
  · intro h1 h2
    have hcls : (classify E a s).1 = ByteType.FOUR_BYTE_1 := by
      rw [(classify_binary E a s hbin).1]
      exact h1
    have h2' : E.bytetype ((before_switch E a s).data ((before_switch E a s).curr_byte + 2))
        ((before_switch E a s).data ((before_switch E a s).curr_byte + 3)) =
        ByteType.FOUR_BYTE_2 := by
      rw [c2, c3]
      exact h2
    obtain ⟨u, hd, hcur⟩ : ∃ u, dispatch E O a (classify E a s).1 (before_switch E a s) =
        Except.ok u ∧ u.curr_byte = s.curr_byte + 4 := by
      rw [hcls]
      simp only [dispatch, four_byte]
      rw [if_pos h2', if_neg hn1]
      exact ⟨_, rfl, by rw [c2]⟩
    obtain ⟨u1, u2, -, -⟩ := dispatch_invalid_cursor (by rw [hcls]; decide)
      (c1.trans hcol) (before_switch_locals E a s).1 hd
    have hu := unit_step_not_routed hd u2
    obtain ⟨t1, t2, t3, t4⟩ := unit_step_invalid_cursor (by rw [hcls]; decide) hcol hu
    exact ⟨_, hu, by rw [(feed_conditions_cursor O a _).2.1, hcur], t1, t2, t3, t4⟩
  · intro n t hr hno
    exact run_units_invalid_cursor n hcol hr (fun m u hm hu => by
      rw [(classify_binary E a u hbin).1]
      exact hno m u hm hu)
  · intro h1 t hu
    have hcls : (classify E a s).1 = ByteType.START_OUTPUT := by
      rw [(classify_binary E a s hbin).1]
      exact h1
    obtain ⟨u, -, ht⟩ := unit_step_boundary hcls hu
    rw [ht, (feed_conditions_cursor O a _).1]
    exact begin_record_binary E O a u hbin

/-- C31 at an input: in the record `FC 01 7F FF 00 07 00 08` the dummy word leaves
`colnum = -1`; the two-byte value 7 behind it is consumed (cursor 4 to 6) without being
routed, and after the whole input the column of input column 2 has no sample. -/
theorem invalid_cursor_persists_witness :
    binary_args.txtfile = false ∧ after_dummy_state.colnum = -1 ∧
      sample_extern.bytetype (after_dummy_state.data after_dummy_state.curr_byte)
        (after_dummy_state.data (after_dummy_state.curr_byte + 1)) = ByteType.TWO_BYTE ∧
      cursor_of (unit_step sample_extern sample_cond binary_args after_dummy_state) =
        some (6, -1) ∧
      counters_of (unit_step sample_extern sample_cond binary_args after_dummy_state) =
        some [(0, 0, 0)] ∧
      counters_of (do_conv_csi sample_extern sample_cond binary_args [direct_col 1 2]
        ⟨dummy_bytes, []⟩ blank) = some [(0, 0, 0)] := by
  refine ⟨by decide, by decide, by decide, ?_, ?_, by decide⟩
  · obtain ⟨t, h, hc, hn, -⟩ := (invalid_cursor_persists sample_extern sample_cond binary_args
      after_dummy_state (by decide) (by decide)).1 (by decide)
    rw [h, cursor_of, hc, hn]
    decide
  · obtain ⟨t, h, -, -, -, hcd, -⟩ := (invalid_cursor_persists sample_extern sample_cond
      binary_args after_dummy_state (by decide) (by decide)).1 (by decide)
    rw [h, counters_of, hcd]
    decide

/-- C32 on faked text files with one token per line. The first unit of the second line
is classified as a value, not as a record start, because `fake_did_start_output` is
still set; three lines give one record start, and with the filter "column 1 is 5" the
lines `6` and `5` end up as two samples 6 and 5 of one record, the rejected 6 included.
With two tokens per line the second line starts a record, three lines give three record
starts and the filter keeps only the line with 5. -/
theorem faked_single_token_lines_share_a_record :
    (second_line_state fake_args [direct_col 1 1] [5] [6] blank).ncol = 1 ∧
      (second_line_state fake_args [direct_col 1 1] [5] [6] blank).fake_did_start_output =
        true ∧
      (classify sample_extern fake_args
        (second_line_state fake_args [direct_col 1 1] [5] [6] blank)).1 =
        ByteType.TXT_VALUE ∧
      linenum_of (do_conv_csi sample_extern sample_cond fake_args [direct_col 1 1]
        ⟨[], [[5], [6], [7]]⟩ blank) = some 1 ∧
      sink_of (do_conv_csi sample_extern sample_cond fake_args [direct_col 1 1]
        ⟨[], [[6], [5]]⟩ filtered_first) = some [(1, 0, 2, [6, 5])] ∧
      (classify sample_extern fake_args
        (second_line_state fake_args [direct_col 1 1, direct_col 1 2] [5, 1] [6, 1] blank)).1 =
        ByteType.START_OUTPUT ∧
      linenum_of (do_conv_csi sample_extern sample_cond fake_args
        [direct_col 1 1, direct_col 1 2] ⟨[], [[5, 1], [6, 1], [7, 1]]⟩ blank) = some 3 ∧
      sink_of (do_conv_csi sample_extern sample_cond fake_args
        [direct_col 1 1, direct_col 1 2] ⟨[], [[6, 1], [5, 1]]⟩ filtered_first) =
        some [(1, 0, 1, [5]), (2, 0, 1, [1])] :=
  ⟨by decide, by decide, by decide, by decide, by decide, by decide, by decide, by decide⟩

end Csi2ncdf
